import Mathlib

/-!
# SwitchInput: key debounce state machine and rotary encoder value model

A shallow embedding of `src/SwitchInput.h` and `src/SwitchInput.cpp`, and the properties of
the key state machine, the rotary encoder value model, the quadrature decoder and the
orchestrator proved about it.

Conventions of the embedding.

* `uint8_t` and `uint16_t` fields are natural numbers; every store that can leave the
  range of the field is reduced explicitly (`% 256`, `toU16`). An `int8_t` or `int`
  argument is an integer, its range a hypothesis where it matters.
* Function and listener pointers are natural numbers, `0` being `nullptr`; `pinid_t` is an
  integer.
* A member function that invokes callbacks returns the new object together with the list of
  the invocations it made, in order: for a key the `KeyEvent`s, for an encoder the arguments
  passed to `callback` (which the source calls without testing the pointer).
* `int` is taken to be wide enough to hold every `uint16_t` value, so that
  `callback(currentReading)` passes the stored value unchanged.
* What the I/O abstraction and the clock answer during a call is an argument of the call
  (`IoSnapshot`); `unsigned long` is 32 bits wide (`subU32`).
* The key collection of `SwitchInput` is the list of its items in the order of the
  collection; a one-shot task handed to the scheduler is recorded by its delay.
-/

namespace SwitchInput

/-! ## Constants of `SwitchInput.h` -/

/-- The constant `HOLD_THRESHOLD` (default of the header). -/
def HOLD_THRESHOLD : Nat := 20

/-- The constant `NO_REPEAT`. -/
def NO_REPEAT : Nat := 0xff

/-- Enumerator `NOT_PRESSED` of `KeyPressState : uint8_t`. -/
def NOT_PRESSED : Nat := 0
/-- Enumerator `DEBOUNCING1` of `KeyPressState : uint8_t`. -/
def DEBOUNCING1 : Nat := 1
/-- Enumerator `DEBOUNCING2` of `KeyPressState : uint8_t`. -/
def DEBOUNCING2 : Nat := 2
/-- Enumerator `PRESSED` of `KeyPressState : uint8_t`. -/
def PRESSED : Nat := 3
/-- Enumerator `BUTTON_HELD` of `KeyPressState : uint8_t`. -/
def BUTTON_HELD : Nat := 4

/-- The constant `KEY_PRESS_STATE_MASK`. -/
def KEY_PRESS_STATE_MASK : Nat := 0x0f
/-- The constant `KEY_LISTENER_MODE_BIT`. -/
def KEY_LISTENER_MODE_BIT : Nat := 7
/-- The constant `KEY_LOGIC_IS_INVERTED`. -/
def KEY_LOGIC_IS_INVERTED : Nat := 6

/-- Logic level `HIGH` of the Arduino core. -/
def HIGH : Nat := 1
/-- Logic level `LOW` of the Arduino core. -/
def LOW : Nat := 0

/-! ## Bit helpers of the Arduino core (`bitRead`, `bitWrite`) on a `uint8_t` -/

/-- Arduino `bitRead(value, bit)`, that is `((value >> bit) & 0x01)`, read as a boolean. -/
def bitRead (value bit : Nat) : Bool := Nat.testBit value bit

/-- Arduino `bitWrite(value, bit, bitvalue)` on a `uint8_t`: set or clear one bit. -/
def bitWrite (value bit : Nat) (bitvalue : Bool) : Nat :=
  if bitvalue then value ||| (1 <<< bit) else value &&& (255 - (1 <<< bit))

/-! ## `KeyboardItem` -/

/-- The fields of `class KeyboardItem`. `notify` is the union of the press callback and
the listener pointer (one machine word), `0` for `nullptr`. -/
structure KeyboardItem where
  stateFlags : Nat
  previousState : Nat
  pin : Int
  counter : Nat
  acceleration : Nat
  repeatInterval : Nat
  notify : Nat
  callbackOnRelease : Nat
  deriving DecidableEq, Repr

/-- One callback invocation made by a `KeyboardItem`. -/
inductive KeyEvent where
  /-- The call `notify.listener->onPressed(pin, held)`. -/
  | listenerPressed (pin : Int) (held : Bool)
  /-- The call `notify.callback(pin, held)`. -/
  | callbackPressed (pin : Int) (held : Bool)
  /-- The call `notify.listener->onReleased(pin, held)`. -/
  | listenerReleased (pin : Int) (held : Bool)
  /-- The call `callbackOnRelease(pin, held)`. -/
  | callbackReleased (pin : Int) (held : Bool)
  deriving DecidableEq, Repr

namespace KeyboardItem

/-- The default constructor `KeyboardItem()`. -/
def new : KeyboardItem :=
  { stateFlags := NOT_PRESSED, previousState := NOT_PRESSED, pin := -1, counter := 0,
    acceleration := 0, repeatInterval := NO_REPEAT, notify := 0, callbackOnRelease := 0 }

/-- The constructor `KeyboardItem(pin, callback, repeatInterval, keyLogicIsInverted)`. -/
def withCallback (pin : Int) (callback : Nat) (repeatInterval : Nat)
    (keyLogicIsInverted : Bool) : KeyboardItem :=
  { stateFlags :=
      bitWrite (bitWrite NOT_PRESSED KEY_LISTENER_MODE_BIT false)
        KEY_LOGIC_IS_INVERTED keyLogicIsInverted,
    previousState := NOT_PRESSED, pin := pin, counter := 0, acceleration := 0,
    repeatInterval := repeatInterval, notify := callback, callbackOnRelease := 0 }

/-- The constructor `KeyboardItem(pin, switchListener, repeatInterval, keyLogicIsInverted)`. -/
def withListener (pin : Int) (switchListener : Nat) (repeatInterval : Nat)
    (keyLogicIsInverted : Bool) : KeyboardItem :=
  { stateFlags :=
      bitWrite (bitWrite NOT_PRESSED KEY_LISTENER_MODE_BIT true)
        KEY_LOGIC_IS_INVERTED keyLogicIsInverted,
    previousState := NOT_PRESSED, pin := pin, counter := 0, acceleration := 0,
    repeatInterval := repeatInterval, notify := switchListener, callbackOnRelease := 0 }

/-- The member `onRelease(callbackOnRelease)`. -/
def onRelease (k : KeyboardItem) (callbackOnRelease : Nat) : KeyboardItem :=
  { k with callbackOnRelease := callbackOnRelease }

/-- The member `getState()`: `stateFlags & KEY_PRESS_STATE_MASK`. -/
def getState (k : KeyboardItem) : Nat := k.stateFlags &&& KEY_PRESS_STATE_MASK

/-- The member `setState(state)`: clear the low nibble of the byte, then or the state in. -/
def setState (k : KeyboardItem) (state : Nat) : KeyboardItem :=
  { k with stateFlags :=
      (k.stateFlags &&& (255 - KEY_PRESS_STATE_MASK)) ||| (state &&& KEY_PRESS_STATE_MASK) }

/-- The member `isDebouncing()`. -/
def isDebouncing (k : KeyboardItem) : Bool :=
  k.getState == DEBOUNCING1 || k.getState == DEBOUNCING2

/-- The member `isPressed()`. -/
def isPressed (k : KeyboardItem) : Bool :=
  k.getState == PRESSED || k.getState == BUTTON_HELD

/-- The member `isHeld()`. -/
def isHeld (k : KeyboardItem) : Bool := k.getState == BUTTON_HELD

/-- The member `isUsingListener()`. -/
def isUsingListener (k : KeyboardItem) : Bool := bitRead k.stateFlags KEY_LISTENER_MODE_BIT

/-- The member `isLogicInverted()`. -/
def isLogicInverted (k : KeyboardItem) : Bool := bitRead k.stateFlags KEY_LOGIC_IS_INVERTED

/-- The member `trigger(held)`: the press notification, nothing when `notify` is null. -/
def trigger (k : KeyboardItem) (held : Bool) : List KeyEvent :=
  if k.notify = 0 then []
  else if k.isUsingListener then [KeyEvent.listenerPressed k.pin held]
  else [KeyEvent.callbackPressed k.pin held]

/-- The member `triggerRelease(held)`: in listener mode the listener is called (the source
does not test the pointer), otherwise the release callback when there is one. -/
def triggerRelease (k : KeyboardItem) (held : Bool) : List KeyEvent :=
  if k.isUsingListener then [KeyEvent.listenerReleased k.pin held]
  else if k.callbackOnRelease ≠ 0 then [KeyEvent.callbackReleased k.pin held]
  else []

/-- The member `checkAndTrigger(buttonState)`: one tick of the debounce state machine. -/
def checkAndTrigger (k : KeyboardItem) (buttonState : Nat) : KeyboardItem × List KeyEvent :=
  if k.notify = 0 ∧ k.callbackOnRelease = 0 then (k, [])
  else if buttonState = HIGH then
    if k.getState = NOT_PRESSED then
      (k.setState DEBOUNCING1, [])
    else if k.isDebouncing then
      let k1 :=
        { k.setState PRESSED with previousState := PRESSED, counter := 0, acceleration := 1 }
      (k1, k1.trigger false)
    else if k.getState = PRESSED then
      let k1 := { k with counter := (k.counter + 1) % 256 }
      if k1.counter > HOLD_THRESHOLD then
        let k2 := { k1.setState BUTTON_HELD with previousState := BUTTON_HELD }
        ({ k2 with counter := 0, acceleration := 1 }, k2.trigger true)
      else (k1, [])
    else if k.getState = BUTTON_HELD ∧ k.repeatInterval ≠ NO_REPEAT ∧ k.notify ≠ 0 then
      let k1 := { k with counter := (k.counter + (k.acceleration >>> 2) + 1) % 256 }
      if k1.counter > k1.repeatInterval then
        let k2 := { k1 with acceleration := min 255 (k1.acceleration + 1) }
        ({ k2 with counter := 0 }, k2.trigger true)
      else (k1, [])
    else (k, [])
  else if k.getState = DEBOUNCING1 then
    (k.setState DEBOUNCING2, [])
  else
    let k1 := k.setState NOT_PRESSED
    if k1.previousState = PRESSED then
      let k2 := { k1 with previousState := NOT_PRESSED }
      (k2, k2.triggerRelease false)
    else if k1.previousState = BUTTON_HELD then
      let k2 := { k1 with previousState := NOT_PRESSED }
      (k2, k2.triggerRelease true)
    else (k1, [])

end KeyboardItem

/-! ## Feeding a sequence of samples -/

/-- Feed the samples to `checkAndTrigger` one per tick; the result lists, tick by tick, the
entry after the tick and the callbacks invoked during it. -/
def feed : KeyboardItem → List Nat → List (KeyboardItem × List KeyEvent)
  | _, [] => []
  | k, s :: rest => k.checkAndTrigger s :: feed (k.checkAndTrigger s).1 rest

/-- The entry after all the samples have been fed. -/
def runTicks : KeyboardItem → List Nat → KeyboardItem
  | k, [] => k
  | k, s :: rest => runTicks (k.checkAndTrigger s).1 rest

/-- Number of press notifications with the given `held` flag among the callbacks. -/
def pressCount (held : Bool) (evs : List KeyEvent) : Nat :=
  evs.countP fun e =>
    match e with
    | KeyEvent.listenerPressed _ h => h == held
    | KeyEvent.callbackPressed _ h => h == held
    | _ => false

/-- Number of release notifications with the given `held` flag among the callbacks. -/
def releaseCount (held : Bool) (evs : List KeyEvent) : Nat :=
  evs.countP fun e =>
    match e with
    | KeyEvent.listenerReleased _ h => h == held
    | KeyEvent.callbackReleased _ h => h == held
    | _ => false

/-! ## `RotaryEncoder` -/

/-- The enumeration `EncoderUserIntention`. -/
inductive EncoderUserIntention where
  | CHANGE_VALUE
  | SCROLL_THROUGH_ITEMS
  | DIRECTION_ONLY
  deriving DecidableEq, Repr

/-- Conversion of an integer value to `uint16_t`. -/
def toU16 (x : Int) : Nat := (x % 65536).toNat

/-- The function `abs` on an `int` (Arduino core / C library). -/
def absInt (x : Int) : Int := if x > 0 then x else -x

/-- The source's `safeAbs(x)`, `((x) < 0 ? -(x) : (x))`. -/
def safeAbs (x : Int) : Int := if x < 0 then -x else x

/-- The fields of `class RotaryEncoder`; `callback` is the function pointer. -/
structure RotaryEncoder where
  maximumValue : Nat
  currentReading : Nat
  callback : Nat
  lastSyncStatus : Bool
  rollover : Bool
  intent : EncoderUserIntention
  deriving DecidableEq, Repr

namespace RotaryEncoder

/-- The constructor `RotaryEncoder(callback)`. -/
def new (callback : Nat) : RotaryEncoder :=
  { maximumValue := 0, currentReading := 0, callback := callback, lastSyncStatus := true,
    rollover := false, intent := EncoderUserIntention.CHANGE_VALUE }

/-- The member `changePrecision(maxValue, currentValue, rolloverOnMax)`; the second
component lists the arguments of the calls of `callback`. -/
def changePrecision (e : RotaryEncoder) (maxValue : Nat) (currentValue : Int)
    (rolloverOnMax : Bool) : RotaryEncoder × List Int :=
  let e1 := { e with maximumValue := maxValue, currentReading := toU16 currentValue,
                     rollover := rolloverOnMax }
  let e2 := if maxValue = 0 ∧ currentValue = 0 then
      { e1 with intent := EncoderUserIntention.DIRECTION_ONLY } else e1
  (e2, [(e2.currentReading : Int)])

/-- The member `setUserIntention(intention)`. -/
def setUserIntention (e : RotaryEncoder) (intention : EncoderUserIntention) : RotaryEncoder :=
  let e1 := { e with intent := intention }
  if intention = EncoderUserIntention.DIRECTION_ONLY then
    { e1 with maximumValue := 0, currentReading := 0 }
  else e1

/-- The member `getCurrentReading()`. -/
def getCurrentReading (e : RotaryEncoder) : Int := (e.currentReading : Int)

/-- The member `getUserIntention()`. -/
def getUserIntention (e : RotaryEncoder) : EncoderUserIntention := e.intent

/-- The member `increment(incVal)`, for `incVal` an `int8_t`; the second component lists
the arguments of the calls of `callback`. -/
def increment (e : RotaryEncoder) (incVal : Int) : RotaryEncoder × List Int :=
  if e.maximumValue = 0 then (e, [incVal])
  else
    let e1 : RotaryEncoder :=
      if incVal ≥ 0 then
        if e.rollover then
          let e0 := { e with currentReading := toU16 ((e.currentReading : Int) + incVal) }
          if e0.currentReading > e0.maximumValue then
            { e0 with currentReading := toU16 ((e0.currentReading : Int) - e0.maximumValue - 1) }
          else e0
        else
          { e with currentReading := min (toU16 (e.currentReading + incVal)) e.maximumValue }
      else if (e.currentReading : Int) < absInt incVal then
        { e with currentReading :=
            (if e.rollover then toU16 ((e.maximumValue : Int) - safeAbs incVal + 1) else 0) }
      else if e.currentReading ≠ 0 then
        { e with currentReading := toU16 ((e.currentReading : Int) + incVal) }
      else e
    (e1, [(e1.currentReading : Int)])

end RotaryEncoder

/-! ## `HardwareRotaryEncoder` -/

/-- The constant `ONE_TURN_OF_ENCODER` of `SwitchInput.cpp`. -/
def ONE_TURN_OF_ENCODER : Nat := 32

/-- The constant `MAX_ROTARY_ENCODERS` (default of the header). -/
def MAX_ROTARY_ENCODERS : Nat := 4

/-- The enumeration `HWAccelerationMode`. -/
inductive HWAccelerationMode where
  | HWACCEL_NONE
  | HWACCEL_REGULAR
  | HWACCEL_SLOWER
  deriving DecidableEq, Repr

/-- The enumeration `EncoderType`. -/
inductive EncoderType where
  | QUARTER_CYCLE
  | HALF_CYCLE
  | FULL_CYCLE
  deriving DecidableEq, Repr

/-- What the outside world answers during one call: the result of `ioDeviceSync`, the level
`ioDeviceDigitalRead` returns for each pin, and the value of `micros()`. -/
structure IoSnapshot where
  sync : Bool
  digitalRead : Int → Nat
  micros : Nat

/-- The calls an encoder operation makes: the arguments of its calls of `increment` and
the arguments with which `callback` is invoked, each in order. -/
structure EncoderCalls where
  increments : List Int
  callbacks : List Int
  deriving DecidableEq, Repr

/-- Conversion of an integer value to `int8_t`. -/
def toInt8 (x : Int) : Int := (x + 128) % 256 - 128

/-- The difference of two `unsigned long` values (32 bits), as C computes it. -/
def subU32 (x y : Nat) : Nat := (((x : Int) - (y : Int)) % 4294967296).toNat

/-- The fields of `class HardwareRotaryEncoder : public RotaryEncoder`. -/
structure HardwareRotaryEncoder extends RotaryEncoder where
  lastChange : Nat
  pinA : Int
  pinB : Int
  aLast : Nat
  cleanFromB : Nat
  accelerationMode : HWAccelerationMode
  encoderType : EncoderType
  deriving DecidableEq, Repr

namespace HardwareRotaryEncoder

/-- The constructor `HardwareRotaryEncoder(pinA, pinB, callback, accelerationMode,
encoderType)`; the pin modes and the interrupt registration are not represented. -/
def new (pinA pinB : Int) (callback : Nat) (accelerationMode : HWAccelerationMode)
    (encoderType : EncoderType) (io : IoSnapshot) : HardwareRotaryEncoder :=
  { maximumValue := 0, currentReading := 0, callback := callback, lastSyncStatus := io.sync,
    rollover := false, intent := EncoderUserIntention.CHANGE_VALUE, lastChange := io.micros,
    pinA := pinA, pinB := pinB, aLast := io.digitalRead pinA,
    cleanFromB := io.digitalRead pinB, accelerationMode := accelerationMode,
    encoderType := encoderType }

/-- The member `amountFromChange(change)`. -/
def amountFromChange (h : HardwareRotaryEncoder) (change : Nat) : Int :=
  if change > 250000 ∨ h.maximumValue < ONE_TURN_OF_ENCODER then 1
  else if h.accelerationMode = HWAccelerationMode.HWACCEL_NONE then 1
  else if h.accelerationMode = HWAccelerationMode.HWACCEL_REGULAR then
    if change > 120000 then 2
    else if change > 70000 then 4
    else if change > 30000 then 6
    else 10
  else
    if change > 100000 then 2
    else if change > 30000 then 3
    else 4

/-- The block that both branches of `encoderChanged` run once a step is accepted:
`timeNow = micros()`, `amt = amountFromChange(timeNow - lastChange)`,
`increment(a != b ? -amt : amt)`, `lastChange = timeNow`. -/
def acceptStep (h : HardwareRotaryEncoder) (a b timeNow : Nat) :
    HardwareRotaryEncoder × EncoderCalls :=
  let amt := h.amountFromChange (subU32 timeNow h.lastChange)
  let incVal := toInt8 (if a ≠ b then -amt else amt)
  let r := h.toRotaryEncoder.increment incVal
  ({ h with toRotaryEncoder := r.1, lastChange := timeNow },
    { increments := [incVal], callbacks := r.2 })

/-- The member `encoderChanged()`. -/
def encoderChanged (h : HardwareRotaryEncoder) (io : IoSnapshot) :
    HardwareRotaryEncoder × EncoderCalls :=
  let h0 := { h with lastSyncStatus := io.sync }
  let a := io.digitalRead h0.pinA
  let b := io.digitalRead h0.pinB
  if h0.encoderType = EncoderType.QUARTER_CYCLE then
    if a ≠ h0.aLast ∨ b ≠ h0.cleanFromB then
      let h1 := { h0 with aLast := a }
      if a ≠ h1.aLast ∨ b ≠ h1.cleanFromB then
        let h2 := { h1 with cleanFromB := b }
        if (a ≠ 0 ∨ h2.cleanFromB ≠ 0) ∨ (a = 0 ∧ b = 0) then h2.acceptStep a b io.micros
        else (h2, { increments := [], callbacks := [] })
      else (h1, { increments := [], callbacks := [] })
    else (h0, { increments := [], callbacks := [] })
  else
    if a ≠ h0.aLast then
      let h1 := { h0 with aLast := a }
      if b ≠ h1.cleanFromB then
        let h2 := { h1 with cleanFromB := b }
        if a ≠ 0 then h2.acceptStep a b io.micros
        else (h2, { increments := [], callbacks := [] })
      else (h1, { increments := [], callbacks := [] })
    else (h0, { increments := [], callbacks := [] })

end HardwareRotaryEncoder

/-! ## `SwitchInput` -/

/-- The constant `SW_FLAG_PULLUP_LOGIC`. -/
def SW_FLAG_PULLUP_LOGIC : Nat := 0
/-- The constant `SW_FLAG_INTERRUPT_DRIVEN`. -/
def SW_FLAG_INTERRUPT_DRIVEN : Nat := 1
/-- The constant `SW_FLAG_INTERRUPT_DEBOUNCE`. -/
def SW_FLAG_INTERRUPT_DEBOUNCE : Nat := 2

/-- What a `RotaryEncoder*` slot points to: a `HardwareRotaryEncoder`, or an encoder that
keeps the empty `encoderChanged()` of the base class (`EncoderUpDownButtons`, or a
`RotaryEncoder` itself). -/
inductive EncoderRef where
  | base (e : RotaryEncoder)
  | hardware (h : HardwareRotaryEncoder)
  deriving DecidableEq, Repr

namespace EncoderRef

/-- The `RotaryEncoder` part of the object. -/
def toRotaryEncoder : EncoderRef → RotaryEncoder
  | base e => e
  | hardware h => h.toRotaryEncoder

/-- The member `increment(incVal)` called through the pointer. -/
def increment : EncoderRef → Int → EncoderRef × List Int
  | base e, incVal => (base (e.increment incVal).1, (e.increment incVal).2)
  | hardware h, incVal =>
    (hardware { h with toRotaryEncoder := (h.toRotaryEncoder.increment incVal).1 },
      (h.toRotaryEncoder.increment incVal).2)

/-- The virtual member `encoderChanged()` called through the pointer. -/
def encoderChanged : EncoderRef → IoSnapshot → EncoderRef × EncoderCalls
  | base e, _ => (base e, { increments := [], callbacks := [] })
  | hardware h, io => (hardware (h.encoderChanged io).1, (h.encoderChanged io).2)

end EncoderRef

set_option linter.dupNamespace false

/-- The fields of `class SwitchInput`: the encoder slots (`none` for `nullptr`), the device
pointer, the keys in the order of the collection, the flag byte and the last sync status. -/
structure SwitchInput where
  encoder : List (Option EncoderRef)
  ioDevice : Nat
  keys : List KeyboardItem
  swFlags : Nat
  lastSyncStatus : Bool
  deriving DecidableEq, Repr

/-- What one run of the interrupt handler did besides changing the object: the key callbacks
invoked, the delays of the one-shot tasks handed to `taskManager.scheduleOnce` (each task is
`checkRunLoopAndRepeat`), and the calls made by the encoders. -/
structure HandlerEffects where
  keyEvents : List KeyEvent
  scheduled : List Nat
  encoderCalls : List EncoderCalls
  deriving DecidableEq, Repr

/-! ### The key collection -/

namespace BtreeList

/-- Modelled from the spec: `keys.getByKey(pin)` of the key collection, whose class is not
among the sources: the position of the entry keyed by `pin` ("ordered collection of KeyEntry
keyed by pin"), `none` standing for the null pointer returned when there is none. -/
def getByKey (keys : List KeyboardItem) (pin : Int) : Option Nat :=
  keys.findIdx? fun key => key.pin == pin

/-- Modelled from the spec: `keys.add(item)` of the key collection, whose class is not among
the sources: registration "appends a new KeyEntry", uniqueness of the pin not being
checked; the flag is the result of the call. -/
def add (keys : List KeyboardItem) (item : KeyboardItem) : List KeyboardItem × Bool :=
  (keys ++ [item], true)

end BtreeList

/-- The device handle that `internalDigitalIo()` returns (not null). -/
def internalDigitalIo : Nat := 1

namespace SwitchInput

/-- The constructor `SwitchInput()`. -/
def new : SwitchInput :=
  { encoder := List.replicate MAX_ROTARY_ENCODERS none, ioDevice := 0, keys := [],
    swFlags := 0, lastSyncStatus := true }

/-- The member `isPullupLogic(invertedLogic)`. -/
def isPullupLogic (s : SwitchInput) (invertedLogic : Bool) : Bool :=
  let pullUp := bitRead s.swFlags SW_FLAG_PULLUP_LOGIC
  (pullUp && !invertedLogic) || (!pullUp && invertedLogic)

/-- The member `isInterruptDriven()`. -/
def isInterruptDriven (s : SwitchInput) : Bool := bitRead s.swFlags SW_FLAG_INTERRUPT_DRIVEN

/-- The member `isInterruptDebouncing()`. -/
def isInterruptDebouncing (s : SwitchInput) : Bool :=
  bitRead s.swFlags SW_FLAG_INTERRUPT_DEBOUNCE

/-- The member `setInterruptDebouncing(debounce)`. -/
def setInterruptDebouncing (s : SwitchInput) (debounce : Bool) : SwitchInput :=
  { s with swFlags := bitWrite s.swFlags SW_FLAG_INTERRUPT_DEBOUNCE debounce }

/-- The member `getEncoder()`: slot 0. -/
def getEncoder (s : SwitchInput) : Option EncoderRef := (s.encoder.get? 0).join

/-- The member `setEncoder(slot, encoder)`. -/
def setEncoder (s : SwitchInput) (slot : Nat) (encoder : Option EncoderRef) : SwitchInput :=
  if slot < MAX_ROTARY_ENCODERS then { s with encoder := s.encoder.set slot encoder } else s

/-- The body of the loop of `runLoop` for one key: read the pin, negate the level when
`isPullupLogic(key->isLogicInverted())`, pass it to `checkAndTrigger`. -/
def tickKey (s : SwitchInput) (io : IoSnapshot) (key : KeyboardItem) :
    KeyboardItem × List KeyEvent :=
  let pinState := io.digitalRead key.pin
  let pinState := if s.isPullupLogic key.isLogicInverted then (if pinState = 0 then 1 else 0)
    else pinState
  key.checkAndTrigger pinState

/-- The loop of `runLoop` over the keys from some index on, `needAnotherGo` being the flag
accumulated so far: the keys after the tick, the final flag and the callbacks invoked. -/
def runLoopKeys (s : SwitchInput) (io : IoSnapshot) :
    List KeyboardItem → Bool → List KeyboardItem × Bool × List KeyEvent
  | [], needAnotherGo => ([], needAnotherGo, [])
  | key :: rest, needAnotherGo =>
    let r := s.tickKey io key
    let out := runLoopKeys s io rest (needAnotherGo || (r.1.isDebouncing || r.1.isPressed))
    (r.1 :: out.1, out.2.1, r.2 ++ out.2.2)

/-- The member `runLoop()`: the object after the tick, the returned flag and the key
callbacks invoked. -/
def runLoop (s : SwitchInput) (io : IoSnapshot) : SwitchInput × Bool × List KeyEvent :=
  let s0 := { s with lastSyncStatus := io.sync }
  let out := runLoopKeys s0 io s0.keys false
  ({ s0 with keys := out.1 }, out.2.1, out.2.2)

/-- The function `checkRunLoopAndRepeat()`, on the object `switches`: the object after it
and what it did. -/
def checkRunLoopAndRepeat (s : SwitchInput) (io : IoSnapshot) :
    SwitchInput × List KeyEvent × List Nat :=
  let s1 := s.setInterruptDebouncing true
  let r := s1.runLoop io
  if r.2.1 then (r.1, r.2.2, [20])
  else (r.1.setInterruptDebouncing false, r.2.2, [])

/-- The loop of `onSwitchesInterrupt` over the encoder slots from index `i` on; `encIo i`
is what slot `i` finds when it samples. -/
def encodersChanged (encIo : Nat → IoSnapshot) :
    Nat → List (Option EncoderRef) → List (Option EncoderRef) × List EncoderCalls
  | _, [] => ([], [])
  | i, none :: rest =>
    (none :: (encodersChanged encIo (i + 1) rest).1, (encodersChanged encIo (i + 1) rest).2)
  | i, some e :: rest =>
    (some (e.encoderChanged (encIo i)).1 :: (encodersChanged encIo (i + 1) rest).1,
      (e.encoderChanged (encIo i)).2 :: (encodersChanged encIo (i + 1) rest).2)

/-- The function `onSwitchesInterrupt(pin)`, on the object `switches`; `io` is what the key
tick samples and `encIo i` what encoder slot `i` samples. -/
def onSwitchesInterrupt (s : SwitchInput) (io : IoSnapshot) (encIo : Nat → IoSnapshot) :
    SwitchInput × HandlerEffects :=
  let r : SwitchInput × List KeyEvent × List Nat :=
    if s.isInterruptDriven && !s.isInterruptDebouncing then s.checkRunLoopAndRepeat io
    else (s, [], [])
  let encs := encodersChanged encIo 0 (r.1.encoder.take MAX_ROTARY_ENCODERS)
  ({ r.1 with encoder := encs.1 ++ r.1.encoder.drop MAX_ROTARY_ENCODERS },
    { keyEvents := r.2.1, scheduled := r.2.2, encoderCalls := encs.2 })

/-- The function `switchEncoderUp(key, heldDown)`: `none` when slot 0 is empty, where the
source dereferences a null pointer. -/
def switchEncoderUp (s : SwitchInput) : Option (SwitchInput × EncoderCalls) :=
  match s.getEncoder with
  | none => none
  | some e =>
    let dir : Int :=
      if e.toRotaryEncoder.getUserIntention = EncoderUserIntention.SCROLL_THROUGH_ITEMS then -1
      else 1
    let r := e.increment (toInt8 dir)
    some ({ s with encoder := s.encoder.set 0 (some r.1) },
      { increments := [toInt8 dir], callbacks := r.2 })

/-- The function `switchEncoderDown(key, heldDown)`: `none` when slot 0 is empty, where the
source dereferences a null pointer. -/
def switchEncoderDown (s : SwitchInput) : Option (SwitchInput × EncoderCalls) :=
  match s.getEncoder with
  | none => none
  | some e =>
    let dir : Int :=
      if e.toRotaryEncoder.getUserIntention = EncoderUserIntention.SCROLL_THROUGH_ITEMS then 1
      else -1
    let r := e.increment (toInt8 dir)
    some ({ s with encoder := s.encoder.set 0 (some r.1) },
      { increments := [toInt8 dir], callbacks := r.2 })

/-- The member `initialise(ioDevice, usePullUpSwitching)`; the polling task handed to the
scheduler is not represented. -/
def initialise (s : SwitchInput) (ioDevice : Nat) (usePullUpSwitching : Bool) : SwitchInput :=
  { s with ioDevice := ioDevice,
           swFlags := bitWrite 0 SW_FLAG_PULLUP_LOGIC usePullUpSwitching }

/-- The member `internalAddSwitch(pin, invertLogic)`; the pin mode and the interrupt
registration are not represented. It always returns `true`. -/
def internalAddSwitch (s : SwitchInput) (_pin : Int) (_invertLogic : Bool) :
    SwitchInput × Bool :=
  (if s.ioDevice = 0 then s.initialise internalDigitalIo true else s, true)

/-- The member `addSwitch(pin, callback, repeat, invertLogic)`: the object after the call
and the returned flag. -/
def addSwitch (s : SwitchInput) (pin : Int) (callback repeatInterval : Nat)
    (invertLogic : Bool) : SwitchInput × Bool :=
  let r := s.internalAddSwitch pin invertLogic
  if r.2 then
    let item := KeyboardItem.withCallback pin callback repeatInterval invertLogic
    ({ r.1 with keys := (BtreeList.add r.1.keys item).1 }, (BtreeList.add r.1.keys item).2)
  else (r.1, false)

/-- The member `onRelease(pin, callbackOnRelease)`: `none` when the source dereferences the
null pointer that `getByKey` returned. The test that selects the branch is `if(pin)`. -/
def onRelease (s : SwitchInput) (pin : Int) (callbackOnRelease : Nat) : Option SwitchInput :=
  let s1 := if s.ioDevice = 0 then s.initialise internalDigitalIo true else s
  let keyItem := BtreeList.getByKey s1.keys pin
  if pin ≠ 0 then
    match keyItem with
    | none => none
    | some i =>
      some { s1 with keys := s1.keys.modify (fun key => key.onRelease callbackOnRelease) i }
  else
    let r := s1.internalAddSwitch pin false
    if r.2 then
      let newItem := (KeyboardItem.withCallback pin 0 NO_REPEAT false).onRelease callbackOnRelease
      some { r.1 with keys := (BtreeList.add r.1.keys newItem).1 }
    else some r.1

end SwitchInput

/-! ## Auxiliary notions used to state the properties -/

/-- The entries that the constructors of `KeyboardItem` build, possibly followed by calls
of `onRelease`. -/
inductive Constructed : KeyboardItem → Prop where
  | new : Constructed KeyboardItem.new
  | withCallback (pin : Int) (callback repeatInterval : Nat) (keyLogicIsInverted : Bool) :
      Constructed (KeyboardItem.withCallback pin callback repeatInterval keyLogicIsInverted)
  | withListener (pin : Int) (switchListener repeatInterval : Nat)
      (keyLogicIsInverted : Bool) :
      Constructed (KeyboardItem.withListener pin switchListener repeatInterval
        keyLogicIsInverted)
  | onRelease (k : KeyboardItem) (callbackOnRelease : Nat) :
      Constructed k → Constructed (k.onRelease callbackOnRelease)

/-- A release notification has somewhere to go: a listener in listener mode, a release
callback otherwise. -/
def hasReleaseTarget (k : KeyboardItem) : Prop :=
  if k.isUsingListener then k.notify ≠ 0 else k.callbackOnRelease ≠ 0

/-- The ticks (numbered from `t + 1`) of a fed sequence on which a press notification with
`held = true` was made. -/
def heldTicksFrom (t : Nat) : List (KeyboardItem × List KeyEvent) → List Nat
  | [] => []
  | r :: rest =>
    if 0 < pressCount true r.2 then (t + 1) :: heldTicksFrom (t + 1) rest
    else heldTicksFrom (t + 1) rest

/-- The differences of consecutive entries of a list of tick numbers. -/
def gaps : List Nat → List Nat
  | a :: b :: rest => (b - a) :: gaps (b :: rest)
  | _ => []

/-- A `RotaryEncoder` whose fields hold values of their C++ types. -/
def RotaryEncoder.WellFormed (e : RotaryEncoder) : Prop :=
  e.maximumValue < 65536 ∧ e.currentReading < 65536

/-- An `int8_t` value. -/
def isInt8 (x : Int) : Prop := -128 ≤ x ∧ x ≤ 127

/-- The entry `k1` has the configuration of `k`: same callbacks, repeat interval, pin and
notification mode. -/
def SameConfig (k k1 : KeyboardItem) : Prop :=
  k1.notify = k.notify ∧ k1.callbackOnRelease = k.callbackOnRelease ∧
    k1.repeatInterval = k.repeatInterval ∧ k1.pin = k.pin ∧
    k1.isUsingListener = k.isUsingListener

/-- One tick on sample `s` takes `k` to the given state, previous stable state, counter and
acceleration, keeps the configuration and invokes exactly the callbacks `evs`. -/
def StepsTo (k : KeyboardItem) (s : Nat) (state prev counter acc : Nat)
    (evs : List KeyEvent) : Prop :=
  (k.checkAndTrigger s).1.getState = state ∧ (k.checkAndTrigger s).1.previousState = prev ∧
  (k.checkAndTrigger s).1.counter = counter ∧ (k.checkAndTrigger s).1.acceleration = acc ∧
  SameConfig k (k.checkAndTrigger s).1 ∧ (k.checkAndTrigger s).2 = evs

/-- The previous stable state agrees with the state: it is `PRESSED` or `BUTTON_HELD` exactly
while the key is in that state, and `NOT_PRESSED` in the three other states. -/
def Consistent (k : KeyboardItem) : Prop :=
  (k.getState = PRESSED ∧ k.previousState = PRESSED) ∨
    (k.getState = BUTTON_HELD ∧ k.previousState = BUTTON_HELD) ∨
    ((k.getState = NOT_PRESSED ∨ k.getState = DEBOUNCING1 ∨ k.getState = DEBOUNCING2) ∧
      k.previousState = NOT_PRESSED)

/-- An encoder as the API sets it up: constructed with a callback, then given its range,
reading and rollover mode by `changePrecision`. -/
def encoderWith (maxValue currentValue : Nat) (rolloverOnMax : Bool) : RotaryEncoder :=
  ((RotaryEncoder.new 1).changePrecision maxValue currentValue rolloverOnMax).1

/-- The table of step magnitudes as the specification words it: 1 when the elapsed time is
above 250000 or `maximumValue` is below 32; otherwise 1 for `HWACCEL_NONE`; for
`HWACCEL_REGULAR` 2 above 120000, 4 above 70000, 6 above 30000, else 10; for
`HWACCEL_SLOWER` 2 above 100000, 3 above 30000, else 4. -/
def amountTable (elapsed maximumValue : Nat) : HWAccelerationMode → Int
  | HWAccelerationMode.HWACCEL_NONE => 1
  | HWAccelerationMode.HWACCEL_REGULAR =>
    if 250000 < elapsed ∨ maximumValue < 32 then 1
    else if 120000 < elapsed then 2
    else if 70000 < elapsed then 4
    else if 30000 < elapsed then 6
    else 10
  | HWAccelerationMode.HWACCEL_SLOWER =>
    if 250000 < elapsed ∨ maximumValue < 32 then 1
    else if 100000 < elapsed then 2
    else if 30000 < elapsed then 3
    else 4

/-- The level a key is given in a tick: the level read from its pin, negated exactly when
the pull-up flag and the key's inverted-logic flag differ. -/
def sampledLevel (s : SwitchInput) (io : IoSnapshot) (key : KeyboardItem) : Nat :=
  if Bool.xor (bitRead s.swFlags SW_FLAG_PULLUP_LOGIC) key.isLogicInverted then
    (if io.digitalRead key.pin = 0 then 1 else 0)
  else io.digitalRead key.pin

/-- The key is debouncing, pressed or held. -/
def needsAnotherGo (k : KeyboardItem) : Prop :=
  k.getState = DEBOUNCING1 ∨ k.getState = DEBOUNCING2 ∨ k.getState = PRESSED ∨
    k.getState = BUTTON_HELD

/-- An I/O snapshot in which pin 2 reads `a`, pin 3 reads `b`, every other pin reads 0, the
sync succeeds and `micros()` returns `t`. -/
def ioSample (a b t : Nat) : IoSnapshot :=
  { sync := true, digitalRead := fun pin => if pin = 2 then a else if pin = 3 then b else 0,
    micros := t }

/-- A hardware encoder on pins 2 and 3 as the API sets it up: constructed while both pins
read 0 at time 0, then given the range `0..maxValue` (reading 0, no rollover) by
`changePrecision`. -/
def hardwareWith (maxValue : Nat) (accelerationMode : HWAccelerationMode)
    (encoderType : EncoderType) : HardwareRotaryEncoder :=
  { HardwareRotaryEncoder.new 2 3 1 accelerationMode encoderType (ioSample 0 0 0) with
    toRotaryEncoder :=
      ((HardwareRotaryEncoder.new 2 3 1 accelerationMode encoderType
        (ioSample 0 0 0)).toRotaryEncoder.changePrecision maxValue 0 false).1 }

/-- The object `switches` with the given flag byte, keys and encoder in slot 0. -/
def switchesWith (swFlags : Nat) (keys : List KeyboardItem) (encoder0 : Option EncoderRef) :
    SwitchInput :=
  { SwitchInput.new.setEncoder 0 encoder0 with ioDevice := 1, keys := keys, swFlags := swFlags }

/-- The three phases of the event pattern of one key: no press pending, a press with
`held = false` notified, and a press with `held = true` notified after it. -/
inductive PressPhase where
  | idle
  | pressed
  | held
  deriving DecidableEq, Repr

/-- One step of the event pattern: from `idle` only a press with `held = false` may come;
after it, presses with `held = true`, and a release whose flag is `true` exactly when such a
press came; the release leads back to `idle`. `none` is a violation of the pattern. -/
def PressPhase.next : PressPhase → KeyEvent → Option PressPhase
  | PressPhase.idle, KeyEvent.listenerPressed _ false => some PressPhase.pressed
  | PressPhase.idle, KeyEvent.callbackPressed _ false => some PressPhase.pressed
  | PressPhase.pressed, KeyEvent.listenerPressed _ true => some PressPhase.held
  | PressPhase.pressed, KeyEvent.callbackPressed _ true => some PressPhase.held
  | PressPhase.held, KeyEvent.listenerPressed _ true => some PressPhase.held
  | PressPhase.held, KeyEvent.callbackPressed _ true => some PressPhase.held
  | PressPhase.pressed, KeyEvent.listenerReleased _ false => some PressPhase.idle
  | PressPhase.pressed, KeyEvent.callbackReleased _ false => some PressPhase.idle
  | PressPhase.held, KeyEvent.listenerReleased _ true => some PressPhase.idle
  | PressPhase.held, KeyEvent.callbackReleased _ true => some PressPhase.idle
  | _, _ => none

/-- Run the event pattern over a sequence of events: the phase reached, or `none` when some
event violates the pattern. -/
def followsPattern : PressPhase → List KeyEvent → Option PressPhase
  | phase, [] => some phase
  | phase, e :: rest =>
    match phase.next e with
    | none => none
    | some phase1 => followsPattern phase1 rest

/-- All the callbacks invoked while the samples are fed, in order. -/
def allEvents (k : KeyboardItem) (samples : List Nat) : List KeyEvent :=
  ((feed k samples).map fun r => r.2).flatten

/-- The phase of the event pattern that corresponds to the state of a key. -/
def phaseOf (k : KeyboardItem) : PressPhase :=
  if k.getState = PRESSED then PressPhase.pressed
  else if k.getState = BUTTON_HELD then PressPhase.held
  else PressPhase.idle

instance (e : RotaryEncoder) : Decidable e.WellFormed := by
  unfold RotaryEncoder.WellFormed
  infer_instance

instance (x : Int) : Decidable (isInt8 x) := by
  unfold isInt8
  infer_instance

instance (k : KeyboardItem) : Decidable (hasReleaseTarget k) := by
  unfold hasReleaseTarget
  infer_instance

/-! ## Lemmas on the state byte -/

theorem low_nibble_of_masked (f s : Nat) (hs : s < 16) :
    ((f &&& (255 - 15)) ||| (s &&& 15)) &&& 15 = s := by
  have h15 : ∀ x : Nat, x &&& 15 = x % 16 := fun x => Nat.and_pow_two_sub_one_eq_mod x 4
  have h0 : (15 : Nat) &&& (255 - 15) = 0 := by decide
  rw [Nat.and_comm _ 15, Nat.and_or_distrib_left, Nat.and_comm f, ← Nat.and_assoc, h0,
    Nat.zero_and, Nat.zero_or, Nat.and_comm 15, Nat.and_assoc, Nat.and_self, h15,
    Nat.mod_eq_of_lt hs]

namespace KeyboardItem

theorem getState_setState (k : KeyboardItem) (s : Nat) (hs : s < 16) :
    (k.setState s).getState = s := by
  simp only [getState, setState, KEY_PRESS_STATE_MASK]
  exact low_nibble_of_masked _ _ hs

theorem isUsingListener_setState (k : KeyboardItem) (s : Nat) :
    (k.setState s).isUsingListener = k.isUsingListener := by
  simp only [isUsingListener, setState, bitRead, KEY_PRESS_STATE_MASK, KEY_LISTENER_MODE_BIT,
    Nat.testBit_or, Nat.testBit_and]
  have h1 : Nat.testBit (255 - 15) 7 = true := by decide
  have h2 : Nat.testBit 15 7 = false := by decide
  simp [h1, h2]

@[simp] theorem setState_notify (k : KeyboardItem) (s : Nat) :
    (k.setState s).notify = k.notify := rfl
@[simp] theorem setState_callbackOnRelease (k : KeyboardItem) (s : Nat) :
    (k.setState s).callbackOnRelease = k.callbackOnRelease := rfl
@[simp] theorem setState_previousState (k : KeyboardItem) (s : Nat) :
    (k.setState s).previousState = k.previousState := rfl
@[simp] theorem setState_counter (k : KeyboardItem) (s : Nat) :
    (k.setState s).counter = k.counter := rfl
@[simp] theorem setState_acceleration (k : KeyboardItem) (s : Nat) :
    (k.setState s).acceleration = k.acceleration := rfl
@[simp] theorem setState_repeatInterval (k : KeyboardItem) (s : Nat) :
    (k.setState s).repeatInterval = k.repeatInterval := rfl
@[simp] theorem setState_pin (k : KeyboardItem) (s : Nat) :
    (k.setState s).pin = k.pin := rfl

@[simp] theorem setState_flags_listener (k : KeyboardItem) (s : Nat) :
    bitRead (k.setState s).stateFlags KEY_LISTENER_MODE_BIT =
      bitRead k.stateFlags KEY_LISTENER_MODE_BIT :=
  isUsingListener_setState k s

@[simp] theorem flags_NOT_PRESSED (k : KeyboardItem) :
    (k.setState NOT_PRESSED).stateFlags &&& KEY_PRESS_STATE_MASK = NOT_PRESSED :=
  getState_setState k _ (by decide)
@[simp] theorem flags_DEBOUNCING1 (k : KeyboardItem) :
    (k.setState DEBOUNCING1).stateFlags &&& KEY_PRESS_STATE_MASK = DEBOUNCING1 :=
  getState_setState k _ (by decide)
@[simp] theorem flags_DEBOUNCING2 (k : KeyboardItem) :
    (k.setState DEBOUNCING2).stateFlags &&& KEY_PRESS_STATE_MASK = DEBOUNCING2 :=
  getState_setState k _ (by decide)
@[simp] theorem flags_PRESSED (k : KeyboardItem) :
    (k.setState PRESSED).stateFlags &&& KEY_PRESS_STATE_MASK = PRESSED :=
  getState_setState k _ (by decide)
@[simp] theorem flags_BUTTON_HELD (k : KeyboardItem) :
    (k.setState BUTTON_HELD).stateFlags &&& KEY_PRESS_STATE_MASK = BUTTON_HELD :=
  getState_setState k _ (by decide)

/-! ## One tick, case by case -/

theorem high_from_notPressed (k : KeyboardItem) (hcb : k.notify ≠ 0)
    (hs : k.getState = NOT_PRESSED) :
    StepsTo k HIGH DEBOUNCING1 k.previousState k.counter k.acceleration [] := by
  have hstep : k.checkAndTrigger HIGH = (k.setState DEBOUNCING1, []) := by
    simp [checkAndTrigger, hcb, hs]
  rw [StepsTo, hstep]
  simp [SameConfig, getState, isUsingListener]

theorem high_from_debouncing (k : KeyboardItem) (hcb : k.notify ≠ 0)
    (hs : k.getState = DEBOUNCING1 ∨ k.getState = DEBOUNCING2) :
    StepsTo k HIGH PRESSED PRESSED 0 1 (k.trigger false) := by
  have hd : k.isDebouncing = true := by
    rcases hs with h | h <;> simp [isDebouncing, h]
  have hn : k.getState ≠ NOT_PRESSED := by
    rcases hs with h | h <;> simp [h, NOT_PRESSED, DEBOUNCING1, DEBOUNCING2]
  have hstep : k.checkAndTrigger HIGH =
      ((KeyboardItem.mk (k.setState PRESSED).stateFlags PRESSED k.pin 0 1 k.repeatInterval
          k.notify k.callbackOnRelease),
        (KeyboardItem.mk (k.setState PRESSED).stateFlags PRESSED k.pin 0 1 k.repeatInterval
          k.notify k.callbackOnRelease).trigger false) := by
    simp [checkAndTrigger, hcb, hn, hd]
  rw [StepsTo, hstep]
  simp [SameConfig, getState, isUsingListener, trigger]

theorem high_from_pressed (k : KeyboardItem) (hcb : k.notify ≠ 0)
    (hs : k.getState = PRESSED) (hc : k.counter < HOLD_THRESHOLD) :
    StepsTo k HIGH PRESSED k.previousState (k.counter + 1) k.acceleration [] := by
  have hd : k.isDebouncing = false := by
    simp [isDebouncing, hs, PRESSED, DEBOUNCING1, DEBOUNCING2]
  simp only [HOLD_THRESHOLD] at hc
  have h1 : (k.counter + 1) % 256 = k.counter + 1 := by omega
  have h2 : ¬ (20 < k.counter + 1) := by omega
  have hstep : k.checkAndTrigger HIGH = ({ k with counter := k.counter + 1 }, []) := by
    simp [checkAndTrigger, hcb, hd, hs, h1, h2, PRESSED, NOT_PRESSED, HOLD_THRESHOLD]
  rw [StepsTo, hstep]
  simp [SameConfig, getState, isUsingListener]
  simpa [getState] using hs

theorem high_from_pressed_threshold (k : KeyboardItem) (hcb : k.notify ≠ 0)
    (hs : k.getState = PRESSED) (hc : k.counter = HOLD_THRESHOLD) :
    StepsTo k HIGH BUTTON_HELD BUTTON_HELD 0 1 (k.trigger true) := by
  have hd : k.isDebouncing = false := by
    simp [isDebouncing, hs, PRESSED, DEBOUNCING1, DEBOUNCING2]
  simp only [HOLD_THRESHOLD] at hc
  have hstep : k.checkAndTrigger HIGH =
      ((KeyboardItem.mk (k.setState BUTTON_HELD).stateFlags BUTTON_HELD k.pin 0 1
          k.repeatInterval k.notify k.callbackOnRelease),
        (KeyboardItem.mk (k.setState BUTTON_HELD).stateFlags BUTTON_HELD k.pin 21
          k.acceleration k.repeatInterval k.notify k.callbackOnRelease).trigger true) := by
    simp [checkAndTrigger, hcb, hd, hs, hc, PRESSED, NOT_PRESSED, HOLD_THRESHOLD, setState]
  rw [StepsTo, hstep]
  simp [SameConfig, getState, isUsingListener, trigger]

theorem high_from_held_no_repeat (k : KeyboardItem)
    (hs : k.getState = BUTTON_HELD) (hr : k.repeatInterval = NO_REPEAT) :
    k.checkAndTrigger HIGH = (k, []) := by
  have hd : k.isDebouncing = false := by
    simp [isDebouncing, hs, BUTTON_HELD, DEBOUNCING1, DEBOUNCING2]
  simp [checkAndTrigger, hd, hs, hr, BUTTON_HELD, PRESSED, NOT_PRESSED]

theorem high_from_held_repeat_fire (k : KeyboardItem) (hcb : k.notify ≠ 0)
    (hs : k.getState = BUTTON_HELD) (hr : k.repeatInterval ≠ NO_REPEAT)
    (hlt : k.counter + k.acceleration / 4 + 1 < 256)
    (hfire : k.repeatInterval < k.counter + k.acceleration / 4 + 1) :
    StepsTo k HIGH BUTTON_HELD k.previousState 0 (min 255 (k.acceleration + 1))
      (k.trigger true) := by
  have hd : k.isDebouncing = false := by
    simp [isDebouncing, hs, BUTTON_HELD, DEBOUNCING1, DEBOUNCING2]
  have hsh : k.acceleration >>> 2 = k.acceleration / 4 := by
    rw [Nat.shiftRight_eq_div_pow]
  have hm : (k.counter + k.acceleration / 4 + 1) % 256 = k.counter + k.acceleration / 4 + 1 :=
    Nat.mod_eq_of_lt hlt
  have hstep : k.checkAndTrigger HIGH =
      ((KeyboardItem.mk k.stateFlags k.previousState k.pin 0 (min 255 (k.acceleration + 1))
          k.repeatInterval k.notify k.callbackOnRelease),
        (KeyboardItem.mk k.stateFlags k.previousState k.pin
          (k.counter + k.acceleration / 4 + 1) (min 255 (k.acceleration + 1))
          k.repeatInterval k.notify k.callbackOnRelease).trigger true) := by
    simp [checkAndTrigger, hcb, hd, hs, hr, hsh, hm, hfire, BUTTON_HELD, PRESSED, NOT_PRESSED]
  rw [StepsTo, hstep]
  simp [SameConfig, getState, isUsingListener, trigger]
  simpa [getState] using hs

theorem high_from_held_repeat_wait (k : KeyboardItem) (hcb : k.notify ≠ 0)
    (hs : k.getState = BUTTON_HELD) (hr : k.repeatInterval ≠ NO_REPEAT)
    (hlt : k.counter + k.acceleration / 4 + 1 < 256)
    (hwait : k.counter + k.acceleration / 4 + 1 ≤ k.repeatInterval) :
    StepsTo k HIGH BUTTON_HELD k.previousState (k.counter + k.acceleration / 4 + 1)
      k.acceleration [] := by
  have hd : k.isDebouncing = false := by
    simp [isDebouncing, hs, BUTTON_HELD, DEBOUNCING1, DEBOUNCING2]
  have hsh : k.acceleration >>> 2 = k.acceleration / 4 := by
    rw [Nat.shiftRight_eq_div_pow]
  have hm : (k.counter + k.acceleration / 4 + 1) % 256 = k.counter + k.acceleration / 4 + 1 :=
    Nat.mod_eq_of_lt hlt
  have hnf : ¬ (k.repeatInterval < k.counter + k.acceleration / 4 + 1) := Nat.not_lt.mpr hwait
  have hstep : k.checkAndTrigger HIGH =
      ({ k with counter := k.counter + k.acceleration / 4 + 1 }, []) := by
    simp [checkAndTrigger, hcb, hd, hs, hr, hsh, hm, hnf, BUTTON_HELD, PRESSED, NOT_PRESSED]
  rw [StepsTo, hstep]
  simp [SameConfig, getState, isUsingListener]
  simpa [getState] using hs

theorem low_from_debouncing1 (k : KeyboardItem) (s : Nat) (hlow : s ≠ HIGH)
    (hact : ¬ (k.notify = 0 ∧ k.callbackOnRelease = 0)) (hs : k.getState = DEBOUNCING1) :
    StepsTo k s DEBOUNCING2 k.previousState k.counter k.acceleration [] := by
  have hstep : k.checkAndTrigger s = (k.setState DEBOUNCING2, []) := by
    simp only [checkAndTrigger, if_neg hact, if_neg hlow, hs, if_true]
  rw [StepsTo, hstep]
  simp [SameConfig, getState, isUsingListener]

theorem low_from_other (k : KeyboardItem) (s : Nat) (hlow : s ≠ HIGH)
    (hact : ¬ (k.notify = 0 ∧ k.callbackOnRelease = 0)) (hs : k.getState ≠ DEBOUNCING1) :
    StepsTo k s NOT_PRESSED
      (if k.previousState = PRESSED ∨ k.previousState = BUTTON_HELD then NOT_PRESSED
        else k.previousState) k.counter k.acceleration
      (if k.previousState = PRESSED then k.triggerRelease false
        else if k.previousState = BUTTON_HELD then k.triggerRelease true else []) := by
  rw [StepsTo]
  simp only [checkAndTrigger, if_neg hact, if_neg hlow, if_neg hs, setState_previousState]
  by_cases hp : k.previousState = PRESSED
  · simp [hp, SameConfig, getState, isUsingListener, triggerRelease]
  · by_cases hh : k.previousState = BUTTON_HELD
    · simp [hh, SameConfig, getState, isUsingListener, triggerRelease, BUTTON_HELD, PRESSED]
    · simp [hp, hh, SameConfig, getState, isUsingListener]

theorem inert (k : KeyboardItem) (s : Nat) (h : k.notify = 0 ∧ k.callbackOnRelease = 0) :
    k.checkAndTrigger s = (k, []) := by
  simp only [checkAndTrigger, if_pos h]

theorem pressCount_trigger (k : KeyboardItem) (held h : Bool) (hcb : k.notify ≠ 0) :
    pressCount h (k.trigger held) = if held = h then 1 else 0 := by
  unfold trigger pressCount
  cases k.isUsingListener <;> cases held <;> cases h <;> simp [hcb]

theorem releaseCount_trigger (k : KeyboardItem) (held h : Bool) :
    releaseCount h (k.trigger held) = 0 := by
  unfold trigger releaseCount
  by_cases hcb : k.notify = 0 <;> cases k.isUsingListener <;> simp [hcb]

theorem pressCount_triggerRelease (k : KeyboardItem) (held h : Bool) :
    pressCount h (k.triggerRelease held) = 0 := by
  unfold triggerRelease pressCount
  by_cases hcb : k.callbackOnRelease = 0 <;> cases k.isUsingListener <;> simp [hcb]

theorem releaseCount_triggerRelease (k : KeyboardItem) (held h : Bool)
    (ht : hasReleaseTarget k) :
    releaseCount h (k.triggerRelease held) = if held = h then 1 else 0 := by
  unfold hasReleaseTarget at ht
  unfold triggerRelease releaseCount
  cases hl : k.isUsingListener <;> cases held <;> cases h <;> simp_all

end KeyboardItem

/-! ## Feeding samples -/

theorem feed_append (k : KeyboardItem) (xs ys : List Nat) :
    feed k (xs ++ ys) = feed k xs ++ feed (runTicks k xs) ys := by
  induction xs generalizing k with
  | nil => rfl
  | cons x xs ih => simp [feed, runTicks, ih]

theorem runTicks_append (k : KeyboardItem) (xs ys : List Nat) :
    runTicks k (xs ++ ys) = runTicks (runTicks k xs) ys := by
  induction xs generalizing k with
  | nil => rfl
  | cons x xs ih => simp [runTicks, ih]

theorem pressCount_trigger_ne (k : KeyboardItem) (held h : Bool) (hne : held ≠ h) :
    pressCount h (k.trigger held) = 0 := by
  unfold KeyboardItem.trigger pressCount
  by_cases hcb : k.notify = 0 <;> cases k.isUsingListener <;> cases held <;> cases h <;>
    simp_all

theorem high_keeps_pressed_or_held (k : KeyboardItem)
    (hs : k.getState = PRESSED ∨ k.getState = BUTTON_HELD) :
    ((k.checkAndTrigger HIGH).1.getState = PRESSED ∨
        (k.checkAndTrigger HIGH).1.getState = BUTTON_HELD) ∧
      pressCount false (k.checkAndTrigger HIGH).2 = 0 := by
  have hd : k.isDebouncing = false := by
    rcases hs with h | h <;>
      simp [KeyboardItem.isDebouncing, h, PRESSED, BUTTON_HELD, DEBOUNCING1, DEBOUNCING2]
  have hn : k.getState ≠ NOT_PRESSED := by
    rcases hs with h | h <;> simp [h, PRESSED, BUTTON_HELD, NOT_PRESSED]
  have h0 : pressCount false ([] : List KeyEvent) = 0 := rfl
  simp only [KeyboardItem.checkAndTrigger, hd, if_neg hn, Bool.false_eq_true, if_false]
  split_ifs <;>
    simp only [h0, pressCount_trigger_ne _ true false (by decide), and_true] <;>
    first
      | exact hs
      | (right; simp [KeyboardItem.getState])

theorem no_plain_press_once_pressed (n : Nat) (k : KeyboardItem)
    (hs : k.getState = PRESSED ∨ k.getState = BUTTON_HELD) :
    (feed k (List.replicate n HIGH)).map (fun r => pressCount false r.2) =
      List.replicate n 0 := by
  induction n generalizing k with
  | zero => rfl
  | succ n ih =>
    obtain ⟨h1, h2⟩ := high_keeps_pressed_or_held k hs
    simp only [List.replicate_succ, feed, List.map_cons, h2, ih _ h1]

/-- C1: from `NotPressed`, with a press callback, `n ≥ 2` consecutive active samples give
exactly one press notification with `held = false`; it is made on the second tick, the tick
on which the state becomes `Pressed` (after `Debouncing1` on the first). -/
theorem clean_press_fires_once_on_second_tick (k : KeyboardItem) (n : Nat)
    (hcb : k.notify ≠ 0) (hs : k.getState = NOT_PRESSED) (hn : 2 ≤ n) :
    (feed k (List.replicate n HIGH)).map (fun r => pressCount false r.2) =
        0 :: 1 :: List.replicate (n - 2) 0 ∧
      ((feed k (List.replicate n HIGH)).map (fun r => pressCount false r.2)).sum = 1 ∧
      ((feed k (List.replicate n HIGH)).map (fun r => r.1.getState)).take 2 =
        [DEBOUNCING1, PRESSED] := by
  obtain ⟨m, rfl⟩ : ∃ m, n = m + 2 := ⟨n - 2, by omega⟩
  obtain ⟨a1, -, -, -, ⟨c1, -⟩, e1⟩ := KeyboardItem.high_from_notPressed k hcb hs
  have hcb1 : (k.checkAndTrigger HIGH).1.notify ≠ 0 := by rw [c1]; exact hcb
  obtain ⟨a2, -, -, -, -, e2⟩ :=
    KeyboardItem.high_from_debouncing (k.checkAndTrigger HIGH).1 hcb1 (Or.inl a1)
  have hp : pressCount false ((k.checkAndTrigger HIGH).1.checkAndTrigger HIGH).2 = 1 := by
    rw [e2, KeyboardItem.pressCount_trigger _ _ _ hcb1]; rfl
  have hz : pressCount false (k.checkAndTrigger HIGH).2 = 0 := by rw [e1]; rfl
  have htail := no_plain_press_once_pressed m
    ((k.checkAndTrigger HIGH).1.checkAndTrigger HIGH).1 (Or.inl a2)
  have hlist : (feed k (List.replicate (m + 2) HIGH)).map (fun r => pressCount false r.2) =
      0 :: 1 :: List.replicate m 0 := by
    simp only [List.replicate_succ, feed, List.map_cons, hz, hp, htail]
  refine ⟨by simpa using hlist, ?_, ?_⟩
  · rw [hlist]; simp
  · simp only [List.replicate_succ, feed, List.map_cons, a1, a2, List.take_succ_cons,
      List.take_zero]

/-- Witness of C1: a key built by `KeyboardItem(3, callback)` fed five active samples. -/
theorem clean_press_fires_once_on_second_tick_witness :
    (KeyboardItem.withCallback 3 1 NO_REPEAT false).notify ≠ 0 ∧
    (KeyboardItem.withCallback 3 1 NO_REPEAT false).getState = NOT_PRESSED ∧ 2 ≤ 5 ∧
    ((feed (KeyboardItem.withCallback 3 1 NO_REPEAT false) (List.replicate 5 HIGH)).map
        (fun r => pressCount false r.2) = 0 :: 1 :: List.replicate (5 - 2) 0 ∧
      ((feed (KeyboardItem.withCallback 3 1 NO_REPEAT false) (List.replicate 5 HIGH)).map
        (fun r => pressCount false r.2)).sum = 1 ∧
      ((feed (KeyboardItem.withCallback 3 1 NO_REPEAT false) (List.replicate 5 HIGH)).map
        (fun r => r.1.getState)).take 2 = [DEBOUNCING1, PRESSED]) :=
  ⟨by decide, by decide, by decide,
    clean_press_fires_once_on_second_tick (KeyboardItem.withCallback 3 1 NO_REPEAT false) 5
      (by decide) (by decide) (by decide)⟩

/-- C2: a key with a press callback, in `NotPressed` with previous stable state
`NotPressed`, fed an active sample and then two inactive ones goes through `Debouncing1`,
`Debouncing2` and back to `NotPressed`; it is never `Pressed` and no callback at all is invoked. -/
theorem single_tick_spike_is_rejected (k : KeyboardItem) (hcb : k.notify ≠ 0)
    (hs : k.getState = NOT_PRESSED) (hp : k.previousState = NOT_PRESSED) (s1 s2 : Nat)
    (h1 : s1 ≠ HIGH) (h2 : s2 ≠ HIGH) :
    (feed k [HIGH, s1, s2]).map (fun r => (r.1.getState, r.2)) =
      [(DEBOUNCING1, []), (DEBOUNCING2, []), (NOT_PRESSED, [])] := by
  obtain ⟨a1, p1, -, -, ⟨c1, -⟩, e1⟩ := KeyboardItem.high_from_notPressed k hcb hs
  have hact1 : ¬ ((k.checkAndTrigger HIGH).1.notify = 0 ∧
      (k.checkAndTrigger HIGH).1.callbackOnRelease = 0) := by
    rw [c1]; exact fun h => hcb h.1
  obtain ⟨a2, p2, -, -, ⟨c2, -⟩, e2⟩ :=
    KeyboardItem.low_from_debouncing1 (k.checkAndTrigger HIGH).1 s1 h1 hact1 a1
  have hact2 : ¬ (((k.checkAndTrigger HIGH).1.checkAndTrigger s1).1.notify = 0 ∧
      ((k.checkAndTrigger HIGH).1.checkAndTrigger s1).1.callbackOnRelease = 0) := by
    rw [c2, c1]; exact fun h => hcb h.1
  have hne : ((k.checkAndTrigger HIGH).1.checkAndTrigger s1).1.getState ≠ DEBOUNCING1 := by
    rw [a2]; decide
  obtain ⟨a3, -, -, -, -, e3⟩ :=
    KeyboardItem.low_from_other ((k.checkAndTrigger HIGH).1.checkAndTrigger s1).1 s2 h2
      hact2 hne
  have hprev : ((k.checkAndTrigger HIGH).1.checkAndTrigger s1).1.previousState =
      NOT_PRESSED := by rw [p2, p1, hp]
  rw [hprev] at e3
  have e3' : (((k.checkAndTrigger HIGH).1.checkAndTrigger s1).1.checkAndTrigger s2).2 =
      [] := by
    rw [e3]; simp [NOT_PRESSED, PRESSED, BUTTON_HELD]
  simp only [feed, List.map_cons, List.map_nil, a1, a2, a3, e1, e2, e3']

/-- Witness of C2: a key built by `KeyboardItem(3, callback)`. -/
theorem single_tick_spike_is_rejected_witness :
    (KeyboardItem.withCallback 3 1 NO_REPEAT false).notify ≠ 0 ∧
    (KeyboardItem.withCallback 3 1 NO_REPEAT false).getState = NOT_PRESSED ∧
    (KeyboardItem.withCallback 3 1 NO_REPEAT false).previousState = NOT_PRESSED ∧
    LOW ≠ HIGH ∧
    (feed (KeyboardItem.withCallback 3 1 NO_REPEAT false) [HIGH, LOW, LOW]).map
        (fun r => (r.1.getState, r.2)) =
      [(DEBOUNCING1, []), (DEBOUNCING2, []), (NOT_PRESSED, [])] :=
  ⟨by decide, by decide, by decide, by decide,
    single_tick_spike_is_rejected (KeyboardItem.withCallback 3 1 NO_REPEAT false)
      (by decide) (by decide) (by decide) LOW LOW (by decide) (by decide)⟩

/-! ## The hold threshold -/

theorem sameConfig_trans {k k1 k2 : KeyboardItem} (h1 : SameConfig k k1)
    (h2 : SameConfig k1 k2) : SameConfig k k2 := by
  obtain ⟨a1, a2, a3, a4, a5⟩ := h1
  obtain ⟨b1, b2, b3, b4, b5⟩ := h2
  exact ⟨b1.trans a1, b2.trans a2, b3.trans a3, b4.trans a4, b5.trans a5⟩

/-- While the counter stays at or below the threshold a pressed key just counts. -/
theorem pressed_phase (m : Nat) (k : KeyboardItem) (hcb : k.notify ≠ 0)
    (hs : k.getState = PRESSED) (hc : k.counter + m ≤ HOLD_THRESHOLD) :
    (feed k (List.replicate m HIGH)).map (fun r => pressCount true r.2) =
        List.replicate m 0 ∧
      (runTicks k (List.replicate m HIGH)).getState = PRESSED ∧
      (runTicks k (List.replicate m HIGH)).counter = k.counter + m ∧
      SameConfig k (runTicks k (List.replicate m HIGH)) := by
  induction m generalizing k with
  | zero => exact ⟨rfl, hs, rfl, rfl, rfl, rfl, rfl, rfl⟩
  | succ m ih =>
    obtain ⟨a1, -, c1, -, cfg, e1⟩ :=
      KeyboardItem.high_from_pressed k hcb hs (by omega)
    have hcb1 : (k.checkAndTrigger HIGH).1.notify ≠ 0 := by rw [cfg.1]; exact hcb
    obtain ⟨i1, i2, i3, i4⟩ := ih (k.checkAndTrigger HIGH).1 hcb1 a1 (by rw [c1]; omega)
    refine ⟨?_, ?_, ?_, ?_⟩
    · simp only [List.replicate_succ, feed, List.map_cons, i1, e1]; rfl
    · simpa only [List.replicate_succ, runTicks] using i2
    · simp only [List.replicate_succ, runTicks, i3, c1]; omega
    · simpa only [List.replicate_succ, runTicks] using sameConfig_trans cfg i4

/-- A held key without repeat ignores further active samples. -/
theorem held_no_repeat_phase (m : Nat) (k : KeyboardItem) (hs : k.getState = BUTTON_HELD)
    (hr : k.repeatInterval = NO_REPEAT) :
    (feed k (List.replicate m HIGH)).map (fun r => pressCount true r.2) =
      List.replicate m 0 := by
  induction m with
  | zero => rfl
  | succ m ih =>
    simp only [List.replicate_succ, feed, List.map_cons,
      KeyboardItem.high_from_held_no_repeat k hs hr, ih]
    rfl

/-- C4: with `HOLD_THRESHOLD = 20` and `repeatInterval = NO_REPEAT`, a key with a press
callback that has just entered `Pressed` (counter 0) and receives `n` further active samples
makes no press notification with `held = true` during the first 20 of them, exactly one on
the 21st, which moves the state to `Held`, and none afterwards. -/
theorem hold_fires_once_on_tick_21 (k : KeyboardItem) (n : Nat) (hcb : k.notify ≠ 0)
    (hs : k.getState = PRESSED) (hc : k.counter = 0) (hr : k.repeatInterval = NO_REPEAT) :
    (n ≤ 20 → (feed k (List.replicate n HIGH)).map (fun r => pressCount true r.2) =
        List.replicate n 0) ∧
      (21 ≤ n → (feed k (List.replicate n HIGH)).map (fun r => pressCount true r.2) =
        List.replicate 20 0 ++ 1 :: List.replicate (n - 21) 0) ∧
      (21 ≤ n →
        ((feed k (List.replicate n HIGH)).map (fun r => pressCount true r.2)).sum = 1) ∧
      (runTicks k (List.replicate 20 HIGH)).getState = PRESSED ∧
      (runTicks k (List.replicate 21 HIGH)).getState = BUTTON_HELD := by
  obtain ⟨p1, p2, p3, p4⟩ := pressed_phase 20 k hcb hs (by rw [hc]; decide)
  have hcb20 : (runTicks k (List.replicate 20 HIGH)).notify ≠ 0 := by rw [p4.1]; exact hcb
  obtain ⟨a, -, -, -, cfg, e⟩ :=
    KeyboardItem.high_from_pressed_threshold (runTicks k (List.replicate 20 HIGH)) hcb20 p2
      (by rw [p3, hc]; rfl)
  have hr21 : ((runTicks k (List.replicate 20 HIGH)).checkAndTrigger HIGH).1.repeatInterval =
      NO_REPEAT := by rw [cfg.2.2.1, p4.2.2.1, hr]
  have hfire : pressCount true ((runTicks k (List.replicate 20 HIGH)).checkAndTrigger HIGH).2 =
      1 := by
    rw [e, KeyboardItem.pressCount_trigger _ _ _ hcb20]; rfl
  have hlong : ∀ m, (feed k (List.replicate (20 + (m + 1)) HIGH)).map
      (fun r => pressCount true r.2) = List.replicate 20 0 ++ 1 :: List.replicate m 0 := by
    intro m
    rw [List.replicate_add, feed_append, List.map_append, p1, List.replicate_succ]
    simp only [feed, List.map_cons, hfire, held_no_repeat_phase m _ a hr21]
  refine ⟨?_, ?_, ?_, p2, ?_⟩
  · intro hn
    exact (pressed_phase n k hcb hs (by rw [hc]; simp only [HOLD_THRESHOLD]; omega)).1
  · intro hn
    obtain ⟨m, rfl⟩ : ∃ m, n = 20 + (m + 1) := ⟨n - 21, by omega⟩
    have hm : 20 + (m + 1) - 21 = m := by omega
    rw [hlong m, hm]
  · intro hn
    obtain ⟨m, rfl⟩ : ∃ m, n = 20 + (m + 1) := ⟨n - 21, by omega⟩
    rw [hlong m, List.sum_append, List.sum_cons, List.sum_replicate, List.sum_replicate,
      smul_zero, smul_zero, Nat.zero_add, Nat.add_zero]
  · have h21 : List.replicate 21 HIGH = List.replicate 20 HIGH ++ [HIGH] :=
      List.replicate_add 20 1 HIGH
    rw [h21, runTicks_append]
    exact a

/-- Witness of C4: the key built by `KeyboardItem(3, callback)` after two active samples,
fed thirty further active samples. -/
theorem hold_fires_once_on_tick_21_witness :
    (runTicks (KeyboardItem.withCallback 3 1 NO_REPEAT false) [HIGH, HIGH]).notify ≠ 0 ∧
    (runTicks (KeyboardItem.withCallback 3 1 NO_REPEAT false) [HIGH, HIGH]).getState =
      PRESSED ∧
    (runTicks (KeyboardItem.withCallback 3 1 NO_REPEAT false) [HIGH, HIGH]).counter = 0 ∧
    (runTicks (KeyboardItem.withCallback 3 1 NO_REPEAT false) [HIGH, HIGH]).repeatInterval =
      NO_REPEAT ∧
    ((30 ≤ 20 →
        (feed (runTicks (KeyboardItem.withCallback 3 1 NO_REPEAT false) [HIGH, HIGH])
          (List.replicate 30 HIGH)).map (fun r => pressCount true r.2) =
        List.replicate 30 0) ∧
      (21 ≤ 30 →
        (feed (runTicks (KeyboardItem.withCallback 3 1 NO_REPEAT false) [HIGH, HIGH])
          (List.replicate 30 HIGH)).map (fun r => pressCount true r.2) =
        List.replicate 20 0 ++ 1 :: List.replicate (30 - 21) 0) ∧
      (21 ≤ 30 →
        ((feed (runTicks (KeyboardItem.withCallback 3 1 NO_REPEAT false) [HIGH, HIGH])
          (List.replicate 30 HIGH)).map (fun r => pressCount true r.2)).sum = 1) ∧
      (runTicks (runTicks (KeyboardItem.withCallback 3 1 NO_REPEAT false) [HIGH, HIGH])
        (List.replicate 20 HIGH)).getState = PRESSED ∧
      (runTicks (runTicks (KeyboardItem.withCallback 3 1 NO_REPEAT false) [HIGH, HIGH])
        (List.replicate 21 HIGH)).getState = BUTTON_HELD) :=
  ⟨by decide, by decide, by decide, by decide,
    hold_fires_once_on_tick_21
      (runTicks (KeyboardItem.withCallback 3 1 NO_REPEAT false) [HIGH, HIGH]) 30
      (by decide) (by decide) (by decide) (by decide)⟩

/-! ## Release notifications -/

theorem constructed_state (k : KeyboardItem) (h : Constructed k) :
    k.getState = NOT_PRESSED ∧ k.previousState = NOT_PRESSED := by
  induction h with
  | new => exact ⟨by decide, rfl⟩
  | withCallback pin cb rep inv =>
    cases inv <;>
      exact ⟨by simp only [KeyboardItem.getState, KeyboardItem.withCallback]; decide, rfl⟩
  | withListener pin l rep inv =>
    cases inv <;>
      exact ⟨by simp only [KeyboardItem.getState, KeyboardItem.withListener]; decide, rfl⟩
  | onRelease k cb _ ih => exact ih

theorem consistent_of_constructed (k : KeyboardItem) (h : Constructed k) : Consistent k :=
  Or.inr (Or.inr ⟨Or.inl (constructed_state k h).1, (constructed_state k h).2⟩)

theorem consistent_step (k : KeyboardItem) (s : Nat) (h : Consistent k) :
    Consistent (k.checkAndTrigger s).1 := by
  by_cases hin : k.notify = 0 ∧ k.callbackOnRelease = 0
  · rw [KeyboardItem.inert k s hin]; exact h
  by_cases hs : s = HIGH
  · subst hs
    simp only [KeyboardItem.checkAndTrigger, if_neg hin, if_true]
    split_ifs with c1 c2 c3 c4 c5 c6
    · rcases h with ⟨h1, -⟩ | ⟨h1, -⟩ | ⟨-, h2⟩
      · rw [c1] at h1; exact absurd h1 (by decide)
      · rw [c1] at h1; exact absurd h1 (by decide)
      · exact Or.inr (Or.inr ⟨Or.inr (Or.inl (KeyboardItem.getState_setState k _ (by decide))),
          h2⟩)
    · exact Or.inl ⟨KeyboardItem.getState_setState k _ (by decide), rfl⟩
    · exact Or.inr (Or.inl ⟨KeyboardItem.getState_setState _ _ (by decide), rfl⟩)
    · rcases h with ⟨-, h2⟩ | ⟨h1, -⟩ | ⟨h1, -⟩
      · exact Or.inl ⟨c3, h2⟩
      · rw [c3] at h1; exact absurd h1 (by decide)
      · rw [c3] at h1; exact absurd h1 (by decide)
    · rcases h with ⟨h1, -⟩ | ⟨-, h2⟩ | ⟨h1, -⟩
      · rw [c5.1] at h1; exact absurd h1 (by decide)
      · exact Or.inr (Or.inl ⟨c5.1, h2⟩)
      · rw [c5.1] at h1; exact absurd h1 (by decide)
    · rcases h with ⟨h1, -⟩ | ⟨-, h2⟩ | ⟨h1, -⟩
      · rw [c5.1] at h1; exact absurd h1 (by decide)
      · exact Or.inr (Or.inl ⟨c5.1, h2⟩)
      · rw [c5.1] at h1; exact absurd h1 (by decide)
    · exact h
  · by_cases hd : k.getState = DEBOUNCING1
    · obtain ⟨a, p, -⟩ := KeyboardItem.low_from_debouncing1 k s hs hin hd
      rcases h with ⟨h1, -⟩ | ⟨h1, -⟩ | ⟨-, h2⟩
      · rw [hd] at h1; exact absurd h1 (by decide)
      · rw [hd] at h1; exact absurd h1 (by decide)
      · exact Or.inr (Or.inr ⟨Or.inr (Or.inr a), by rw [p, h2]⟩)
    · obtain ⟨a, p, -⟩ := KeyboardItem.low_from_other k s hs hin hd
      refine Or.inr (Or.inr ⟨Or.inl a, ?_⟩)
      rw [p]
      rcases h with ⟨-, h2⟩ | ⟨-, h2⟩ | ⟨-, h2⟩ <;> simp [h2]

theorem consistent_runTicks (k : KeyboardItem) (samples : List Nat) (h : Consistent k) :
    Consistent (runTicks k samples) := by
  induction samples generalizing k with
  | nil => exact h
  | cons s rest ih => exact ih _ (consistent_step k s h)

/-- Outside `Pressed` and `Held` an inactive sample invokes no callback. -/
theorem low_is_silent_when_not_pressed (k : KeyboardItem) (s : Nat) (hs : s ≠ HIGH)
    (h : Consistent k)
    (hst : k.getState = NOT_PRESSED ∨ k.getState = DEBOUNCING1 ∨ k.getState = DEBOUNCING2) :
    (k.checkAndTrigger s).2 = [] := by
  have hprev : k.previousState = NOT_PRESSED := by
    rcases h with ⟨h1, -⟩ | ⟨h1, -⟩ | ⟨-, h2⟩
    · rcases hst with h | h | h <;> rw [h1] at h <;> exact absurd h (by decide)
    · rcases hst with h | h | h <;> rw [h1] at h <;> exact absurd h (by decide)
    · exact h2
  by_cases hin : k.notify = 0 ∧ k.callbackOnRelease = 0
  · rw [KeyboardItem.inert k s hin]
  by_cases hd : k.getState = DEBOUNCING1
  · exact (KeyboardItem.low_from_debouncing1 k s hs hin hd).2.2.2.2.2
  · rw [(KeyboardItem.low_from_other k s hs hin hd).2.2.2.2.2, hprev]
    simp [NOT_PRESSED, PRESSED, BUTTON_HELD]

/-- Two inactive samples in a row: the second one invokes no callback. -/
theorem second_low_is_silent (k : KeyboardItem) (s1 s2 : Nat) (h1 : s1 ≠ HIGH)
    (h2 : s2 ≠ HIGH) (h : Consistent k) :
    ((k.checkAndTrigger s1).1.checkAndTrigger s2).2 = [] := by
  by_cases hin : k.notify = 0 ∧ k.callbackOnRelease = 0
  · rw [KeyboardItem.inert k s1 hin, KeyboardItem.inert k s2 hin]
  · apply low_is_silent_when_not_pressed _ s2 h2 (consistent_step k s1 h)
    by_cases hd : k.getState = DEBOUNCING1
    · exact Or.inr (Or.inr (KeyboardItem.low_from_debouncing1 k s1 h1 hin hd).1)
    · exact Or.inl (KeyboardItem.low_from_other k s1 h1 hin hd).1

theorem active_of_hasReleaseTarget (k : KeyboardItem) (ht : hasReleaseTarget k) :
    ¬ (k.notify = 0 ∧ k.callbackOnRelease = 0) := by
  unfold hasReleaseTarget at ht
  intro hin
  cases hl : k.isUsingListener <;> simp [hl] at ht
  · exact ht hin.2
  · exact ht hin.1

/-- C3, as amended: for a key entry reached from a constructed one by any sample sequence,
an inactive sample makes exactly one release notification, with `held = false` from
`Pressed` and with `held = true` from `Held`, provided the entry has a release target (its
listener in listener mode, a release callback otherwise); from `NotPressed`, `Debouncing1`
and `Debouncing2` it invokes no callback; and a further inactive sample invokes none. -/
theorem release_fires_once_given_target (k0 : KeyboardItem) (samples : List Nat)
    (s1 s2 : Nat) (hk0 : Constructed k0) (h1 : s1 ≠ HIGH) (h2 : s2 ≠ HIGH) :
    ((runTicks k0 samples).getState = PRESSED → hasReleaseTarget (runTicks k0 samples) →
        releaseCount false ((runTicks k0 samples).checkAndTrigger s1).2 = 1 ∧
        releaseCount true ((runTicks k0 samples).checkAndTrigger s1).2 = 0) ∧
      ((runTicks k0 samples).getState = BUTTON_HELD → hasReleaseTarget (runTicks k0 samples) →
        releaseCount true ((runTicks k0 samples).checkAndTrigger s1).2 = 1 ∧
        releaseCount false ((runTicks k0 samples).checkAndTrigger s1).2 = 0) ∧
      ((runTicks k0 samples).getState = NOT_PRESSED ∨
          (runTicks k0 samples).getState = DEBOUNCING1 ∨
          (runTicks k0 samples).getState = DEBOUNCING2 →
        ((runTicks k0 samples).checkAndTrigger s1).2 = []) ∧
      (((runTicks k0 samples).checkAndTrigger s1).1.checkAndTrigger s2).2 = [] := by
  have hc : Consistent (runTicks k0 samples) :=
    consistent_runTicks k0 samples (consistent_of_constructed k0 hk0)
  generalize runTicks k0 samples = k at hc ⊢
  refine ⟨?_, ?_, low_is_silent_when_not_pressed k s1 h1 hc,
    second_low_is_silent k s1 s2 h1 h2 hc⟩
  · intro hst ht
    have hprev : k.previousState = PRESSED := by
      rcases hc with ⟨-, p⟩ | ⟨a, -⟩ | ⟨a, -⟩
      · exact p
      · rw [hst] at a; exact absurd a (by decide)
      · rcases a with a | a | a <;> rw [hst] at a <;> exact absurd a (by decide)
    have hd : k.getState ≠ DEBOUNCING1 := by rw [hst]; decide
    rw [(KeyboardItem.low_from_other k s1 h1 (active_of_hasReleaseTarget k ht) hd).2.2.2.2.2,
      if_pos hprev, KeyboardItem.releaseCount_triggerRelease k _ _ ht,
      KeyboardItem.releaseCount_triggerRelease k _ _ ht]
    exact ⟨rfl, rfl⟩
  · intro hst ht
    have hprev : k.previousState = BUTTON_HELD := by
      rcases hc with ⟨a, -⟩ | ⟨-, p⟩ | ⟨a, -⟩
      · rw [hst] at a; exact absurd a (by decide)
      · exact p
      · rcases a with a | a | a <;> rw [hst] at a <;> exact absurd a (by decide)
    have hd : k.getState ≠ DEBOUNCING1 := by rw [hst]; decide
    have hnp : ¬ k.previousState = PRESSED := by rw [hprev]; decide
    rw [(KeyboardItem.low_from_other k s1 h1 (active_of_hasReleaseTarget k ht) hd).2.2.2.2.2,
      if_neg hnp, if_pos hprev, KeyboardItem.releaseCount_triggerRelease k _ _ ht,
      KeyboardItem.releaseCount_triggerRelease k _ _ ht]
    exact ⟨rfl, rfl⟩

/-- Witness of C3 as amended: `KeyboardItem(3, callback)` with a release callback, pressed
by two active samples and then released. -/
theorem release_fires_once_given_target_witness :
    Constructed ((KeyboardItem.withCallback 3 1 NO_REPEAT false).onRelease 2) ∧
    LOW ≠ HIGH ∧
    (((runTicks ((KeyboardItem.withCallback 3 1 NO_REPEAT false).onRelease 2)
          [HIGH, HIGH]).getState = PRESSED →
        hasReleaseTarget (runTicks ((KeyboardItem.withCallback 3 1 NO_REPEAT false).onRelease 2)
          [HIGH, HIGH]) →
        releaseCount false ((runTicks
          ((KeyboardItem.withCallback 3 1 NO_REPEAT false).onRelease 2)
          [HIGH, HIGH]).checkAndTrigger LOW).2 = 1 ∧
        releaseCount true ((runTicks
          ((KeyboardItem.withCallback 3 1 NO_REPEAT false).onRelease 2)
          [HIGH, HIGH]).checkAndTrigger LOW).2 = 0) ∧
      ((runTicks ((KeyboardItem.withCallback 3 1 NO_REPEAT false).onRelease 2)
          [HIGH, HIGH]).getState = BUTTON_HELD →
        hasReleaseTarget (runTicks ((KeyboardItem.withCallback 3 1 NO_REPEAT false).onRelease 2)
          [HIGH, HIGH]) →
        releaseCount true ((runTicks
          ((KeyboardItem.withCallback 3 1 NO_REPEAT false).onRelease 2)
          [HIGH, HIGH]).checkAndTrigger LOW).2 = 1 ∧
        releaseCount false ((runTicks
          ((KeyboardItem.withCallback 3 1 NO_REPEAT false).onRelease 2)
          [HIGH, HIGH]).checkAndTrigger LOW).2 = 0) ∧
      ((runTicks ((KeyboardItem.withCallback 3 1 NO_REPEAT false).onRelease 2)
            [HIGH, HIGH]).getState = NOT_PRESSED ∨
          (runTicks ((KeyboardItem.withCallback 3 1 NO_REPEAT false).onRelease 2)
            [HIGH, HIGH]).getState = DEBOUNCING1 ∨
          (runTicks ((KeyboardItem.withCallback 3 1 NO_REPEAT false).onRelease 2)
            [HIGH, HIGH]).getState = DEBOUNCING2 →
        ((runTicks ((KeyboardItem.withCallback 3 1 NO_REPEAT false).onRelease 2)
          [HIGH, HIGH]).checkAndTrigger LOW).2 = []) ∧
      (((runTicks ((KeyboardItem.withCallback 3 1 NO_REPEAT false).onRelease 2)
        [HIGH, HIGH]).checkAndTrigger LOW).1.checkAndTrigger LOW).2 = []) :=
  ⟨Constructed.onRelease _ 2 (Constructed.withCallback 3 1 NO_REPEAT false), by decide,
    release_fires_once_given_target
      ((KeyboardItem.withCallback 3 1 NO_REPEAT false).onRelease 2) [HIGH, HIGH] LOW LOW
      (Constructed.onRelease _ 2 (Constructed.withCallback 3 1 NO_REPEAT false))
      (by decide) (by decide)⟩

/-- Counterexample to C3 as stated: the key built by `KeyboardItem(3, callback)`, with no
release callback and not in listener mode, reaches `Pressed` after two active samples; the
inactive sample that follows invokes no callback at all, so no release is notified. -/
theorem release_without_target_is_silent :
    Constructed (KeyboardItem.withCallback 3 1 NO_REPEAT false) ∧
    (runTicks (KeyboardItem.withCallback 3 1 NO_REPEAT false) [HIGH, HIGH]).getState =
      PRESSED ∧
    LOW ≠ HIGH ∧
    ((runTicks (KeyboardItem.withCallback 3 1 NO_REPEAT false) [HIGH, HIGH]).checkAndTrigger
      LOW).2 = [] ∧
    releaseCount false
      ((runTicks (KeyboardItem.withCallback 3 1 NO_REPEAT false) [HIGH, HIGH]).checkAndTrigger
        LOW).2 ≠ 1 :=
  ⟨Constructed.withCallback 3 1 NO_REPEAT false, by decide, by decide, by decide, by decide⟩

/-! ## Accelerating repeat -/

/-- With acceleration `a` the counter grows by `a / 4 + 1` a tick, so a repeat interval of 5
is exceeded after `5 / (a / 4 + 1) + 1` ticks; this number does not grow with `a`. -/
theorem repeat_period_antitone (a b : Nat) (h : a ≤ b) :
    5 / (b / 4 + 1) + 1 ≤ 5 / (a / 4 + 1) + 1 := by
  have h1 : a / 4 + 1 ≤ b / 4 + 1 := Nat.succ_le_succ (Nat.div_le_div_right h)
  exact Nat.succ_le_succ (Nat.div_le_div_left h1 (Nat.succ_pos _))

theorem gaps_cons_cons (a b : Nat) (l : List Nat) :
    gaps (a :: b :: l) = (b - a) :: gaps (b :: l) := rfl

/-- The invariant of the repeat phase: `s` ticks after the last notification (made on tick
`t0`) the counter is `s * (a / 4 + 1)`, not above 5. From such a state all later gaps are
in non-increasing order and bounded by the period of the current acceleration. -/
theorem repeat_phase (n : Nat) (k : KeyboardItem) (t0 s : Nat) (hcb : k.notify ≠ 0)
    (hs : k.getState = BUTTON_HELD) (hr : k.repeatInterval = 5)
    (ha : k.acceleration ≤ 255) (hc : k.counter = s * (k.acceleration / 4 + 1))
    (hc5 : k.counter ≤ 5) :
    List.Sorted (· ≥ ·)
        (gaps (t0 :: heldTicksFrom (t0 + s) (feed k (List.replicate n HIGH)))) ∧
      ∀ g ∈ gaps (t0 :: heldTicksFrom (t0 + s) (feed k (List.replicate n HIGH))),
        g ≤ 5 / (k.acceleration / 4 + 1) + 1 := by
  induction n generalizing k t0 s with
  | zero => exact ⟨List.sorted_nil, fun g hg => absurd hg (List.not_mem_nil g)⟩
  | succ n ih =>
    have hrn : k.repeatInterval ≠ NO_REPEAT := by rw [hr]; decide
    have hlt : k.counter + k.acceleration / 4 + 1 < 256 := by omega
    by_cases hfire : k.repeatInterval < k.counter + k.acceleration / 4 + 1
    · obtain ⟨a1, -, c1, acc1, cfg, e1⟩ :=
        KeyboardItem.high_from_held_repeat_fire k hcb hs hrn hlt hfire
      have hcb1 : (k.checkAndTrigger HIGH).1.notify ≠ 0 := by rw [cfg.1]; exact hcb
      have hr1 : (k.checkAndTrigger HIGH).1.repeatInterval = 5 := by rw [cfg.2.2.1, hr]
      have hp : 0 < pressCount true (k.checkAndTrigger HIGH).2 := by
        rw [e1, KeyboardItem.pressCount_trigger _ _ _ hcb]; decide
      have hacc : k.acceleration ≤ (k.checkAndTrigger HIGH).1.acceleration := by
        rw [acc1]; omega
      obtain ⟨i1, i2⟩ := ih (k.checkAndTrigger HIGH).1 (t0 + s + 1) 0 hcb1 a1 hr1
        (by rw [acc1]; omega) (by rw [c1]; simp) (by rw [c1]; omega)
      have hs1 : s + 1 = 5 / (k.acceleration / 4 + 1) + 1 := by
        rw [hr] at hfire
        have hpos : 0 < k.acceleration / 4 + 1 := Nat.succ_pos _
        have hle : s ≤ 5 / (k.acceleration / 4 + 1) :=
          (Nat.le_div_iff_mul_le hpos).2 (by rw [← hc]; exact hc5)
        have hge : 5 / (k.acceleration / 4 + 1) < s + 1 :=
          (Nat.div_lt_iff_lt_mul hpos).2 (by rw [Nat.succ_mul, ← hc]; omega)
        omega
      have hlist : gaps (t0 :: heldTicksFrom (t0 + s) (feed k (List.replicate (n + 1) HIGH))) =
          (s + 1) :: gaps ((t0 + s + 1) :: heldTicksFrom (t0 + s + 1 + 0)
            (feed (k.checkAndTrigger HIGH).1 (List.replicate n HIGH))) := by
        simp only [List.replicate_succ, feed, heldTicksFrom, if_pos hp, gaps_cons_cons,
          Nat.add_zero]
        congr 1
        omega
      rw [hlist]
      have hbound := repeat_period_antitone _ _ hacc
      refine ⟨List.sorted_cons.2 ⟨fun g hg => ?_, i1⟩, fun g hg => ?_⟩
      · have := i2 g hg
        show g ≤ s + 1
        omega
      · rcases List.mem_cons.1 hg with h | h
        · omega
        · have := i2 g h
          omega
    · obtain ⟨a1, -, c1, acc1, cfg, e1⟩ :=
        KeyboardItem.high_from_held_repeat_wait k hcb hs hrn hlt (Nat.not_lt.1 hfire)
      have hcb1 : (k.checkAndTrigger HIGH).1.notify ≠ 0 := by rw [cfg.1]; exact hcb
      have hr1 : (k.checkAndTrigger HIGH).1.repeatInterval = 5 := by rw [cfg.2.2.1, hr]
      have hp : ¬ 0 < pressCount true (k.checkAndTrigger HIGH).2 := by
        rw [e1]; decide
      obtain ⟨i1, i2⟩ := ih (k.checkAndTrigger HIGH).1 t0 (s + 1) hcb1 a1 hr1
        (by rw [acc1]; exact ha) (by rw [c1, acc1, hc, Nat.succ_mul]; omega)
        (by rw [c1]; rw [hr] at hfire; omega)
      have hlist : gaps (t0 :: heldTicksFrom (t0 + s) (feed k (List.replicate (n + 1) HIGH))) =
          gaps (t0 :: heldTicksFrom (t0 + (s + 1))
            (feed (k.checkAndTrigger HIGH).1 (List.replicate n HIGH))) := by
        simp only [List.replicate_succ, feed, heldTicksFrom, if_neg hp]
        rfl
      rw [hlist]
      rw [acc1] at i2
      exact ⟨i1, i2⟩

/-- C5: with `repeatInterval = 5` and a press callback, for a key that has just entered
`Held` (counter 0, acceleration 1) and receives `n` active samples, the numbers of ticks
between consecutive press notifications with `held = true` are in non-increasing order, for
every `n`; this holds both among the repeats alone and when the notification made on entering
`Held` (tick 0) is counted as the first one. -/
theorem repeat_gaps_nonincreasing (k : KeyboardItem) (n : Nat) (hcb : k.notify ≠ 0)
    (hs : k.getState = BUTTON_HELD) (hc : k.counter = 0) (ha : k.acceleration = 1)
    (hr : k.repeatInterval = 5) :
    List.Sorted (· ≥ ·) (gaps (heldTicksFrom 0 (feed k (List.replicate n HIGH)))) ∧
      List.Sorted (· ≥ ·) (gaps (0 :: heldTicksFrom 0 (feed k (List.replicate n HIGH)))) := by
  have h := (repeat_phase n k 0 0 hcb hs hr (by rw [ha]; decide) (by rw [hc]; simp)
    (by rw [hc]; decide)).1
  rw [Nat.add_zero] at h
  refine ⟨?_, h⟩
  cases hl : heldTicksFrom 0 (feed k (List.replicate n HIGH)) with
  | nil => exact List.sorted_nil
  | cons b l =>
    rw [hl, gaps_cons_cons] at h
    exact (List.sorted_cons.1 h).2

/-- Witness of C5: `KeyboardItem(3, callback, 5)` held down for 23 ticks, so that it has
just entered `Held`, and then for 40 ticks more. -/
theorem repeat_gaps_nonincreasing_witness :
    (runTicks (KeyboardItem.withCallback 3 1 5 false) (List.replicate 23 HIGH)).notify ≠ 0 ∧
    (runTicks (KeyboardItem.withCallback 3 1 5 false) (List.replicate 23 HIGH)).getState =
      BUTTON_HELD ∧
    (runTicks (KeyboardItem.withCallback 3 1 5 false) (List.replicate 23 HIGH)).counter = 0 ∧
    (runTicks (KeyboardItem.withCallback 3 1 5 false) (List.replicate 23 HIGH)).acceleration =
      1 ∧
    (runTicks (KeyboardItem.withCallback 3 1 5 false) (List.replicate 23 HIGH)).repeatInterval =
      5 ∧
    (List.Sorted (· ≥ ·) (gaps (heldTicksFrom 0
        (feed (runTicks (KeyboardItem.withCallback 3 1 5 false) (List.replicate 23 HIGH))
          (List.replicate 40 HIGH)))) ∧
      List.Sorted (· ≥ ·) (gaps (0 :: heldTicksFrom 0
        (feed (runTicks (KeyboardItem.withCallback 3 1 5 false) (List.replicate 23 HIGH))
          (List.replicate 40 HIGH))))) :=
  ⟨by decide, by decide, by decide, by decide, by decide,
    repeat_gaps_nonincreasing
      (runTicks (KeyboardItem.withCallback 3 1 5 false) (List.replicate 23 HIGH)) 40
      (by decide) (by decide) (by decide) (by decide) (by decide)⟩

/-- The gaps of the witness of C5, evaluated: three of 6 ticks, four of 3, then 2. -/
theorem repeat_gaps_sample :
    gaps (0 :: heldTicksFrom 0
      (feed (runTicks (KeyboardItem.withCallback 3 1 5 false) (List.replicate 23 HIGH))
        (List.replicate 40 HIGH))) = [6, 6, 6, 3, 3, 3, 3, 2, 2, 2, 2, 2] := by
  decide

/-! ## The rotary encoder value model -/

theorem toU16_of_range (x : Int) (h0 : 0 ≤ x) (h1 : x < 65536) : (toU16 x : Int) = x := by
  unfold toU16
  rw [Int.toNat_of_nonneg (Int.emod_nonneg x (by decide)), Int.emod_eq_of_lt h0 h1]

theorem absInt_of_neg (x : Int) (h : x < 0) : absInt x = -x := by
  unfold absInt
  rw [if_neg (by omega)]

theorem safeAbs_of_neg (x : Int) (h : x < 0) : safeAbs x = -x := by
  unfold safeAbs
  rw [if_pos h]

/-- C8, as amended: for `maximumValue > 0` and an `int8_t` `incVal < 0` (fields within
`uint16_t`), `increment(incVal)` sets `currentReading`: when it is below `|incVal|`, to
`maximumValue - |incVal| + 1` with rollover on, provided `|incVal| ≤ maximumValue + 1`, and
to 0 with rollover off; otherwise to `currentReading - |incVal|`, the reading then being
non-zero, so that the branch that changes nothing is never taken. The callback receives the
resulting `currentReading`, once. -/
theorem increment_negative (e : RotaryEncoder) (incVal : Int) (hwf : e.WellFormed)
    (hmax : 0 < e.maximumValue) (h8 : isInt8 incVal) (hneg : incVal < 0) :
    ((e.currentReading : Int) < |incVal| → e.rollover = true →
        |incVal| ≤ (e.maximumValue : Int) + 1 →
        ((e.increment incVal).1.currentReading : Int) =
          (e.maximumValue : Int) - |incVal| + 1) ∧
      ((e.currentReading : Int) < |incVal| → e.rollover = false →
        (e.increment incVal).1.currentReading = 0) ∧
      (¬ (e.currentReading : Int) < |incVal| →
        e.currentReading ≠ 0 ∧
        ((e.increment incVal).1.currentReading : Int) = (e.currentReading : Int) - |incVal|) ∧
      (e.increment incVal).2 = [((e.increment incVal).1.currentReading : Int)] := by
  obtain ⟨hm, hc⟩ := hwf
  obtain ⟨hlo, hhi⟩ := h8
  have hmax0 : e.maximumValue ≠ 0 := Nat.pos_iff_ne_zero.1 hmax
  have hnn : ¬ incVal ≥ 0 := by omega
  have habs := absInt_of_neg incVal hneg
  have hsafe := safeAbs_of_neg incVal hneg
  rw [abs_of_neg hneg]
  refine ⟨?_, ?_, ?_, ?_⟩
  · intro hlt hroll hle
    simp only [RotaryEncoder.increment, if_neg hmax0, if_neg hnn, habs, if_pos hlt, hroll,
      if_true, hsafe]
    exact toU16_of_range _ (by omega) (by omega)
  · intro hlt hroll
    simp [RotaryEncoder.increment, hmax0, hnn, habs, hlt, hroll]
  · intro hnlt
    have hne : e.currentReading ≠ 0 := by omega
    refine ⟨hne, ?_⟩
    simp only [RotaryEncoder.increment, if_neg hmax0, if_neg hnn, habs, if_neg hnlt, if_pos hne]
    rw [toU16_of_range _ (by omega) (by omega)]
    omega
  · simp only [RotaryEncoder.increment, if_neg hmax0]

/-- Witness of C8 as amended: an encoder with range 0..30, rollover on, reading 20, and
`increment(-10)`. -/
theorem increment_negative_witness :
    (encoderWith 30 20 true).WellFormed ∧
    0 < (encoderWith 30 20 true).maximumValue ∧
    isInt8 (-10) ∧ (-10 : Int) < 0 ∧
    ((((encoderWith 30 20 true).currentReading : Int) < |(-10 : Int)| →
        (encoderWith 30 20 true).rollover =
          true →
        |(-10 : Int)| ≤ ((encoderWith 30 20 true).maximumValue : Int) + 1 →
        ((((encoderWith 30 20 true).increment
            (-10)).1.currentReading : Nat) : Int) =
          ((encoderWith 30 20 true).maximumValue : Int) - |(-10 : Int)| + 1) ∧
      ((((encoderWith 30 20 true).currentReading : Nat) : Int) < |(-10 : Int)| →
        (encoderWith 30 20 true).rollover =
          false →
        ((encoderWith 30 20 true).increment
          (-10)).1.currentReading = 0) ∧
      (¬ (((encoderWith 30 20 true).currentReading : Nat) : Int) < |(-10 : Int)| →
        (encoderWith 30 20 true).currentReading ≠ 0 ∧
        ((((encoderWith 30 20 true).increment
            (-10)).1.currentReading : Nat) : Int) =
          ((encoderWith 30 20 true).currentReading : Int) - |(-10 : Int)|) ∧
      ((encoderWith 30 20 true).increment
          (-10)).2 =
        [((((encoderWith 30 20 true).increment
          (-10)).1.currentReading : Nat) : Int)]) :=
  ⟨by decide, by decide, by decide, by decide,
    increment_negative (encoderWith 30 20 true)
      (-10) (by decide) (by decide) (by decide) (by decide)⟩

/-- Counterexample to C8 as stated: with `maximumValue = 3`, rollover on and reading 2,
`increment(-10)` takes the underflow branch and stores 65530, which is not
`maximumValue - |delta| + 1 = -6`. -/
theorem increment_negative_underflow_wraps :
    0 < (encoderWith 3 2 true).maximumValue ∧
    (-10 : Int) < 0 ∧
    (((encoderWith 3 2 true).currentReading :
      Nat) : Int) < |(-10 : Int)| ∧
    (encoderWith 3 2 true).rollover = true ∧
    ((encoderWith 3 2 true).increment
      (-10)).1.currentReading = 65530 ∧
    ((((encoderWith 3 2 true).increment
      (-10)).1.currentReading : Nat) : Int) ≠
      (((encoderWith 3 2 true).maximumValue :
        Nat) : Int) - |(-10 : Int)| + 1 :=
  ⟨by decide, by decide, by decide, rfl, by decide, by decide⟩

/-- Away from the `uint16_t` limit the non-negative branch without rollover saturates:
when `currentReading + incVal` fits in 16 bits the new reading is its minimum with
`maximumValue`. -/
theorem increment_saturates_below_uint16_limit (e : RotaryEncoder) (incVal : Int)
    (hmax : 0 < e.maximumValue) (hpos : 0 ≤ incVal) (hroll : e.rollover = false)
    (hfit : (e.currentReading : Int) + incVal < 65536) :
    ((e.increment incVal).1.currentReading : Int) =
        min ((e.currentReading : Int) + incVal) (e.maximumValue : Int) ∧
      (e.increment incVal).2 = [((e.increment incVal).1.currentReading : Int)] := by
  have hmax0 : e.maximumValue ≠ 0 := Nat.pos_iff_ne_zero.1 hmax
  simp only [RotaryEncoder.increment, if_neg hmax0, ge_iff_le, if_pos hpos, hroll,
    Bool.false_eq_true, if_false, and_true]
  rw [Nat.cast_min, toU16_of_range _ (by omega) hfit]

/-- C6, the code at the failing input: with `maximumValue = 65535`, rollover off and reading
65535, `increment(+1)` stores 0 and passes 0 to the callback, where the minimum of the true
sum 65536 and `maximumValue` is 65535. The example of the claim (range 10, reading 8,
`increment(+15)`) does give 10. -/
theorem increment_saturation_wraps_at_uint16_limit :
    (encoderWith 65535 65535 false).WellFormed ∧
    (encoderWith 65535 65535 false).currentReading ≤
      (encoderWith 65535 65535 false).maximumValue ∧
    (encoderWith 65535 65535 false).rollover = false ∧
    isInt8 1 ∧
    (encoderWith 65535 65535 false).increment 1 = (encoderWith 65535 0 false, [0]) ∧
    min (65535 + 1) 65535 = 65535 ∧
    ((encoderWith 10 8 false).increment 15).1.currentReading = 10 := by
  decide

/-- C7, the code at the failing input: with `maximumValue = 65500`, rollover on and reading
65500, `increment(+100)` stores 64 and passes 64 to the callback, where
`currentValue + delta - maximumValue - 1` is 99. The example of the claim (range 10,
reading 9, `increment(+3)`) does give 1. -/
theorem increment_rollover_wraps_at_uint16_limit :
    (encoderWith 65500 65500 true).WellFormed ∧
    (encoderWith 65500 65500 true).currentReading ≤
      (encoderWith 65500 65500 true).maximumValue ∧
    (encoderWith 65500 65500 true).rollover = true ∧
    isInt8 100 ∧
    (encoderWith 65500 65500 true).increment 100 = (encoderWith 65500 64 true, [64]) ∧
    65500 + 100 - 65500 - 1 = 99 ∧
    ((encoderWith 10 9 true).increment 3).1.currentReading = 1 := by
  decide

/-- Away from the `uint16_t` limit the non-negative branch with rollover does what C7 says:
when `currentReading + incVal` fits in 16 bits the new reading is that sum if it is at most
`maximumValue`, and the sum less `maximumValue + 1` otherwise. -/
theorem increment_rollover_below_uint16_limit (e : RotaryEncoder) (incVal : Int)
    (hmax : 0 < e.maximumValue) (hpos : 0 ≤ incVal) (hroll : e.rollover = true)
    (hfit : (e.currentReading : Int) + incVal < 65536) :
    ((e.increment incVal).1.currentReading : Int) =
        (if (e.currentReading : Int) + incVal ≤ (e.maximumValue : Int) then
          (e.currentReading : Int) + incVal
        else (e.currentReading : Int) + incVal - (e.maximumValue : Int) - 1) ∧
      (e.increment incVal).2 = [((e.increment incVal).1.currentReading : Int)] := by
  have hmax0 : e.maximumValue ≠ 0 := Nat.pos_iff_ne_zero.1 hmax
  have hsum := toU16_of_range _ (by omega : (0 : Int) ≤ (e.currentReading : Int) + incVal) hfit
  simp only [RotaryEncoder.increment, if_neg hmax0, ge_iff_le, if_pos hpos, hroll, if_true,
    and_true]
  by_cases hle : (e.currentReading : Int) + incVal ≤ (e.maximumValue : Int)
  · have hng : ¬ toU16 ((e.currentReading : Int) + incVal) > e.maximumValue := by omega
    rw [if_neg hng, if_pos hle, hsum]
  · have hg : toU16 ((e.currentReading : Int) + incVal) > e.maximumValue := by omega
    rw [if_pos hg, if_neg hle]
    show (toU16 _ : Int) = _
    rw [hsum, toU16_of_range _ (by omega) (by omega)]

/-- C9, the code at two failing inputs: with range 0..10, rollover on and reading 9,
`increment(+127)` stores 125; with range 0..3, rollover on and reading 2, `increment(-10)`
stores 65530. Both are above `maximumValue`. -/
theorem increment_leaves_range :
    (encoderWith 10 9 true).WellFormed ∧
    0 < (encoderWith 10 9 true).maximumValue ∧
    (encoderWith 10 9 true).currentReading ≤ (encoderWith 10 9 true).maximumValue ∧
    isInt8 127 ∧
    ((encoderWith 10 9 true).increment 127).1.currentReading = 125 ∧
    ¬ ((encoderWith 10 9 true).increment 127).1.currentReading ≤
      ((encoderWith 10 9 true).increment 127).1.maximumValue ∧
    (encoderWith 3 2 true).currentReading ≤ (encoderWith 3 2 true).maximumValue ∧
    isInt8 (-10) ∧
    ((encoderWith 3 2 true).increment (-10)).1.currentReading = 65530 ∧
    ¬ ((encoderWith 3 2 true).increment (-10)).1.currentReading ≤
      ((encoderWith 3 2 true).increment (-10)).1.maximumValue := by
  decide

/-- C10: after `changePrecision(0, 0, r)`, whatever the encoder was before, the intention is
`DIRECTION_ONLY`, the reading and the maximum are 0 and the rollover flag is `r`; a following
`increment(incVal)` calls the callback once, with `incVal` itself, and leaves the encoder
unchanged. In particular `increment(-4)` forwards `-4`. -/
theorem direction_only_forwards_delta (e : RotaryEncoder) (r : Bool) (incVal : Int) :
    (e.changePrecision 0 0 r).1.intent = EncoderUserIntention.DIRECTION_ONLY ∧
      (e.changePrecision 0 0 r).1.currentReading = 0 ∧
      (e.changePrecision 0 0 r).1.maximumValue = 0 ∧
      (e.changePrecision 0 0 r).1.rollover = r ∧
      (e.changePrecision 0 0 r).1.increment incVal = ((e.changePrecision 0 0 r).1, [incVal]) ∧
      (e.changePrecision 0 0 r).1.increment (-4) = ((e.changePrecision 0 0 r).1, [-4]) := by
  refine ⟨?_, ?_, ?_, ?_, ?_, ?_⟩ <;>
    simp [RotaryEncoder.changePrecision, RotaryEncoder.increment, toU16]

/-! ## `changePrecision` -/

/-- C11, as amended: for every `maxValue`, every `currentValue` within `uint16_t` (0 to
65535) and every `rolloverOnMax`, `changePrecision` stores the three values in
`maximumValue`, `currentReading` and `rollover`, sets the intention to `DIRECTION_ONLY`
exactly when `maxValue` and `currentValue` are both zero and leaves it as it was otherwise,
leaves the other fields alone, and invokes the callback exactly once, with the new reading,
whatever the reading was before. -/
theorem changePrecision_stores_and_notifies (e : RotaryEncoder) (maxValue : Nat)
    (currentValue : Int) (rolloverOnMax : Bool) (h0 : 0 ≤ currentValue)
    (h1 : currentValue < 65536) :
    (e.changePrecision maxValue currentValue rolloverOnMax).1.maximumValue = maxValue ∧
      ((e.changePrecision maxValue currentValue rolloverOnMax).1.currentReading : Int) =
        currentValue ∧
      (e.changePrecision maxValue currentValue rolloverOnMax).1.rollover = rolloverOnMax ∧
      (e.changePrecision maxValue currentValue rolloverOnMax).1.intent =
        (if maxValue = 0 ∧ currentValue = 0 then EncoderUserIntention.DIRECTION_ONLY
          else e.intent) ∧
      (e.changePrecision maxValue currentValue rolloverOnMax).1.callback = e.callback ∧
      (e.changePrecision maxValue currentValue rolloverOnMax).1.lastSyncStatus =
        e.lastSyncStatus ∧
      (e.changePrecision maxValue currentValue rolloverOnMax).2 = [currentValue] := by
  have hc := toU16_of_range currentValue h0 h1
  by_cases hz : maxValue = 0 ∧ currentValue = 0
  · simp only [RotaryEncoder.changePrecision, if_pos hz, hc, and_self]
  · simp only [RotaryEncoder.changePrecision, if_neg hz, hc, and_self]

/-- Witness of C11 as amended: a fresh encoder given the range 0..10 and the reading 4. -/
theorem changePrecision_stores_and_notifies_witness :
    (0 : Int) ≤ 4 ∧ (4 : Int) < 65536 ∧
    (((RotaryEncoder.new 1).changePrecision 10 4 true).1.maximumValue = 10 ∧
      ((((RotaryEncoder.new 1).changePrecision 10 4 true).1.currentReading : Nat) : Int) =
        4 ∧
      ((RotaryEncoder.new 1).changePrecision 10 4 true).1.rollover = true ∧
      ((RotaryEncoder.new 1).changePrecision 10 4 true).1.intent =
        (if 10 = 0 ∧ (4 : Int) = 0 then EncoderUserIntention.DIRECTION_ONLY
          else (RotaryEncoder.new 1).intent) ∧
      ((RotaryEncoder.new 1).changePrecision 10 4 true).1.callback =
        (RotaryEncoder.new 1).callback ∧
      ((RotaryEncoder.new 1).changePrecision 10 4 true).1.lastSyncStatus =
        (RotaryEncoder.new 1).lastSyncStatus ∧
      ((RotaryEncoder.new 1).changePrecision 10 4 true).2 = [4]) :=
  ⟨by decide, by decide,
    changePrecision_stores_and_notifies (RotaryEncoder.new 1) 10 4 true (by decide)
      (by decide)⟩

/-- Counterexample to C11 as stated: `changePrecision(10, -1, false)` on a fresh encoder
stores 65535 in `currentReading`, not the argument -1, and passes 65535 to the callback. -/
theorem changePrecision_truncates_current_value :
    ((RotaryEncoder.new 1).changePrecision 10 (-1) false).1.currentReading = 65535 ∧
    ((((RotaryEncoder.new 1).changePrecision 10 (-1) false).1.currentReading : Nat) : Int) ≠
      -1 ∧
    ((RotaryEncoder.new 1).changePrecision 10 (-1) false).2 = [65535] := by
  decide

/-! ## Acceleration of the hardware encoder -/

/-- C12: `amountFromChange` is the documented table, for every elapsed time, every
`maximumValue` and every acceleration mode. -/
theorem amountFromChange_eq_table (h : HardwareRotaryEncoder) (elapsed : Nat) :
    h.amountFromChange elapsed = amountTable elapsed h.maximumValue h.accelerationMode := by
  unfold HardwareRotaryEncoder.amountFromChange amountTable
  cases h.accelerationMode <;> simp only [ONE_TURN_OF_ENCODER, gt_iff_lt] <;>
    split_ifs <;> first | rfl | simp_all

/-- The value of `amountFromChange` lies between 1 and 10. -/
theorem amountFromChange_bounds (h : HardwareRotaryEncoder) (change : Nat) :
    1 ≤ h.amountFromChange change ∧ h.amountFromChange change ≤ 10 := by
  unfold HardwareRotaryEncoder.amountFromChange
  simp only [ONE_TURN_OF_ENCODER, gt_iff_lt]
  constructor <;> split_ifs <;> omega

/-- C13: for a fixed encoder (mode and `maximumValue`) `amountFromChange` does not increase
with the elapsed time, and its value always lies between 1 and 10. -/
theorem amountFromChange_antitone_and_bounded (h : HardwareRotaryEncoder) (t1 t2 : Nat)
    (hle : t1 ≤ t2) :
    h.amountFromChange t2 ≤ h.amountFromChange t1 ∧
      1 ≤ h.amountFromChange t1 ∧ h.amountFromChange t1 ≤ 10 := by
  unfold HardwareRotaryEncoder.amountFromChange
  simp only [ONE_TURN_OF_ENCODER, gt_iff_lt]
  refine ⟨?_, ?_, ?_⟩ <;> split_ifs <;> omega

/-- Witness of C13: a regular-acceleration encoder of range 0..100, 50 ms against 100 ms. -/
theorem amountFromChange_antitone_and_bounded_witness :
    50000 ≤ 100000 ∧
    ((hardwareWith 100 HWAccelerationMode.HWACCEL_REGULAR
          EncoderType.FULL_CYCLE).amountFromChange 100000 ≤
        (hardwareWith 100 HWAccelerationMode.HWACCEL_REGULAR
          EncoderType.FULL_CYCLE).amountFromChange 50000 ∧
      1 ≤ (hardwareWith 100 HWAccelerationMode.HWACCEL_REGULAR
          EncoderType.FULL_CYCLE).amountFromChange 50000 ∧
      (hardwareWith 100 HWAccelerationMode.HWACCEL_REGULAR
          EncoderType.FULL_CYCLE).amountFromChange 50000 ≤ 10) :=
  ⟨by decide,
    amountFromChange_antitone_and_bounded
      (hardwareWith 100 HWAccelerationMode.HWACCEL_REGULAR EncoderType.FULL_CYCLE)
      50000 100000 (by decide)⟩

/-- The values of the witness of C13: 6 after 50 ms, 4 after 100 ms. -/
theorem amountFromChange_sample :
    (hardwareWith 100 HWAccelerationMode.HWACCEL_REGULAR
        EncoderType.FULL_CYCLE).amountFromChange 50000 = 6 ∧
      (hardwareWith 100 HWAccelerationMode.HWACCEL_REGULAR
        EncoderType.FULL_CYCLE).amountFromChange 100000 = 4 := by
  decide

/-! ## Quadrature decoding -/

theorem amountFromChange_congr (h g : HardwareRotaryEncoder) (change : Nat)
    (hm : g.maximumValue = h.maximumValue) (ha : g.accelerationMode = h.accelerationMode) :
    g.amountFromChange change = h.amountFromChange change := by
  unfold HardwareRotaryEncoder.amountFromChange
  rw [hm, ha]

theorem toInt8_of_small (x : Int) (h0 : -128 ≤ x) (h1 : x ≤ 127) : toInt8 x = x := by
  unfold toInt8
  omega

/-- The step of an accepted sample: one call of `increment`, with `-m` when the levels
differ and `m` when they are equal, `m` being `amountFromChange` of the time elapsed; the
callbacks are those of that call and `lastChange` becomes the sampled time. -/
theorem acceptStep_calls (h : HardwareRotaryEncoder) (a b timeNow : Nat) :
    (h.acceptStep a b timeNow).2.increments =
        [if a ≠ b then -h.amountFromChange (subU32 timeNow h.lastChange)
          else h.amountFromChange (subU32 timeNow h.lastChange)] ∧
      (h.acceptStep a b timeNow).1.lastChange = timeNow := by
  have hb := amountFromChange_bounds h (subU32 timeNow h.lastChange)
  refine ⟨?_, rfl⟩
  simp only [HardwareRotaryEncoder.acceptStep]
  rw [toInt8_of_small _ (by split_ifs <;> omega) (by split_ifs <;> omega)]

/-- C14: for a `HALF_CYCLE` or `FULL_CYCLE` encoder, whatever the stored levels and the
sampled ones, `encoderChanged` calls `increment` (once) if and only if the sampled A differs
from `aLast`, the sampled B differs from `cleanFromB` and A is non-zero; otherwise it does
not call it. -/
theorem cycle_step_iff (h : HardwareRotaryEncoder) (io : IoSnapshot)
    (hty : h.encoderType = EncoderType.HALF_CYCLE ∨ h.encoderType = EncoderType.FULL_CYCLE) :
    ((h.encoderChanged io).2.increments.length = 1 ↔
        io.digitalRead h.pinA ≠ h.aLast ∧ io.digitalRead h.pinB ≠ h.cleanFromB ∧
          io.digitalRead h.pinA ≠ 0) ∧
      ((h.encoderChanged io).2.increments = [] ↔
        ¬ (io.digitalRead h.pinA ≠ h.aLast ∧ io.digitalRead h.pinB ≠ h.cleanFromB ∧
          io.digitalRead h.pinA ≠ 0)) := by
  have hq : h.encoderType ≠ EncoderType.QUARTER_CYCLE := by
    rcases hty with h1 | h1 <;> rw [h1] <;> decide
  simp only [HardwareRotaryEncoder.encoderChanged, if_neg hq]
  split_ifs <;> simp_all [HardwareRotaryEncoder.acceptStep]

/-- Witness of C14: a full-cycle encoder whose stored levels are 0 and 0 samples (1, 1). -/
theorem cycle_step_iff_witness :
    ((hardwareWith 100 HWAccelerationMode.HWACCEL_REGULAR EncoderType.FULL_CYCLE).encoderType =
        EncoderType.HALF_CYCLE ∨
      (hardwareWith 100 HWAccelerationMode.HWACCEL_REGULAR EncoderType.FULL_CYCLE).encoderType =
        EncoderType.FULL_CYCLE) ∧
    ((((hardwareWith 100 HWAccelerationMode.HWACCEL_REGULAR
          EncoderType.FULL_CYCLE).encoderChanged (ioSample 1 1 1000)).2.increments.length = 1 ↔
        (ioSample 1 1 1000).digitalRead
            (hardwareWith 100 HWAccelerationMode.HWACCEL_REGULAR
              EncoderType.FULL_CYCLE).pinA ≠
          (hardwareWith 100 HWAccelerationMode.HWACCEL_REGULAR
            EncoderType.FULL_CYCLE).aLast ∧
        (ioSample 1 1 1000).digitalRead
            (hardwareWith 100 HWAccelerationMode.HWACCEL_REGULAR
              EncoderType.FULL_CYCLE).pinB ≠
          (hardwareWith 100 HWAccelerationMode.HWACCEL_REGULAR
            EncoderType.FULL_CYCLE).cleanFromB ∧
        (ioSample 1 1 1000).digitalRead
            (hardwareWith 100 HWAccelerationMode.HWACCEL_REGULAR
              EncoderType.FULL_CYCLE).pinA ≠ 0) ∧
      (((hardwareWith 100 HWAccelerationMode.HWACCEL_REGULAR
          EncoderType.FULL_CYCLE).encoderChanged (ioSample 1 1 1000)).2.increments = [] ↔
        ¬ ((ioSample 1 1 1000).digitalRead
            (hardwareWith 100 HWAccelerationMode.HWACCEL_REGULAR
              EncoderType.FULL_CYCLE).pinA ≠
          (hardwareWith 100 HWAccelerationMode.HWACCEL_REGULAR
            EncoderType.FULL_CYCLE).aLast ∧
        (ioSample 1 1 1000).digitalRead
            (hardwareWith 100 HWAccelerationMode.HWACCEL_REGULAR
              EncoderType.FULL_CYCLE).pinB ≠
          (hardwareWith 100 HWAccelerationMode.HWACCEL_REGULAR
            EncoderType.FULL_CYCLE).cleanFromB ∧
        (ioSample 1 1 1000).digitalRead
            (hardwareWith 100 HWAccelerationMode.HWACCEL_REGULAR
              EncoderType.FULL_CYCLE).pinA ≠ 0))) :=
  ⟨Or.inr rfl,
    cycle_step_iff (hardwareWith 100 HWAccelerationMode.HWACCEL_REGULAR EncoderType.FULL_CYCLE)
      (ioSample 1 1 1000) (Or.inr rfl)⟩

/-- What a `QUARTER_CYCLE` encoder does: the second test is made after `aLast = a`, so it
only sees a change of B; `increment` is called if and only if the sampled B differs from
`cleanFromB`. The test on the pair of levels never fails. -/
theorem quarter_cycle_step_iff (h : HardwareRotaryEncoder) (io : IoSnapshot)
    (hty : h.encoderType = EncoderType.QUARTER_CYCLE) :
    ((h.encoderChanged io).2.increments.length = 1 ↔
        io.digitalRead h.pinB ≠ h.cleanFromB) ∧
      ((h.encoderChanged io).2.increments = [] ↔ io.digitalRead h.pinB = h.cleanFromB) := by
  simp only [HardwareRotaryEncoder.encoderChanged, if_pos hty]
  split_ifs with c1 c2 c3 <;> simp_all [HardwareRotaryEncoder.acceptStep]
  omega

/-- C15, the code at the failing input: a `QUARTER_CYCLE` encoder whose stored levels are
`aLast = 0` and `cleanFromB = 0` samples A = 1, B = 0. A differs from `aLast`, yet
`increment` is not called and no callback is made; `aLast` becomes 1. When B changes instead
(sample A = 0, B = 1) the step is taken. -/
theorem quarter_cycle_ignores_change_of_a :
    (hardwareWith 100 HWAccelerationMode.HWACCEL_REGULAR EncoderType.QUARTER_CYCLE).aLast =
      0 ∧
    (hardwareWith 100 HWAccelerationMode.HWACCEL_REGULAR
      EncoderType.QUARTER_CYCLE).cleanFromB = 0 ∧
    (ioSample 1 0 1000).digitalRead
      (hardwareWith 100 HWAccelerationMode.HWACCEL_REGULAR EncoderType.QUARTER_CYCLE).pinA =
      1 ∧
    (ioSample 1 0 1000).digitalRead
      (hardwareWith 100 HWAccelerationMode.HWACCEL_REGULAR EncoderType.QUARTER_CYCLE).pinB =
      0 ∧
    ((hardwareWith 100 HWAccelerationMode.HWACCEL_REGULAR
      EncoderType.QUARTER_CYCLE).encoderChanged (ioSample 1 0 1000)).2 =
      { increments := [], callbacks := [] } ∧
    ((hardwareWith 100 HWAccelerationMode.HWACCEL_REGULAR
      EncoderType.QUARTER_CYCLE).encoderChanged (ioSample 1 0 1000)).1.aLast = 1 ∧
    ((hardwareWith 100 HWAccelerationMode.HWACCEL_REGULAR
      EncoderType.QUARTER_CYCLE).encoderChanged (ioSample 0 1 1000)).2 =
      { increments := [-10], callbacks := [0] } := by
  decide

/-- The unsigned difference is the true difference when the clock has not wrapped. -/
theorem subU32_of_le (now last : Nat) (hle : last ≤ now) (hlt : now < 4294967296) :
    subU32 now last = now - last := by
  unfold subU32
  omega

/-- The two outcomes of `encoderChanged`: no call at all, or `acceptStep` on an object that
differs from the original only in `lastSyncStatus`, `aLast` and `cleanFromB`. -/
theorem encoderChanged_cases (h : HardwareRotaryEncoder) (io : IoSnapshot) :
    (∃ g : HardwareRotaryEncoder,
        h.encoderChanged io = g.acceptStep (io.digitalRead h.pinA) (io.digitalRead h.pinB)
          io.micros ∧
        g.maximumValue = h.maximumValue ∧ g.accelerationMode = h.accelerationMode ∧
        g.lastChange = h.lastChange) ∨
      ((h.encoderChanged io).2 = { increments := [], callbacks := [] } ∧
        (h.encoderChanged io).1.lastChange = h.lastChange) := by
  simp only [HardwareRotaryEncoder.encoderChanged]
  split_ifs <;>
    first
      | exact Or.inr ⟨rfl, rfl⟩
      | exact Or.inl ⟨_, rfl, rfl, rfl, rfl⟩

/-- C16: `encoderChanged`, for any encoder type, either calls `increment` exactly once, with
`-m` when the sampled A and B differ and `+m` when they are equal, where `m` is
`amountFromChange` of the time since `lastChange`, and then sets `lastChange` to the sampled
time; or it calls neither `increment` nor the callback and leaves `lastChange` as it was.
The time since `lastChange` is the difference of the two `unsigned long` values, which is
`now - lastChange` when the clock has not wrapped in between. -/
theorem encoderChanged_step (h : HardwareRotaryEncoder) (io : IoSnapshot) :
    (((h.encoderChanged io).2.increments =
          [if io.digitalRead h.pinA ≠ io.digitalRead h.pinB then
            -h.amountFromChange (subU32 io.micros h.lastChange)
          else h.amountFromChange (subU32 io.micros h.lastChange)] ∧
        (h.encoderChanged io).1.lastChange = io.micros) ∨
      ((h.encoderChanged io).2.increments = [] ∧ (h.encoderChanged io).2.callbacks = [] ∧
        (h.encoderChanged io).1.lastChange = h.lastChange)) ∧
    (h.lastChange ≤ io.micros → io.micros < 4294967296 →
      subU32 io.micros h.lastChange = io.micros - h.lastChange) := by
  refine ⟨?_, subU32_of_le _ _⟩
  rcases encoderChanged_cases h io with ⟨g, hg, hm, ha, hl⟩ | ⟨hnone, hl⟩
  · left
    rw [hg, (acceptStep_calls g _ _ _).1, (acceptStep_calls g _ _ _).2, hl,
      amountFromChange_congr h g _ hm ha]
    exact ⟨rfl, rfl⟩
  · right
    rw [hnone]
    exact ⟨rfl, rfl, hl⟩

/-- Witness of C16: a full-cycle encoder constructed at time 0 samples (1, 1) at time
1000. -/
theorem encoderChanged_step_witness :
    ((((hardwareWith 100 HWAccelerationMode.HWACCEL_REGULAR
            EncoderType.FULL_CYCLE).encoderChanged (ioSample 1 1 1000)).2.increments =
          [if (ioSample 1 1 1000).digitalRead
                (hardwareWith 100 HWAccelerationMode.HWACCEL_REGULAR
                  EncoderType.FULL_CYCLE).pinA ≠
              (ioSample 1 1 1000).digitalRead
                (hardwareWith 100 HWAccelerationMode.HWACCEL_REGULAR
                  EncoderType.FULL_CYCLE).pinB then
            -(hardwareWith 100 HWAccelerationMode.HWACCEL_REGULAR
              EncoderType.FULL_CYCLE).amountFromChange
                (subU32 (ioSample 1 1 1000).micros
                  (hardwareWith 100 HWAccelerationMode.HWACCEL_REGULAR
                    EncoderType.FULL_CYCLE).lastChange)
          else (hardwareWith 100 HWAccelerationMode.HWACCEL_REGULAR
              EncoderType.FULL_CYCLE).amountFromChange
                (subU32 (ioSample 1 1 1000).micros
                  (hardwareWith 100 HWAccelerationMode.HWACCEL_REGULAR
                    EncoderType.FULL_CYCLE).lastChange)] ∧
        ((hardwareWith 100 HWAccelerationMode.HWACCEL_REGULAR
            EncoderType.FULL_CYCLE).encoderChanged (ioSample 1 1 1000)).1.lastChange =
          (ioSample 1 1 1000).micros) ∨
      (((hardwareWith 100 HWAccelerationMode.HWACCEL_REGULAR
            EncoderType.FULL_CYCLE).encoderChanged (ioSample 1 1 1000)).2.increments = [] ∧
        ((hardwareWith 100 HWAccelerationMode.HWACCEL_REGULAR
            EncoderType.FULL_CYCLE).encoderChanged (ioSample 1 1 1000)).2.callbacks = [] ∧
        ((hardwareWith 100 HWAccelerationMode.HWACCEL_REGULAR
            EncoderType.FULL_CYCLE).encoderChanged (ioSample 1 1 1000)).1.lastChange =
          (hardwareWith 100 HWAccelerationMode.HWACCEL_REGULAR
            EncoderType.FULL_CYCLE).lastChange)) ∧
    ((hardwareWith 100 HWAccelerationMode.HWACCEL_REGULAR EncoderType.FULL_CYCLE).lastChange ≤
        (ioSample 1 1 1000).micros →
      (ioSample 1 1 1000).micros < 4294967296 →
      subU32 (ioSample 1 1 1000).micros
          (hardwareWith 100 HWAccelerationMode.HWACCEL_REGULAR
            EncoderType.FULL_CYCLE).lastChange =
        (ioSample 1 1 1000).micros -
          (hardwareWith 100 HWAccelerationMode.HWACCEL_REGULAR
            EncoderType.FULL_CYCLE).lastChange) :=
  encoderChanged_step
    (hardwareWith 100 HWAccelerationMode.HWACCEL_REGULAR EncoderType.FULL_CYCLE)
    (ioSample 1 1 1000)

/-- The step of the witness of C16, evaluated: `increment(+10)`, the callback receives 10 and
`lastChange` becomes 1000. -/
theorem encoderChanged_step_sample :
    ((hardwareWith 100 HWAccelerationMode.HWACCEL_REGULAR
        EncoderType.FULL_CYCLE).encoderChanged (ioSample 1 1 1000)).2 =
      { increments := [10], callbacks := [10] } ∧
    ((hardwareWith 100 HWAccelerationMode.HWACCEL_REGULAR
        EncoderType.FULL_CYCLE).encoderChanged (ioSample 1 1 1000)).1.lastChange = 1000 := by
  decide

/-- C17, as amended: for a `FULL_CYCLE` encoder whose stored levels are `aLast = 0` and
`cleanFromB = 0`, the reads (1, 0) then (1, 1), in which A rises before B, deliver no step
at all, and the reads (0, 1) then (1, 1), in which B rises before A, deliver nothing on the
first read and exactly one step on the second, a positive one (`+m` with `m ≥ 1`). -/
theorem full_cycle_read_sequences (h : HardwareRotaryEncoder) (io1 io2 : IoSnapshot)
    (hty : h.encoderType = EncoderType.FULL_CYCLE) (ha : h.aLast = 0)
    (hb : h.cleanFromB = 0) (h2a : io2.digitalRead h.pinA = 1)
    (h2b : io2.digitalRead h.pinB = 1) :
    (io1.digitalRead h.pinA = 1 → io1.digitalRead h.pinB = 0 →
        (h.encoderChanged io1).2.increments = [] ∧
        ((h.encoderChanged io1).1.encoderChanged io2).2.increments = []) ∧
      (io1.digitalRead h.pinA = 0 → io1.digitalRead h.pinB = 1 →
        (h.encoderChanged io1).2.increments = [] ∧
        ((h.encoderChanged io1).1.encoderChanged io2).2.increments =
          [h.amountFromChange (subU32 io2.micros h.lastChange)] ∧
        0 < h.amountFromChange (subU32 io2.micros h.lastChange)) := by
  have hq : h.encoderType ≠ EncoderType.QUARTER_CYCLE := by rw [hty]; decide
  have hpos := (amountFromChange_bounds h (subU32 io2.micros h.lastChange)).1
  constructor
  · intro h1a h1b
    have e1 : h.encoderChanged io1 =
        ({ h with lastSyncStatus := io1.sync, aLast := 1 },
          { increments := [], callbacks := [] }) := by
      simp [HardwareRotaryEncoder.encoderChanged, hq, h1a, h1b, ha, hb]
    rw [e1]
    refine ⟨rfl, ?_⟩
    simp [HardwareRotaryEncoder.encoderChanged, hq, h2a, h2b]
  · intro h1a h1b
    have e1 : h.encoderChanged io1 =
        ({ h with lastSyncStatus := io1.sync }, { increments := [], callbacks := [] }) := by
      simp [HardwareRotaryEncoder.encoderChanged, hq, h1a, h1b, ha, hb]
    rw [e1]
    refine ⟨rfl, ?_, by omega⟩
    have e2 : ({ h with lastSyncStatus := io1.sync } : HardwareRotaryEncoder).encoderChanged
        io2 = ({ h with lastSyncStatus := io2.sync, aLast := 1, cleanFromB := 1 } :
          HardwareRotaryEncoder).acceptStep 1 1 io2.micros := by
      simp [HardwareRotaryEncoder.encoderChanged, hq, h2a, h2b, ha, hb]
    rw [e2, (acceptStep_calls _ _ _ _).1]
    simp only [ne_eq, not_true_eq_false, if_false]
    exact congrArg (fun x => [x]) (amountFromChange_congr h _ _ rfl rfl)

/-- Witness of C17 as amended: the full-cycle encoder on pins 2 and 3, and the reads in which
B rises first. -/
theorem full_cycle_read_sequences_witness :
    (hardwareWith 100 HWAccelerationMode.HWACCEL_REGULAR EncoderType.FULL_CYCLE).encoderType =
      EncoderType.FULL_CYCLE ∧
    (hardwareWith 100 HWAccelerationMode.HWACCEL_REGULAR EncoderType.FULL_CYCLE).aLast = 0 ∧
    (hardwareWith 100 HWAccelerationMode.HWACCEL_REGULAR EncoderType.FULL_CYCLE).cleanFromB =
      0 ∧
    (ioSample 1 1 2000).digitalRead
      (hardwareWith 100 HWAccelerationMode.HWACCEL_REGULAR EncoderType.FULL_CYCLE).pinA = 1 ∧
    (ioSample 1 1 2000).digitalRead
      (hardwareWith 100 HWAccelerationMode.HWACCEL_REGULAR EncoderType.FULL_CYCLE).pinB = 1 ∧
    (ioSample 0 1 1000).digitalRead
      (hardwareWith 100 HWAccelerationMode.HWACCEL_REGULAR EncoderType.FULL_CYCLE).pinA = 0 ∧
    (ioSample 0 1 1000).digitalRead
      (hardwareWith 100 HWAccelerationMode.HWACCEL_REGULAR EncoderType.FULL_CYCLE).pinB = 1 ∧
    ((hardwareWith 100 HWAccelerationMode.HWACCEL_REGULAR
        EncoderType.FULL_CYCLE).encoderChanged (ioSample 0 1 1000)).2.increments = [] ∧
    (((hardwareWith 100 HWAccelerationMode.HWACCEL_REGULAR
        EncoderType.FULL_CYCLE).encoderChanged (ioSample 0 1 1000)).1.encoderChanged
        (ioSample 1 1 2000)).2.increments =
      [(hardwareWith 100 HWAccelerationMode.HWACCEL_REGULAR
        EncoderType.FULL_CYCLE).amountFromChange
          (subU32 (ioSample 1 1 2000).micros
            (hardwareWith 100 HWAccelerationMode.HWACCEL_REGULAR
              EncoderType.FULL_CYCLE).lastChange)] ∧
    0 < (hardwareWith 100 HWAccelerationMode.HWACCEL_REGULAR
        EncoderType.FULL_CYCLE).amountFromChange
          (subU32 (ioSample 1 1 2000).micros
            (hardwareWith 100 HWAccelerationMode.HWACCEL_REGULAR
              EncoderType.FULL_CYCLE).lastChange) :=
  ⟨rfl, rfl, rfl, by decide, by decide, by decide, by decide,
    (full_cycle_read_sequences
      (hardwareWith 100 HWAccelerationMode.HWACCEL_REGULAR EncoderType.FULL_CYCLE)
      (ioSample 0 1 1000) (ioSample 1 1 2000) rfl rfl rfl (by decide) (by decide)).2
      (by decide) (by decide)⟩

/-- Counterexample to C17 as stated: on the full-cycle encoder on pins 2 and 3, constructed
while both pins read 0, the reads (1, 0) then (1, 1) call `increment` on neither read, so no
positive step is delivered; and the reads (0, 1) then (1, 1) call `increment(+10)` on the
second read, a positive step where a negative one is claimed. -/
theorem full_cycle_sequences_differ :
    (hardwareWith 100 HWAccelerationMode.HWACCEL_REGULAR EncoderType.FULL_CYCLE).aLast = 0 ∧
    (hardwareWith 100 HWAccelerationMode.HWACCEL_REGULAR EncoderType.FULL_CYCLE).cleanFromB =
      0 ∧
    ((hardwareWith 100 HWAccelerationMode.HWACCEL_REGULAR
        EncoderType.FULL_CYCLE).encoderChanged (ioSample 1 0 1000)).2.increments = [] ∧
    (((hardwareWith 100 HWAccelerationMode.HWACCEL_REGULAR
        EncoderType.FULL_CYCLE).encoderChanged (ioSample 1 0 1000)).1.encoderChanged
        (ioSample 1 1 2000)).2.increments = [] ∧
    ((hardwareWith 100 HWAccelerationMode.HWACCEL_REGULAR
        EncoderType.FULL_CYCLE).encoderChanged (ioSample 0 1 1000)).2.increments = [] ∧
    (((hardwareWith 100 HWAccelerationMode.HWACCEL_REGULAR
        EncoderType.FULL_CYCLE).encoderChanged (ioSample 0 1 1000)).1.encoderChanged
        (ioSample 1 1 2000)).2.increments = [10] := by
  decide

/-! ## The tick of the orchestrator -/

theorem tickKey_eq (s : SwitchInput) (io : IoSnapshot) (key : KeyboardItem) :
    s.tickKey io key = key.checkAndTrigger (sampledLevel s io key) := by
  unfold SwitchInput.tickKey SwitchInput.isPullupLogic sampledLevel
  cases bitRead s.swFlags SW_FLAG_PULLUP_LOGIC <;> cases key.isLogicInverted <;> rfl

theorem needsAnotherGo_iff (k : KeyboardItem) :
    needsAnotherGo k ↔ (k.isDebouncing || k.isPressed) = true := by
  simp only [needsAnotherGo, KeyboardItem.isDebouncing, KeyboardItem.isPressed,
    Bool.or_eq_true, beq_iff_eq]
  tauto

/-- The loop over the keys: every key is ticked once, in order, and the flag is the one
handed in or-ed with "some key needs another go". -/
theorem runLoopKeys_spec (s : SwitchInput) (io : IoSnapshot) (keys : List KeyboardItem)
    (go : Bool) :
    (s.runLoopKeys io keys go).1 = keys.map (fun key => (s.tickKey io key).1) ∧
      (s.runLoopKeys io keys go).2.2 = (keys.map (fun key => (s.tickKey io key).2)).flatten ∧
      ((s.runLoopKeys io keys go).2.1 = true ↔
        go = true ∨ ∃ k ∈ keys.map (fun key => (s.tickKey io key).1), needsAnotherGo k) := by
  induction keys generalizing go with
  | nil => simp [SwitchInput.runLoopKeys]
  | cons key rest ih =>
    obtain ⟨i1, i2, i3⟩ :=
      ih (go || ((s.tickKey io key).1.isDebouncing || (s.tickKey io key).1.isPressed))
    refine ⟨?_, ?_, ?_⟩
    · simp only [SwitchInput.runLoopKeys, List.map_cons, i1]
    · simp only [SwitchInput.runLoopKeys, List.map_cons, List.flatten_cons, i2]
    · simp only [SwitchInput.runLoopKeys, i3, List.map_cons, List.mem_cons, exists_eq_or_imp]
      rw [Bool.or_eq_true, ← needsAnotherGo_iff]
      tauto

/-- C18: `runLoop` records the sync status, feeds every registered key, in order, the level
read from its pin, negated exactly when the pull-up flag and the key's inverted-logic flag
differ, and returns `true` if and only if after the tick some key is in `Debouncing1`,
`Debouncing2`, `Pressed` or `Held`; so it returns `false` when there are no keys and when
all keys are `NotPressed`. Nothing else in the object changes. -/
theorem runLoop_ticks_every_key (s : SwitchInput) (io : IoSnapshot) :
    (s.runLoop io).1.keys =
        s.keys.map (fun key => (key.checkAndTrigger (sampledLevel s io key)).1) ∧
      (s.runLoop io).2.2 =
        (s.keys.map (fun key => (key.checkAndTrigger (sampledLevel s io key)).2)).flatten ∧
      ((s.runLoop io).2.1 = true ↔ ∃ k ∈ (s.runLoop io).1.keys, needsAnotherGo k) ∧
      (s.keys = [] → (s.runLoop io).2.1 = false) ∧
      ((∀ k ∈ (s.runLoop io).1.keys, k.getState = NOT_PRESSED) →
        (s.runLoop io).2.1 = false) ∧
      (s.runLoop io).1.lastSyncStatus = io.sync ∧
      (s.runLoop io).1.swFlags = s.swFlags ∧ (s.runLoop io).1.encoder = s.encoder ∧
      (s.runLoop io).1.ioDevice = s.ioDevice := by
  obtain ⟨h1, h2, h3⟩ := runLoopKeys_spec { s with lastSyncStatus := io.sync } io s.keys false
  have hk : (s.runLoop io).1.keys =
      s.keys.map (fun key => (key.checkAndTrigger (sampledLevel s io key)).1) := by
    simp only [SwitchInput.runLoop, h1, tickKey_eq]
    rfl
  have hgo : (s.runLoop io).2.1 = true ↔ ∃ k ∈ (s.runLoop io).1.keys, needsAnotherGo k := by
    simp only [SwitchInput.runLoop, h3, h1, Bool.false_eq_true, false_or]
  refine ⟨hk, ?_, hgo, ?_, ?_, rfl, rfl, rfl, rfl⟩
  · simp only [SwitchInput.runLoop, h2, tickKey_eq]
    rfl
  · intro hnil
    rw [Bool.eq_false_iff, Ne, hgo, hk, hnil]
    simp
  · intro hall
    rw [Bool.eq_false_iff, Ne, hgo]
    rintro ⟨k, hk1, hk2⟩
    have := hall k hk1
    unfold needsAnotherGo at hk2
    rw [this] at hk2
    revert hk2
    decide

/-- Witness of C18: pull-up switching, one key on pin 4 whose pin reads 0; the level is
negated, the key starts debouncing and `runLoop` returns `true`. -/
theorem runLoop_ticks_every_key_witness :
    ((switchesWith 1 [KeyboardItem.withCallback 4 1 NO_REPEAT false] none).runLoop
        (ioSample 0 0 0)).2.1 = true ∧
    (((switchesWith 1 [KeyboardItem.withCallback 4 1 NO_REPEAT false] none).runLoop
        (ioSample 0 0 0)).2.1 = true ↔
      ∃ k ∈ ((switchesWith 1 [KeyboardItem.withCallback 4 1 NO_REPEAT false] none).runLoop
        (ioSample 0 0 0)).1.keys, needsAnotherGo k) ∧
    (switchesWith 1 [] none).keys = [] ∧
    ((switchesWith 1 [] none).runLoop (ioSample 0 0 0)).2.1 = false :=
  ⟨by decide,
    (runLoop_ticks_every_key
      (switchesWith 1 [KeyboardItem.withCallback 4 1 NO_REPEAT false] none)
      (ioSample 0 0 0)).2.2.1,
    rfl,
    (runLoop_ticks_every_key (switchesWith 1 [] none) (ioSample 0 0 0)).2.2.2.1 rfl⟩

/-! ## The interrupt handler -/

theorem bitRead_bitWrite_same (flags bit : Nat) (value : Bool) (hbit : bit < 8) :
    bitRead (bitWrite flags bit value) bit = value := by
  unfold bitRead bitWrite
  have h1 : Nat.testBit (1 <<< bit) bit = true := by
    rw [Nat.one_shiftLeft, Nat.testBit_two_pow_self]
  have h2 : Nat.testBit (255 - 1 <<< bit) bit = false := by
    interval_cases bit <;> decide
  cases value
  · simp [Nat.testBit_and, h2]
  · simp [Nat.testBit_or, h1]

theorem isPullupLogic_setInterruptDebouncing (s : SwitchInput) (debounce inv : Bool) :
    (s.setInterruptDebouncing debounce).isPullupLogic inv = s.isPullupLogic inv := by
  have h : bitRead (bitWrite s.swFlags SW_FLAG_INTERRUPT_DEBOUNCE debounce)
      SW_FLAG_PULLUP_LOGIC = bitRead s.swFlags SW_FLAG_PULLUP_LOGIC := by
    unfold bitRead bitWrite SW_FLAG_INTERRUPT_DEBOUNCE SW_FLAG_PULLUP_LOGIC
    have h1 : Nat.testBit (1 <<< 2) 0 = false := by decide
    have h2 : Nat.testBit (255 - 1 <<< 2) 0 = true := by decide
    cases debounce
    · simp [Nat.testBit_and, h2]
    · simp [Nat.testBit_or, h1]
  simp only [SwitchInput.isPullupLogic, SwitchInput.setInterruptDebouncing, h]

theorem runLoopKeys_congr (s g : SwitchInput) (io : IoSnapshot)
    (h : ∀ key, g.tickKey io key = s.tickKey io key) (keys : List KeyboardItem) (go : Bool) :
    g.runLoopKeys io keys go = s.runLoopKeys io keys go := by
  induction keys generalizing go with
  | nil => rfl
  | cons key rest ih => simp only [SwitchInput.runLoopKeys, h, ih]

/-- The tick does not depend on the debounce flag: it handles the keys, returns the flag
and invokes the callbacks as on the original object, and leaves the flag byte alone. -/
theorem runLoop_setInterruptDebouncing (s : SwitchInput) (io : IoSnapshot) (debounce : Bool) :
    ((s.setInterruptDebouncing debounce).runLoop io).1.keys = (s.runLoop io).1.keys ∧
      ((s.setInterruptDebouncing debounce).runLoop io).2 = (s.runLoop io).2 ∧
      ((s.setInterruptDebouncing debounce).runLoop io).1.swFlags =
        (s.setInterruptDebouncing debounce).swFlags := by
  have h := runLoopKeys_congr { s with lastSyncStatus := io.sync }
    { s.setInterruptDebouncing debounce with lastSyncStatus := io.sync } io
    (fun key => by
      simp only [SwitchInput.tickKey]
      rw [show ∀ inv, SwitchInput.isPullupLogic
          { s.setInterruptDebouncing debounce with lastSyncStatus := io.sync } inv =
          SwitchInput.isPullupLogic { s with lastSyncStatus := io.sync } inv from
        fun inv => isPullupLogic_setInterruptDebouncing s debounce inv])
    s.keys false
  refine ⟨?_, ?_, rfl⟩
  · exact congrArg (fun r => r.1) h
  · exact congrArg (fun r => r.2) h

/-- What `checkRunLoopAndRepeat` does: one tick; the debounce flag is left set, and one
follow-up task scheduled, exactly when the tick returned `true`. -/
theorem checkRunLoopAndRepeat_spec (s : SwitchInput) (io : IoSnapshot) :
    (s.checkRunLoopAndRepeat io).1.keys = (s.runLoop io).1.keys ∧
      (s.checkRunLoopAndRepeat io).2.1 = (s.runLoop io).2.2 ∧
      (s.checkRunLoopAndRepeat io).1.isInterruptDebouncing = (s.runLoop io).2.1 ∧
      (s.checkRunLoopAndRepeat io).2.2 = (if (s.runLoop io).2.1 then [20] else []) := by
  obtain ⟨k1, k2, k3⟩ := runLoop_setInterruptDebouncing s io true
  have hgo1 : ((s.setInterruptDebouncing true).runLoop io).2.1 = (s.runLoop io).2.1 :=
    congrArg (fun r => r.1) k2
  have hev : ((s.setInterruptDebouncing true).runLoop io).2.2 = (s.runLoop io).2.2 :=
    congrArg (fun r => r.2) k2
  cases hgo : (s.runLoop io).2.1
  · rw [hgo] at hgo1
    have hres : s.checkRunLoopAndRepeat io =
        ((((s.setInterruptDebouncing true).runLoop io).1).setInterruptDebouncing false,
          ((s.setInterruptDebouncing true).runLoop io).2.2, []) := by
      simp only [SwitchInput.checkRunLoopAndRepeat, hgo1, Bool.false_eq_true, if_false]
    rw [hres]
    exact ⟨k1, hev, bitRead_bitWrite_same _ SW_FLAG_INTERRUPT_DEBOUNCE false (by decide), rfl⟩
  · rw [hgo] at hgo1
    have hres : s.checkRunLoopAndRepeat io =
        (((s.setInterruptDebouncing true).runLoop io).1,
          ((s.setInterruptDebouncing true).runLoop io).2.2, [20]) := by
      simp only [SwitchInput.checkRunLoopAndRepeat, hgo1, if_true]
    rw [hres]
    refine ⟨k1, hev, ?_, rfl⟩
    simp only [SwitchInput.isInterruptDebouncing, k3]
    exact bitRead_bitWrite_same _ SW_FLAG_INTERRUPT_DEBOUNCE true (by decide)

/-- C19: when `onSwitchesInterrupt` runs in interrupt-driven mode with the debounce flag
clear, one tick is run (the keys and the key callbacks are those of `runLoop`); afterwards
the debounce flag is set if and only if the tick returned `true`, and then exactly one
follow-up task is scheduled (after 20 ms), otherwise none. When it runs with the debounce
flag already set, or in polling mode, the keys, the flag byte and the schedule are left as
they were and no key callback is invoked. -/
theorem interrupt_state_machine (s : SwitchInput) (io : IoSnapshot)
    (encIo : Nat → IoSnapshot) :
    (s.isInterruptDriven = true → s.isInterruptDebouncing = false →
        (s.onSwitchesInterrupt io encIo).1.keys = (s.runLoop io).1.keys ∧
        (s.onSwitchesInterrupt io encIo).2.keyEvents = (s.runLoop io).2.2 ∧
        ((s.onSwitchesInterrupt io encIo).1.isInterruptDebouncing = true ↔
          (s.runLoop io).2.1 = true) ∧
        (s.onSwitchesInterrupt io encIo).2.scheduled =
          (if (s.runLoop io).2.1 then [20] else [])) ∧
      (s.isInterruptDriven = false ∨ s.isInterruptDebouncing = true →
        (s.onSwitchesInterrupt io encIo).1.keys = s.keys ∧
        (s.onSwitchesInterrupt io encIo).2.keyEvents = [] ∧
        (s.onSwitchesInterrupt io encIo).2.scheduled = [] ∧
        (s.onSwitchesInterrupt io encIo).1.swFlags = s.swFlags) := by
  constructor
  · intro hdriven hdeb
    obtain ⟨c1, c2, c3, c4⟩ := checkRunLoopAndRepeat_spec s io
    have hcond : (s.isInterruptDriven && !s.isInterruptDebouncing) = true := by
      rw [hdriven, hdeb]; rfl
    simp only [SwitchInput.onSwitchesInterrupt, hcond, if_true]
    refine ⟨c1, c2, ?_, c4⟩
    rw [← c3]
    rfl
  · intro hoff
    have hcond : (s.isInterruptDriven && !s.isInterruptDebouncing) = false := by
      rcases hoff with h | h <;> rw [h] <;> simp
    simp only [SwitchInput.onSwitchesInterrupt, hcond, Bool.false_eq_true, if_false,
      and_self]

/-- Witness of C19: interrupt-driven pull-up switching with the debounce flag clear and one
key on pin 4, whose pin reads 0: the tick returns `true`, the flag is set and one follow-up
is scheduled. -/
theorem interrupt_state_machine_witness :
    (switchesWith 3 [KeyboardItem.withCallback 4 1 NO_REPEAT false] none).isInterruptDriven =
      true ∧
    (switchesWith 3 [KeyboardItem.withCallback 4 1 NO_REPEAT false]
      none).isInterruptDebouncing = false ∧
    ((switchesWith 3 [KeyboardItem.withCallback 4 1 NO_REPEAT false] none).runLoop
      (ioSample 0 0 0)).2.1 = true ∧
    (((switchesWith 3 [KeyboardItem.withCallback 4 1 NO_REPEAT false] none).onSwitchesInterrupt
        (ioSample 0 0 0) (fun _ => ioSample 0 0 0)).1.keys =
      ((switchesWith 3 [KeyboardItem.withCallback 4 1 NO_REPEAT false] none).runLoop
        (ioSample 0 0 0)).1.keys ∧
    ((switchesWith 3 [KeyboardItem.withCallback 4 1 NO_REPEAT false] none).onSwitchesInterrupt
        (ioSample 0 0 0) (fun _ => ioSample 0 0 0)).2.keyEvents =
      ((switchesWith 3 [KeyboardItem.withCallback 4 1 NO_REPEAT false] none).runLoop
        (ioSample 0 0 0)).2.2 ∧
    (((switchesWith 3 [KeyboardItem.withCallback 4 1 NO_REPEAT false] none).onSwitchesInterrupt
        (ioSample 0 0 0) (fun _ => ioSample 0 0 0)).1.isInterruptDebouncing = true ↔
      ((switchesWith 3 [KeyboardItem.withCallback 4 1 NO_REPEAT false] none).runLoop
        (ioSample 0 0 0)).2.1 = true) ∧
    ((switchesWith 3 [KeyboardItem.withCallback 4 1 NO_REPEAT false] none).onSwitchesInterrupt
        (ioSample 0 0 0) (fun _ => ioSample 0 0 0)).2.scheduled =
      (if ((switchesWith 3 [KeyboardItem.withCallback 4 1 NO_REPEAT false] none).runLoop
        (ioSample 0 0 0)).2.1 then [20] else [])) :=
  ⟨by decide, by decide, by decide,
    (interrupt_state_machine
      (switchesWith 3 [KeyboardItem.withCallback 4 1 NO_REPEAT false] none)
      (ioSample 0 0 0) (fun _ => ioSample 0 0 0)).1 (by decide) (by decide)⟩

/-! ## The button-pair encoder -/

theorem toInt8_one : toInt8 1 = 1 := by decide

theorem toInt8_neg_one : toInt8 (-1) = -1 := by decide

/-- The two button callbacks with an encoder in slot 0: each calls `increment` once, up with
`-1` for `SCROLL_THROUGH_ITEMS` and `+1` otherwise, down with the opposite; slot 0 then holds
the encoder that `increment` leaves and the callbacks are those of `increment`. -/
theorem switchEncoder_calls (s : SwitchInput) (e : EncoderRef) (he : s.getEncoder = some e) :
    s.switchEncoderUp =
        some ({ s with encoder := s.encoder.set 0 (some (e.increment
            (if e.toRotaryEncoder.intent = EncoderUserIntention.SCROLL_THROUGH_ITEMS then -1
              else 1)).1) },
          { increments :=
              [if e.toRotaryEncoder.intent = EncoderUserIntention.SCROLL_THROUGH_ITEMS then -1
                else 1],
            callbacks := (e.increment
              (if e.toRotaryEncoder.intent = EncoderUserIntention.SCROLL_THROUGH_ITEMS then -1
                else 1)).2 }) ∧
      s.switchEncoderDown =
        some ({ s with encoder := s.encoder.set 0 (some (e.increment
            (if e.toRotaryEncoder.intent = EncoderUserIntention.SCROLL_THROUGH_ITEMS then 1
              else -1)).1) },
          { increments :=
              [if e.toRotaryEncoder.intent = EncoderUserIntention.SCROLL_THROUGH_ITEMS then 1
                else -1],
            callbacks := (e.increment
              (if e.toRotaryEncoder.intent = EncoderUserIntention.SCROLL_THROUGH_ITEMS then 1
                else -1)).2 }) := by
  unfold SwitchInput.switchEncoderUp SwitchInput.switchEncoderDown
  rw [he]
  simp only [RotaryEncoder.getUserIntention]
  by_cases hi : e.toRotaryEncoder.intent = EncoderUserIntention.SCROLL_THROUGH_ITEMS
  · simp only [if_pos hi, toInt8_one, toInt8_neg_one, and_self]
  · simp only [if_neg hi, toInt8_one, toInt8_neg_one, and_self]

/-- C20: with an encoder in slot 0, the press callbacks of the up and of the down button each
call `increment` exactly once. For the intentions `CHANGE_VALUE` and `DIRECTION_ONLY` up
passes `+1` and down `-1`; for `SCROLL_THROUGH_ITEMS`, and only then, the direction is
inverted: up passes `-1` and down `+1`. -/
theorem button_pair_directions (s : SwitchInput) (e : EncoderRef)
    (he : s.getEncoder = some e) :
    (e.toRotaryEncoder.intent = EncoderUserIntention.CHANGE_VALUE ∨
          e.toRotaryEncoder.intent = EncoderUserIntention.DIRECTION_ONLY →
        s.switchEncoderUp.map (fun r => r.2.increments) = some [1] ∧
        s.switchEncoderDown.map (fun r => r.2.increments) = some [-1]) ∧
      (e.toRotaryEncoder.intent = EncoderUserIntention.SCROLL_THROUGH_ITEMS →
        s.switchEncoderUp.map (fun r => r.2.increments) = some [-1] ∧
        s.switchEncoderDown.map (fun r => r.2.increments) = some [1]) := by
  obtain ⟨hu, hd⟩ := switchEncoder_calls s e he
  constructor
  · intro hi
    have hne : e.toRotaryEncoder.intent ≠ EncoderUserIntention.SCROLL_THROUGH_ITEMS := by
      rcases hi with h | h <;> rw [h] <;> decide
    rw [hu, hd]
    simp only [Option.map_some', if_neg hne, and_self]
  · intro hi
    rw [hu, hd]
    simp only [Option.map_some', if_pos hi, and_self]

/-- Witness of C20: a button-pair encoder of range 0..10 at reading 5 in slot 0, once with
the intention `CHANGE_VALUE` and once switched to `SCROLL_THROUGH_ITEMS`. -/
theorem button_pair_directions_witness :
    (switchesWith 1 [] (some (EncoderRef.base (encoderWith 10 5 false)))).getEncoder =
      some (EncoderRef.base (encoderWith 10 5 false)) ∧
    ((switchesWith 1 [] (some (EncoderRef.base (encoderWith 10 5 false)))).switchEncoderUp.map
        (fun r => r.2.increments) = some [1] ∧
      (switchesWith 1 []
        (some (EncoderRef.base (encoderWith 10 5 false)))).switchEncoderDown.map
        (fun r => r.2.increments) = some [-1]) ∧
    ((switchesWith 1 [] (some (EncoderRef.base ((encoderWith 10 5 false).setUserIntention
        EncoderUserIntention.SCROLL_THROUGH_ITEMS)))).switchEncoderUp.map
        (fun r => r.2.increments) = some [-1] ∧
      (switchesWith 1 [] (some (EncoderRef.base ((encoderWith 10 5 false).setUserIntention
        EncoderUserIntention.SCROLL_THROUGH_ITEMS)))).switchEncoderDown.map
        (fun r => r.2.increments) = some [1]) :=
  ⟨rfl,
    (button_pair_directions
      (switchesWith 1 [] (some (EncoderRef.base (encoderWith 10 5 false))))
      (EncoderRef.base (encoderWith 10 5 false)) rfl).1 (Or.inl rfl),
    (button_pair_directions
      (switchesWith 1 [] (some (EncoderRef.base ((encoderWith 10 5 false).setUserIntention
        EncoderUserIntention.SCROLL_THROUGH_ITEMS))))
      (EncoderRef.base ((encoderWith 10 5 false).setUserIntention
        EncoderUserIntention.SCROLL_THROUGH_ITEMS)) rfl).2 rfl⟩

/-- The values that reach the user callback in the witness of C20: 6 for up and 4 for down
from reading 5. -/
theorem button_pair_sample :
    (switchesWith 1 [] (some (EncoderRef.base (encoderWith 10 5 false)))).switchEncoderUp.map
        (fun r => r.2.callbacks) = some [6] ∧
      (switchesWith 1 []
        (some (EncoderRef.base (encoderWith 10 5 false)))).switchEncoderDown.map
        (fun r => r.2.callbacks) = some [4] := by
  decide

/-! ## Two-stage debounce -/

/-- C22: a key with a press callback in `NotPressed`, fed an active sample, an inactive one
and an active one, goes through `Debouncing1` and `Debouncing2` to `Pressed`: the inactive
sample moves it from `Debouncing1` to `Debouncing2` without any callback and without
cancelling the attempt, and the third tick makes the single press notification, with
`held = false`. -/
theorem bounce_does_not_cancel_press (k : KeyboardItem) (hcb : k.notify ≠ 0)
    (hs : k.getState = NOT_PRESSED) (s : Nat) (hlow : s ≠ HIGH) :
    (feed k [HIGH, s, HIGH]).map (fun r => (r.1.getState, r.2)) =
        [(DEBOUNCING1, []), (DEBOUNCING2, []), (PRESSED, k.trigger false)] ∧
      (k.trigger false).length = 1 ∧ pressCount false (k.trigger false) = 1 ∧
      (allEvents k [HIGH, s, HIGH]).length = 1 ∧
      pressCount false (allEvents k [HIGH, s, HIGH]) = 1 := by
  obtain ⟨a1, -, -, -, c1, e1⟩ := KeyboardItem.high_from_notPressed k hcb hs
  have hact1 : ¬ ((k.checkAndTrigger HIGH).1.notify = 0 ∧
      (k.checkAndTrigger HIGH).1.callbackOnRelease = 0) := by
    rw [c1.1]; exact fun h => hcb h.1
  obtain ⟨a2, -, -, -, c2, e2⟩ :=
    KeyboardItem.low_from_debouncing1 (k.checkAndTrigger HIGH).1 s hlow hact1 a1
  have hcb2 : ((k.checkAndTrigger HIGH).1.checkAndTrigger s).1.notify ≠ 0 := by
    rw [c2.1, c1.1]; exact hcb
  obtain ⟨a3, -, -, -, -, e3⟩ :=
    KeyboardItem.high_from_debouncing ((k.checkAndTrigger HIGH).1.checkAndTrigger s).1 hcb2
      (Or.inr a2)
  have htr : ((k.checkAndTrigger HIGH).1.checkAndTrigger s).1.trigger false =
      k.trigger false := by
    obtain ⟨n1, -, -, p1, l1⟩ := c1
    obtain ⟨n2, -, -, p2, l2⟩ := c2
    simp only [KeyboardItem.trigger, n2, n1, p2, p1, l2, l1]
  rw [htr] at e3
  have hlen : (k.trigger false).length = 1 := by
    unfold KeyboardItem.trigger
    rw [if_neg hcb]
    split_ifs <;> rfl
  have hcount := KeyboardItem.pressCount_trigger k false false hcb
  have hall : allEvents k [HIGH, s, HIGH] = k.trigger false := by
    simp only [allEvents, feed, List.map_cons, List.map_nil, e1, e2, e3, List.flatten_cons,
      List.flatten_nil, List.nil_append, List.append_nil]
  refine ⟨?_, hlen, ?_, ?_, ?_⟩
  · simp only [feed, List.map_cons, List.map_nil, a1, a2, a3, e1, e2, e3]
  · rw [hcount]; rfl
  · rw [hall, hlen]
  · rw [hall, hcount]; rfl

/-- Witness of C22: a key built by `KeyboardItem(3, callback)`. -/
theorem bounce_does_not_cancel_press_witness :
    (KeyboardItem.withCallback 3 1 NO_REPEAT false).notify ≠ 0 ∧
    (KeyboardItem.withCallback 3 1 NO_REPEAT false).getState = NOT_PRESSED ∧
    LOW ≠ HIGH ∧
    ((feed (KeyboardItem.withCallback 3 1 NO_REPEAT false) [HIGH, LOW, HIGH]).map
          (fun r => (r.1.getState, r.2)) =
        [(DEBOUNCING1, []), (DEBOUNCING2, []),
          (PRESSED, (KeyboardItem.withCallback 3 1 NO_REPEAT false).trigger false)] ∧
      ((KeyboardItem.withCallback 3 1 NO_REPEAT false).trigger false).length = 1 ∧
      pressCount false ((KeyboardItem.withCallback 3 1 NO_REPEAT false).trigger false) = 1 ∧
      (allEvents (KeyboardItem.withCallback 3 1 NO_REPEAT false) [HIGH, LOW, HIGH]).length =
        1 ∧
      pressCount false
        (allEvents (KeyboardItem.withCallback 3 1 NO_REPEAT false) [HIGH, LOW, HIGH]) = 1) :=
  ⟨by decide, by decide, by decide,
    bounce_does_not_cancel_press (KeyboardItem.withCallback 3 1 NO_REPEAT false) (by decide)
      (by decide) LOW (by decide)⟩

/-! ## Saturation of the acceleration -/

/-- One active tick of a held key, in general: it stays `Held`; either nothing is notified
and the acceleration is kept, or one press with `held = true` is notified and the
acceleration becomes `min 255 (acceleration + 1)`. -/
theorem held_tick (k : KeyboardItem) (hs : k.getState = BUTTON_HELD) :
    (k.checkAndTrigger HIGH).1.getState = BUTTON_HELD ∧
      ((pressCount true (k.checkAndTrigger HIGH).2 = 0 ∧
          (k.checkAndTrigger HIGH).1.acceleration = k.acceleration) ∨
        (pressCount true (k.checkAndTrigger HIGH).2 = 1 ∧
          (k.checkAndTrigger HIGH).1.acceleration = min 255 (k.acceleration + 1))) := by
  have hd : k.isDebouncing = false := by
    simp [KeyboardItem.isDebouncing, hs, BUTTON_HELD, DEBOUNCING1, DEBOUNCING2]
  have hn : k.getState ≠ NOT_PRESSED := by rw [hs]; decide
  have hp : k.getState ≠ PRESSED := by rw [hs]; decide
  have h0 : pressCount true ([] : List KeyEvent) = 0 := rfl
  simp only [KeyboardItem.checkAndTrigger, hd, if_neg hn, if_neg hp, Bool.false_eq_true,
    if_false]
  split_ifs with c1 c2 c3
  · exact ⟨hs, Or.inl ⟨h0, rfl⟩⟩
  · refine ⟨hs, Or.inr ⟨?_, rfl⟩⟩
    exact (KeyboardItem.pressCount_trigger _ true true c2.2.2).trans rfl
  · exact ⟨hs, Or.inl ⟨h0, rfl⟩⟩
  · exact ⟨hs, Or.inl ⟨h0, rfl⟩⟩

/-- Along any run of active ticks of a held key the acceleration never decreases, never
exceeds 255, and stays 255 once it is 255. -/
theorem acceleration_run (n : Nat) (k : KeyboardItem) (hs : k.getState = BUTTON_HELD)
    (ha : k.acceleration ≤ 255) :
    List.Sorted (· ≤ ·)
        (k.acceleration :: (feed k (List.replicate n HIGH)).map (fun r => r.1.acceleration)) ∧
      ∀ x ∈ (feed k (List.replicate n HIGH)).map (fun r => r.1.acceleration),
        k.acceleration ≤ x ∧ x ≤ 255 := by
  induction n generalizing k with
  | zero =>
    exact ⟨List.sorted_singleton _, fun x hx => absurd hx (List.not_mem_nil x)⟩
  | succ n ih =>
    obtain ⟨s1, hacc⟩ := held_tick k hs
    have hle : k.acceleration ≤ (k.checkAndTrigger HIGH).1.acceleration ∧
        (k.checkAndTrigger HIGH).1.acceleration ≤ 255 := by
      rcases hacc with ⟨-, h⟩ | ⟨-, h⟩ <;> rw [h] <;> omega
    obtain ⟨i1, i2⟩ := ih (k.checkAndTrigger HIGH).1 s1 hle.2
    have hmem : ∀ x ∈ (feed k (List.replicate (n + 1) HIGH)).map (fun r => r.1.acceleration),
        k.acceleration ≤ x ∧ x ≤ 255 := by
      intro x hx
      simp only [List.replicate_succ, feed, List.map_cons, List.mem_cons] at hx
      rcases hx with rfl | hx
      · exact hle
      · exact ⟨Nat.le_trans hle.1 (i2 x hx).1, (i2 x hx).2⟩
    refine ⟨List.sorted_cons.2 ⟨fun x hx => (hmem x hx).1, ?_⟩, hmem⟩
    simpa only [List.replicate_succ, feed, List.map_cons] using i1

/-- C23: for a key in `Held` whose acceleration is a `uint8_t` value, fed active samples:
a tick that notifies a repeat sets the acceleration to `min 255 (acceleration + 1)`, taken on
the true sum, and a tick that does not leaves it alone; so over any number of active ticks
the accelerations are in non-decreasing order, none exceeds 255, and from 255 they all stay
255. -/
theorem acceleration_saturates (k : KeyboardItem) (n : Nat) (hs : k.getState = BUTTON_HELD)
    (ha : k.acceleration ≤ 255) :
    ((pressCount true (k.checkAndTrigger HIGH).2 = 0 ∧
          (k.checkAndTrigger HIGH).1.acceleration = k.acceleration) ∨
        (pressCount true (k.checkAndTrigger HIGH).2 = 1 ∧
          (k.checkAndTrigger HIGH).1.acceleration = min 255 (k.acceleration + 1))) ∧
      List.Sorted (· ≤ ·)
        (k.acceleration :: (feed k (List.replicate n HIGH)).map (fun r => r.1.acceleration)) ∧
      (∀ x ∈ (feed k (List.replicate n HIGH)).map (fun r => r.1.acceleration), x ≤ 255) ∧
      (k.acceleration = 255 →
        ∀ x ∈ (feed k (List.replicate n HIGH)).map (fun r => r.1.acceleration), x = 255) := by
  obtain ⟨r1, r2⟩ := acceleration_run n k hs ha
  refine ⟨(held_tick k hs).2, r1, fun x hx => (r2 x hx).2, fun h255 x hx => ?_⟩
  have := r2 x hx
  omega

/-- Witness of C23: `KeyboardItem(3, callback, 5)` held down for 23 ticks, so that it has
just entered `Held`, and then for 40 ticks more. -/
theorem acceleration_saturates_witness :
    (runTicks (KeyboardItem.withCallback 3 1 5 false) (List.replicate 23 HIGH)).getState =
      BUTTON_HELD ∧
    (runTicks (KeyboardItem.withCallback 3 1 5 false) (List.replicate 23 HIGH)).acceleration ≤
      255 ∧
    List.Sorted (· ≤ ·)
      ((runTicks (KeyboardItem.withCallback 3 1 5 false)
          (List.replicate 23 HIGH)).acceleration ::
        (feed (runTicks (KeyboardItem.withCallback 3 1 5 false) (List.replicate 23 HIGH))
          (List.replicate 40 HIGH)).map (fun r => r.1.acceleration)) :=
  ⟨by decide, by decide,
    (acceleration_saturates
      (runTicks (KeyboardItem.withCallback 3 1 5 false) (List.replicate 23 HIGH)) 40
      (by decide) (by decide)).2.1⟩

/-- At the top of the range: a held key with `repeatInterval = 5` and acceleration 254
repeats on every tick; its acceleration goes to 255 and stays there. -/
theorem acceleration_sample :
    (KeyboardItem.mk 4 4 3 0 254 5 1 0).getState = BUTTON_HELD ∧
    (feed (KeyboardItem.mk 4 4 3 0 254 5 1 0) (List.replicate 4 HIGH)).map
        (fun r => (pressCount true r.2, r.1.acceleration)) =
      [(1, 255), (1, 255), (1, 255), (1, 255)] := by
  decide

/-! ## Auto-repeat and the 8-bit counter -/

namespace KeyboardItem

/-- A held key whose counter, after the addition reduced to 8 bits, does not exceed the
repeat interval: nothing is notified and the reduced counter is stored. -/
theorem high_from_held_repeat_wrap (k : KeyboardItem) (hcb : k.notify ≠ 0)
    (hs : k.getState = BUTTON_HELD) (hr : k.repeatInterval ≠ NO_REPEAT)
    (hwait : (k.counter + k.acceleration / 4 + 1) % 256 ≤ k.repeatInterval) :
    StepsTo k HIGH BUTTON_HELD k.previousState ((k.counter + k.acceleration / 4 + 1) % 256)
      k.acceleration [] := by
  have hd : k.isDebouncing = false := by
    simp [isDebouncing, hs, BUTTON_HELD, DEBOUNCING1, DEBOUNCING2]
  have hsh : k.acceleration >>> 2 = k.acceleration / 4 := by
    rw [Nat.shiftRight_eq_div_pow]
  have hnf : ¬ (k.repeatInterval < (k.counter + k.acceleration / 4 + 1) % 256) :=
    Nat.not_lt.mpr hwait
  have hstep : k.checkAndTrigger HIGH =
      ({ k with counter := (k.counter + k.acceleration / 4 + 1) % 256 }, []) := by
    simp [checkAndTrigger, hcb, hd, hs, hr, hsh, hnf, BUTTON_HELD, PRESSED, NOT_PRESSED]
  rw [StepsTo, hstep]
  simp [SameConfig, getState, isUsingListener]
  simpa [getState] using hs

end KeyboardItem

/-- With `repeatInterval = 254` and acceleration 4 the counter grows by 2 a tick: from an
even value it runs through the even numbers up to 254 and wraps to 0 without ever exceeding
254, so no repeat is notified, however long the key is held. -/
theorem stalled_phase (n : Nat) (k : KeyboardItem) (hcb : k.notify ≠ 0)
    (hs : k.getState = BUTTON_HELD) (hr : k.repeatInterval = 254) (ha : k.acceleration = 4)
    (hc : k.counter % 2 = 0) :
    (feed k (List.replicate n HIGH)).map (fun r => pressCount true r.2) =
      List.replicate n 0 := by
  induction n generalizing k with
  | zero => rfl
  | succ n ih =>
    have hrn : k.repeatInterval ≠ NO_REPEAT := by rw [hr]; decide
    obtain ⟨a1, -, c1, acc1, cfg, e1⟩ :=
      KeyboardItem.high_from_held_repeat_wrap k hcb hs hrn (by rw [hr, ha]; omega)
    have i := ih (k.checkAndTrigger HIGH).1 (by rw [cfg.1]; exact hcb) a1
      (by rw [cfg.2.2.1, hr]) (by rw [acc1, ha]) (by rw [c1, ha]; omega)
    simp only [List.replicate_succ, feed, List.map_cons, i, e1]
    rfl

/-- The held key of `KeyboardItem(3, callback, 254)` with counter `c` and acceleration `a`
below 4: an active tick adds 1 to the counter and notifies nothing while `c < 254`. -/
theorem slow_repeat_wait (c a : Nat) (hc : c < 254) (ha : a < 4) :
    (KeyboardItem.mk 4 4 3 c a 254 1 0).checkAndTrigger HIGH =
      (KeyboardItem.mk 4 4 3 (c + 1) a 254 1 0, []) := by
  have hst : (KeyboardItem.mk 4 4 3 c a 254 1 0).getState = BUTTON_HELD := by
    show (4 : Nat) &&& 15 = 4
    decide
  have hd : (KeyboardItem.mk 4 4 3 c a 254 1 0).isDebouncing = false := by
    simp [KeyboardItem.isDebouncing, hst, BUTTON_HELD, DEBOUNCING1, DEBOUNCING2]
  have ha4 : a >>> 2 = 0 := by rw [Nat.shiftRight_eq_div_pow]; omega
  have hm : (c + 1) % 256 = c + 1 := by omega
  have hnf : ¬ (254 < c + 1) := by omega
  simp [KeyboardItem.checkAndTrigger, hst, hd, ha4, hm, hnf, BUTTON_HELD, PRESSED,
    NOT_PRESSED, NO_REPEAT]

/-- The same key at counter 254: the next active tick notifies a repeat, resets the counter
and adds 1 to the acceleration. -/
theorem slow_repeat_fire (a : Nat) (ha : a < 4) :
    ((KeyboardItem.mk 4 4 3 254 a 254 1 0).checkAndTrigger HIGH).1 =
      KeyboardItem.mk 4 4 3 0 (a + 1) 254 1 0 := by
  have hst : (KeyboardItem.mk 4 4 3 254 a 254 1 0).getState = BUTTON_HELD := by
    show (4 : Nat) &&& 15 = 4
    decide
  have hd : (KeyboardItem.mk 4 4 3 254 a 254 1 0).isDebouncing = false := by
    simp [KeyboardItem.isDebouncing, hst, BUTTON_HELD, DEBOUNCING1, DEBOUNCING2]
  have ha4 : a >>> 2 = 0 := by rw [Nat.shiftRight_eq_div_pow]; omega
  have hmin : min 255 (a + 1) = a + 1 := by omega
  simp [KeyboardItem.checkAndTrigger, hst, hd, ha4, hmin, BUTTON_HELD, PRESSED,
    NOT_PRESSED, NO_REPEAT]

theorem slow_repeat_run (m c a : Nat) (hc : c + m ≤ 254) (ha : a < 4) :
    runTicks (KeyboardItem.mk 4 4 3 c a 254 1 0) (List.replicate m HIGH) =
      KeyboardItem.mk 4 4 3 (c + m) a 254 1 0 := by
  induction m generalizing c with
  | zero => rfl
  | succ m ih =>
    rw [List.replicate_succ, runTicks, slow_repeat_wait c a (by omega) ha,
      ih (c + 1) (by omega)]
    congr 1
    omega

/-- One whole period of the slow repeat: 255 active ticks take the key from counter 0 and
acceleration `a` to counter 0 and acceleration `a + 1`. -/
theorem slow_repeat_period (a : Nat) (ha : a < 4) :
    runTicks (KeyboardItem.mk 4 4 3 0 a 254 1 0) (List.replicate 255 HIGH) =
      KeyboardItem.mk 4 4 3 0 (a + 1) 254 1 0 := by
  have h255 : List.replicate 255 HIGH = List.replicate 254 HIGH ++ [HIGH] :=
    List.replicate_add 254 1 HIGH
  rw [h255, runTicks_append, slow_repeat_run 254 0 a (by omega) ha]
  exact slow_repeat_fire a ha

/-- Holding the button of `KeyboardItem(3, callback, 254)` for 788 ticks: 23 to enter
`Held`, then three repeats 255 ticks apart, after which the acceleration is 4. -/
theorem stalled_key_reached :
    runTicks (KeyboardItem.withCallback 3 1 254 false) (List.replicate 788 HIGH) =
      KeyboardItem.mk 4 4 3 0 4 254 1 0 := by
  have hsplit : List.replicate 788 HIGH = List.replicate 23 HIGH ++ (List.replicate 255 HIGH ++
      (List.replicate 255 HIGH ++ List.replicate 255 HIGH)) := by
    rw [← List.replicate_add, ← List.replicate_add, ← List.replicate_add]
  have h23 : runTicks (KeyboardItem.withCallback 3 1 254 false) (List.replicate 23 HIGH) =
      KeyboardItem.mk 4 4 3 0 1 254 1 0 := by decide
  rw [hsplit, runTicks_append, runTicks_append, runTicks_append, h23,
    slow_repeat_period 1 (by omega), slow_repeat_period 2 (by omega),
    slow_repeat_period 3 (by omega)]

/-- C27, the code at the failing input: a key in `Held` with a press callback,
`repeatInterval = 254`, acceleration 4 and counter 0, the state that `KeyboardItem(3,
callback, 254)` reaches when the button is held for 788 ticks (after its third repeat).
However many active samples follow, no press with `held = true` is notified: the counter
goes 2, 4, ..., 254 and wraps to 0 without exceeding the interval. -/
theorem repeat_stalls_at_interval_254 (n : Nat) :
    (KeyboardItem.mk 4 4 3 0 4 254 1 0).getState = BUTTON_HELD ∧
    (KeyboardItem.mk 4 4 3 0 4 254 1 0).notify ≠ 0 ∧
    (KeyboardItem.mk 4 4 3 0 4 254 1 0).repeatInterval ≠ NO_REPEAT ∧
    (KeyboardItem.mk 4 4 3 0 4 254 1 0).counter ≤
      (KeyboardItem.mk 4 4 3 0 4 254 1 0).repeatInterval ∧
    runTicks (KeyboardItem.withCallback 3 1 254 false) (List.replicate 788 HIGH) =
      KeyboardItem.mk 4 4 3 0 4 254 1 0 ∧
    (feed (KeyboardItem.mk 4 4 3 0 4 254 1 0) (List.replicate n HIGH)).map
        (fun r => pressCount true r.2) = List.replicate n 0 := by
  refine ⟨by decide, by decide, by decide, by decide, stalled_key_reached, ?_⟩
  exact stalled_phase n _ (by decide) (by decide) rfl rfl (by decide)

/-! ## The order of the events of a key -/

theorem followsPattern_append (phase : PressPhase) (xs ys : List KeyEvent) :
    followsPattern phase (xs ++ ys) =
      (followsPattern phase xs).bind fun phase1 => followsPattern phase1 ys := by
  induction xs generalizing phase with
  | nil => rfl
  | cons e rest ih =>
    simp only [List.cons_append, followsPattern]
    cases phase.next e with
    | none => rfl
    | some phase1 => exact ih phase1

theorem followsPattern_trigger_false (k : KeyboardItem) (hcb : k.notify ≠ 0) :
    followsPattern PressPhase.idle (k.trigger false) = some PressPhase.pressed := by
  unfold KeyboardItem.trigger
  rw [if_neg hcb]
  split_ifs <;> rfl

theorem followsPattern_trigger_true (k : KeyboardItem) (hcb : k.notify ≠ 0)
    (phase : PressPhase) (hp : phase ≠ PressPhase.idle) :
    followsPattern phase (k.trigger true) = some PressPhase.held := by
  unfold KeyboardItem.trigger
  rw [if_neg hcb]
  cases phase
  · exact absurd rfl hp
  · split_ifs <;> rfl
  · split_ifs <;> rfl

theorem followsPattern_release (k : KeyboardItem) (ht : hasReleaseTarget k) :
    followsPattern PressPhase.pressed (k.triggerRelease false) = some PressPhase.idle ∧
      followsPattern PressPhase.held (k.triggerRelease true) = some PressPhase.idle := by
  unfold hasReleaseTarget at ht
  unfold KeyboardItem.triggerRelease
  cases hl : k.isUsingListener
  · rw [hl] at ht
    simp only [Bool.false_eq_true, if_false] at ht ⊢
    rw [if_pos ht, if_pos ht]
    exact ⟨rfl, rfl⟩
  · simp only [if_true]
    exact ⟨rfl, rfl⟩

/-- One active tick of a pressed or held key with a press target: the state stays `Pressed`
or `Held` with no callback, or becomes (or stays) `Held` with the press notification
`held = true`. -/
theorem pressed_or_held_tick (k : KeyboardItem) (hcb : k.notify ≠ 0)
    (hs : k.getState = PRESSED ∨ k.getState = BUTTON_HELD) :
    ((k.checkAndTrigger HIGH).1.getState = k.getState ∧ (k.checkAndTrigger HIGH).2 = []) ∨
      ((k.checkAndTrigger HIGH).1.getState = BUTTON_HELD ∧
        (k.checkAndTrigger HIGH).2 = k.trigger true) := by
  have hd : k.isDebouncing = false := by
    rcases hs with h | h <;>
      simp [KeyboardItem.isDebouncing, h, PRESSED, BUTTON_HELD, DEBOUNCING1, DEBOUNCING2]
  have hn : k.getState ≠ NOT_PRESSED := by
    rcases hs with h | h <;> rw [h] <;> decide
  have hin : ¬ (k.notify = 0 ∧ k.callbackOnRelease = 0) := fun h => hcb h.1
  simp only [KeyboardItem.checkAndTrigger, if_neg hin, hd, if_neg hn, Bool.false_eq_true,
    if_false, if_true]
  split_ifs with c1 c2 c3 c4
  · right
    refine ⟨KeyboardItem.getState_setState _ _ (by decide), ?_⟩
    simp [KeyboardItem.trigger, KeyboardItem.isUsingListener]
  · exact Or.inl ⟨rfl, rfl⟩
  · right
    refine ⟨c3.1, ?_⟩
    simp [KeyboardItem.trigger, KeyboardItem.isUsingListener]
  · exact Or.inl ⟨rfl, rfl⟩
  · exact Or.inl ⟨rfl, rfl⟩

/-- One tick keeps to the pattern: for a key with a press target and a release target whose
previous stable state agrees with its state, the callbacks of the tick lead the pattern from
the phase of the key before the tick to the phase of the key after it. -/
theorem tick_follows_pattern (k : KeyboardItem) (s : Nat) (hc : Consistent k)
    (hcb : k.notify ≠ 0) (ht : hasReleaseTarget k) :
    followsPattern (phaseOf k) (k.checkAndTrigger s).2 =
      some (phaseOf (k.checkAndTrigger s).1) := by
  have hin : ¬ (k.notify = 0 ∧ k.callbackOnRelease = 0) := fun h => hcb h.1
  by_cases hs : s = HIGH
  · subst hs
    rcases hc with ⟨h1, -⟩ | ⟨h1, -⟩ | ⟨h1, -⟩
    · have hph : phaseOf k = PressPhase.pressed := by simp only [phaseOf, h1, if_true]
      rcases pressed_or_held_tick k hcb (Or.inl h1) with ⟨a, e⟩ | ⟨a, e⟩
      · rw [e, hph]
        simp only [followsPattern, phaseOf, a, h1, if_true]
      · rw [e, hph, followsPattern_trigger_true k hcb _ (by decide)]
        simp only [phaseOf, a]
        decide
    · have hph : phaseOf k = PressPhase.held := by
        simp only [phaseOf, h1]
        decide
      rcases pressed_or_held_tick k hcb (Or.inr h1) with ⟨a, e⟩ | ⟨a, e⟩
      · rw [e, hph]
        simp only [followsPattern, phaseOf, a, h1]
        decide
      · rw [e, hph, followsPattern_trigger_true k hcb _ (by decide)]
        simp only [phaseOf, a]
        decide
    · have hph : phaseOf k = PressPhase.idle := by
        rcases h1 with h | h | h <;> simp only [phaseOf, h] <;> decide
      rw [hph]
      rcases h1 with h | h | h
      · obtain ⟨a, -, -, -, -, e⟩ := KeyboardItem.high_from_notPressed k hcb h
        rw [e]
        simp only [followsPattern, phaseOf, a]
        decide
      · obtain ⟨a, -, -, -, -, e⟩ := KeyboardItem.high_from_debouncing k hcb (Or.inl h)
        rw [e, followsPattern_trigger_false k hcb]
        simp only [phaseOf, a, if_true]
      · obtain ⟨a, -, -, -, -, e⟩ := KeyboardItem.high_from_debouncing k hcb (Or.inr h)
        rw [e, followsPattern_trigger_false k hcb]
        simp only [phaseOf, a, if_true]
  · by_cases hd : k.getState = DEBOUNCING1
    · obtain ⟨a, -, -, -, -, e⟩ := KeyboardItem.low_from_debouncing1 k s hs hin hd
      rw [e]
      simp only [followsPattern, phaseOf, a, hd]
      decide
    · obtain ⟨a, -, -, -, -, e⟩ := KeyboardItem.low_from_other k s hs hin hd
      have hidle : phaseOf (k.checkAndTrigger s).1 = PressPhase.idle := by
        simp only [phaseOf, a]
        decide
      rw [e, hidle]
      rcases hc with ⟨h1, h2⟩ | ⟨h1, h2⟩ | ⟨h1, h2⟩
      · have hph : phaseOf k = PressPhase.pressed := by simp only [phaseOf, h1, if_true]
        rw [hph, if_pos h2]
        exact (followsPattern_release k ht).1
      · have hph : phaseOf k = PressPhase.held := by
          simp only [phaseOf, h1]
          decide
        have hnp : ¬ k.previousState = PRESSED := by rw [h2]; decide
        rw [hph, if_neg hnp, if_pos h2]
        exact (followsPattern_release k ht).2
      · have hph : phaseOf k = PressPhase.idle := by
          rcases h1 with h | h | h <;> simp only [phaseOf, h] <;> decide
        have hnp : ¬ k.previousState = PRESSED := by rw [h2]; decide
        have hnh : ¬ k.previousState = BUTTON_HELD := by rw [h2]; decide
        rw [hph, if_neg hnp, if_neg hnh]
        rfl

/-- A tick never changes the configuration of a key. -/
theorem sameConfig_tick (k : KeyboardItem) (s : Nat) : SameConfig k (k.checkAndTrigger s).1 := by
  simp only [KeyboardItem.checkAndTrigger]
  split_ifs <;>
    simp [SameConfig, KeyboardItem.isUsingListener]

theorem hasReleaseTarget_of_sameConfig {k k1 : KeyboardItem} (h : SameConfig k k1)
    (ht : hasReleaseTarget k) : hasReleaseTarget k1 := by
  obtain ⟨h1, h2, -, -, h5⟩ := h
  unfold hasReleaseTarget at ht ⊢
  rw [h1, h2, h5]
  exact ht

/-- The pattern along a whole run, from any key whose previous stable state agrees with its
state. -/
theorem run_follows_pattern (samples : List Nat) (k : KeyboardItem) (hc : Consistent k)
    (hcb : k.notify ≠ 0) (ht : hasReleaseTarget k) :
    followsPattern (phaseOf k) (allEvents k samples) = some (phaseOf (runTicks k samples)) := by
  induction samples generalizing k with
  | nil => rfl
  | cons s rest ih =>
    have hcfg := sameConfig_tick k s
    have i := ih (k.checkAndTrigger s).1 (consistent_step k s hc) (by rw [hcfg.1]; exact hcb)
      (hasReleaseTarget_of_sameConfig hcfg ht)
    have hev : allEvents k (s :: rest) =
        (k.checkAndTrigger s).2 ++ allEvents (k.checkAndTrigger s).1 rest := by
      simp only [allEvents, feed, List.map_cons, List.flatten_cons]
    rw [hev, followsPattern_append, tick_follows_pattern k s hc hcb ht]
    exact i

/-- C24, as amended: for a key entry in its constructed state that has a press target and a
release target, and for every sample sequence, the callbacks invoked follow the pattern
press(`held = false`), then zero or more press(`held = true`), then exactly one release
before the next press(`held = false`); no release comes without such a pending press, and
the flag of the release is `true` exactly when a press(`held = true`) came since that press.
The sequence may stop inside the pattern: it ends in the phase that the final state of the
key stands for. -/
theorem events_follow_press_release_pattern (k0 : KeyboardItem) (samples : List Nat)
    (hk0 : Constructed k0) (hcb : k0.notify ≠ 0) (ht : hasReleaseTarget k0) :
    followsPattern PressPhase.idle (allEvents k0 samples) =
      some (phaseOf (runTicks k0 samples)) := by
  have hidle : phaseOf k0 = PressPhase.idle := by
    simp only [phaseOf, (constructed_state k0 hk0).1]
    decide
  rw [← hidle]
  exact run_follows_pattern samples k0 (consistent_of_constructed k0 hk0) hcb ht

/-- Witness of C24 as amended: `KeyboardItem(3, callback)` with a release callback, pressed,
released, and pressed again. -/
theorem events_follow_press_release_pattern_witness :
    Constructed ((KeyboardItem.withCallback 3 1 NO_REPEAT false).onRelease 2) ∧
    ((KeyboardItem.withCallback 3 1 NO_REPEAT false).onRelease 2).notify ≠ 0 ∧
    hasReleaseTarget ((KeyboardItem.withCallback 3 1 NO_REPEAT false).onRelease 2) ∧
    followsPattern PressPhase.idle
        (allEvents ((KeyboardItem.withCallback 3 1 NO_REPEAT false).onRelease 2)
          [HIGH, HIGH, LOW, HIGH, HIGH]) =
      some (phaseOf (runTicks ((KeyboardItem.withCallback 3 1 NO_REPEAT false).onRelease 2)
        [HIGH, HIGH, LOW, HIGH, HIGH])) :=
  ⟨Constructed.onRelease _ 2 (Constructed.withCallback 3 1 NO_REPEAT false), by decide,
    by decide,
    events_follow_press_release_pattern
      ((KeyboardItem.withCallback 3 1 NO_REPEAT false).onRelease 2)
      [HIGH, HIGH, LOW, HIGH, HIGH]
      (Constructed.onRelease _ 2 (Constructed.withCallback 3 1 NO_REPEAT false)) (by decide)
      (by decide)⟩

/-- The events of the witness of C24: press, release, press. -/
theorem events_sample :
    allEvents ((KeyboardItem.withCallback 3 1 NO_REPEAT false).onRelease 2)
        [HIGH, HIGH, LOW, HIGH, HIGH] =
      [KeyEvent.callbackPressed 3 false, KeyEvent.callbackReleased 3 false,
        KeyEvent.callbackPressed 3 false] := by
  decide

/-- Counterexample to C24 as stated. The key built by `KeyboardItem(3, callback)`, without a
release callback, pressed, released and pressed again, notifies two presses with
`held = false` and no release between them. The key built with no press callback and given
a release callback by `onRelease`, pressed and released, notifies a release that no press
precedes. Neither sequence follows the pattern. -/
theorem events_break_pattern_without_both_targets :
    Constructed (KeyboardItem.withCallback 3 1 NO_REPEAT false) ∧
    allEvents (KeyboardItem.withCallback 3 1 NO_REPEAT false) [HIGH, HIGH, LOW, HIGH, HIGH] =
      [KeyEvent.callbackPressed 3 false, KeyEvent.callbackPressed 3 false] ∧
    followsPattern PressPhase.idle
      (allEvents (KeyboardItem.withCallback 3 1 NO_REPEAT false)
        [HIGH, HIGH, LOW, HIGH, HIGH]) = none ∧
    Constructed ((KeyboardItem.withCallback 3 0 NO_REPEAT false).onRelease 2) ∧
    allEvents ((KeyboardItem.withCallback 3 0 NO_REPEAT false).onRelease 2)
      [HIGH, HIGH, LOW] = [KeyEvent.callbackReleased 3 false] ∧
    followsPattern PressPhase.idle
      (allEvents ((KeyboardItem.withCallback 3 0 NO_REPEAT false).onRelease 2)
        [HIGH, HIGH, LOW]) = none :=
  ⟨Constructed.withCallback 3 1 NO_REPEAT false, by decide, by decide,
    Constructed.onRelease _ 2 (Constructed.withCallback 3 0 NO_REPEAT false), by decide,
    by decide⟩

/-! ## The range of the reading under decoder steps -/

/-- A step of magnitude `m` between 1 and 10, of magnitude 1 when the range is shorter than
one turn, keeps a reading that is in range in range, in either direction and with either
rollover setting. -/
theorem increment_small_keeps_range (e : RotaryEncoder) (m incVal : Int) (hwf : e.WellFormed)
    (hmax : 0 < e.maximumValue) (hcur : e.currentReading ≤ e.maximumValue)
    (hm1 : 1 ≤ m) (hm10 : m ≤ 10) (hturn : e.maximumValue < 32 → m = 1)
    (hinc : incVal = m ∨ incVal = -m) :
    (e.increment incVal).1.currentReading ≤ e.maximumValue ∧
      (e.increment incVal).1.maximumValue = e.maximumValue := by
  obtain ⟨hw1, hw2⟩ := hwf
  have hne : e.maximumValue ≠ 0 := by omega
  simp only [RotaryEncoder.increment, if_neg hne, toU16, absInt, safeAbs]
  split_ifs <;> refine ⟨?_, rfl⟩ <;> (try simp only []) <;> omega

/-- The two outcomes of `encoderChanged` for the range: the object is unchanged in
`maximumValue` and `currentReading`, or it is the result of `acceptStep` on an object with
the same `maximumValue` and `currentReading`. -/
theorem encoderChanged_cases_reading (h : HardwareRotaryEncoder) (io : IoSnapshot) :
    (∃ g : HardwareRotaryEncoder,
        h.encoderChanged io = g.acceptStep (io.digitalRead h.pinA) (io.digitalRead h.pinB)
          io.micros ∧
        g.maximumValue = h.maximumValue ∧ g.currentReading = h.currentReading) ∨
      ((h.encoderChanged io).1.maximumValue = h.maximumValue ∧
        (h.encoderChanged io).1.currentReading = h.currentReading) := by
  simp only [HardwareRotaryEncoder.encoderChanged]
  split_ifs <;>
    first
      | exact Or.inr ⟨rfl, rfl⟩
      | exact Or.inl ⟨_, rfl, rfl, rfl⟩

/-- The step of an accepted sample keeps a reading that is in range in range. -/
theorem acceptStep_keeps_range (g : HardwareRotaryEncoder) (a b timeNow : Nat)
    (hwf : g.toRotaryEncoder.WellFormed) (hmax : 0 < g.maximumValue)
    (hcur : g.currentReading ≤ g.maximumValue) :
    (g.acceptStep a b timeNow).1.currentReading ≤ g.maximumValue ∧
      (g.acceptStep a b timeNow).1.maximumValue = g.maximumValue := by
  have hb := amountFromChange_bounds g (subU32 timeNow g.lastChange)
  have hturn : g.maximumValue < 32 → g.amountFromChange (subU32 timeNow g.lastChange) = 1 := by
    intro hlt
    unfold HardwareRotaryEncoder.amountFromChange
    simp only [ONE_TURN_OF_ENCODER]
    rw [if_pos (Or.inr hlt)]
  have hinc : toInt8 (if a ≠ b then -g.amountFromChange (subU32 timeNow g.lastChange)
        else g.amountFromChange (subU32 timeNow g.lastChange)) =
        g.amountFromChange (subU32 timeNow g.lastChange) ∨
      toInt8 (if a ≠ b then -g.amountFromChange (subU32 timeNow g.lastChange)
        else g.amountFromChange (subU32 timeNow g.lastChange)) =
        -g.amountFromChange (subU32 timeNow g.lastChange) := by
    rw [toInt8_of_small _ (by split_ifs <;> omega) (by split_ifs <;> omega)]
    split_ifs
    · exact Or.inr rfl
    · exact Or.inl rfl
  exact increment_small_keeps_range g.toRotaryEncoder _ _ hwf hmax hcur hb.1 hb.2 hturn hinc

/-- C25: for every hardware encoder (fields within `uint16_t`) with `maximumValue > 0` and
`currentReading ≤ maximumValue`, whatever the encoder type, the acceleration mode, the
rollover setting, the stored and the sampled levels and the times, after `encoderChanged`
the stored reading is still at most `maximumValue`, which is unchanged. -/
theorem encoderChanged_keeps_range (h : HardwareRotaryEncoder) (io : IoSnapshot)
    (hwf : h.toRotaryEncoder.WellFormed) (hmax : 0 < h.maximumValue)
    (hcur : h.currentReading ≤ h.maximumValue) :
    (h.encoderChanged io).1.currentReading ≤ (h.encoderChanged io).1.maximumValue ∧
      (h.encoderChanged io).1.maximumValue = h.maximumValue := by
  rcases encoderChanged_cases_reading h io with ⟨g, hg, hm, hr⟩ | ⟨hm, hr⟩
  · have hwfg : g.toRotaryEncoder.WellFormed := by
      unfold RotaryEncoder.WellFormed at hwf ⊢
      rw [hm, hr]
      exact hwf
    have hk := acceptStep_keeps_range g (io.digitalRead h.pinA) (io.digitalRead h.pinB)
      io.micros hwfg (by rw [hm]; exact hmax) (by rw [hm, hr]; exact hcur)
    rw [hg, hk.2, ← hm]
    exact ⟨hk.1, rfl⟩
  · rw [hm, hr]
    exact ⟨hcur, rfl⟩

/-- Witness of C25: a full-cycle encoder of range 0..100 with regular acceleration,
constructed at time 0 with both pins low, samples (1, 1) at time 1000. -/
theorem encoderChanged_keeps_range_witness :
    (hardwareWith 100 HWAccelerationMode.HWACCEL_REGULAR
      EncoderType.FULL_CYCLE).toRotaryEncoder.WellFormed ∧
    0 < (hardwareWith 100 HWAccelerationMode.HWACCEL_REGULAR
      EncoderType.FULL_CYCLE).maximumValue ∧
    (hardwareWith 100 HWAccelerationMode.HWACCEL_REGULAR
      EncoderType.FULL_CYCLE).currentReading ≤
      (hardwareWith 100 HWAccelerationMode.HWACCEL_REGULAR
        EncoderType.FULL_CYCLE).maximumValue ∧
    (((hardwareWith 100 HWAccelerationMode.HWACCEL_REGULAR
        EncoderType.FULL_CYCLE).encoderChanged (ioSample 1 1 1000)).1.currentReading ≤
      ((hardwareWith 100 HWAccelerationMode.HWACCEL_REGULAR
        EncoderType.FULL_CYCLE).encoderChanged (ioSample 1 1 1000)).1.maximumValue ∧
    ((hardwareWith 100 HWAccelerationMode.HWACCEL_REGULAR
        EncoderType.FULL_CYCLE).encoderChanged (ioSample 1 1 1000)).1.maximumValue =
      (hardwareWith 100 HWAccelerationMode.HWACCEL_REGULAR
        EncoderType.FULL_CYCLE).maximumValue) :=
  ⟨by decide, by decide, by decide,
    encoderChanged_keeps_range
      (hardwareWith 100 HWAccelerationMode.HWACCEL_REGULAR EncoderType.FULL_CYCLE)
      (ioSample 1 1 1000) (by decide) (by decide) (by decide)⟩

/-- The reading of the witness of C25 after the step: 10, out of 100. -/
theorem encoderChanged_range_sample :
    ((hardwareWith 100 HWAccelerationMode.HWACCEL_REGULAR
        EncoderType.FULL_CYCLE).encoderChanged (ioSample 1 1 1000)).1.currentReading = 10 := by
  decide

/-! ## A step up followed by the same step down, with rollover -/

/-- A call of `increment` changes neither `maximumValue` nor the rollover setting. -/
theorem increment_fields (e : RotaryEncoder) (incVal : Int) :
    (e.increment incVal).1.maximumValue = e.maximumValue ∧
      (e.increment incVal).1.rollover = e.rollover := by
  simp only [RotaryEncoder.increment]
  split_ifs <;> exact ⟨rfl, rfl⟩

/-- The negative branch with rollover on, for a step of at most `maximumValue + 1`: a reading
below the step becomes `maximumValue - |incVal| + 1`, whatever it was, and any other reading
is lowered by the step. -/
theorem increment_down_rollover (e : RotaryEncoder) (incVal : Int) (hwf : e.WellFormed)
    (hmax : 0 < e.maximumValue) (hroll : e.rollover = true) (hneg : incVal < 0)
    (hle : -incVal ≤ (e.maximumValue : Int) + 1) :
    ((e.increment incVal).1.currentReading : Int) =
      (if (e.currentReading : Int) < -incVal then (e.maximumValue : Int) + incVal + 1
        else (e.currentReading : Int) + incVal) := by
  obtain ⟨hw1, hw2⟩ := hwf
  have hne : e.maximumValue ≠ 0 := by omega
  simp only [RotaryEncoder.increment, if_neg hne, toU16, absInt, safeAbs, hroll]
  split_ifs <;> (try simp only []) <;> omega

/-- With rollover on, `increment(d)` followed by `increment(-d)` restores the reading exactly
when the step up does not wrap, or wraps onto 0: the step down that underflows stores
`maximumValue - d + 1` whatever the reading was. -/
theorem rollover_round_trip_iff (e : RotaryEncoder) (d : Int) (hwf : e.WellFormed)
    (hmax : 0 < e.maximumValue) (hcur : e.currentReading ≤ e.maximumValue)
    (hroll : e.rollover = true) (hd1 : 1 ≤ d) (hdmax : d ≤ (e.maximumValue : Int))
    (hsum : (e.currentReading : Int) + d < 65536) :
    ((e.increment d).1.increment (-d)).1.currentReading = e.currentReading ↔
      ((e.currentReading : Int) + d ≤ e.maximumValue ∨
        (e.currentReading : Int) + d = e.maximumValue + 1) := by
  have h1 := (increment_rollover_below_uint16_limit e d hmax (by omega) hroll hsum).1
  obtain ⟨hm1, hr1⟩ := increment_fields e d
  have hw := hwf
  obtain ⟨hw1, hw2⟩ := hw
  have hwf1 : (e.increment d).1.WellFormed := by
    refine ⟨by rw [hm1]; exact hw1, ?_⟩
    split_ifs at h1 <;> omega
  have h2 := increment_down_rollover (e.increment d).1 (-d) hwf1 (by rw [hm1]; exact hmax)
    (by rw [hr1]; exact hroll) (by omega) (by rw [hm1]; omega)
  rw [hm1] at h2
  split_ifs at h1 h2 <;> omega

/-- C26, the code at the failing input: range 0..10, rollover on, reading 9 (set up by
`changePrecision(10, 9, true)`) and `d = 3`. `increment(3)` stores 1 (12 - 10 - 1), and the
following `increment(-3)` stores 8 (10 - 3 + 1), not the original 9. -/
theorem rollover_round_trip_fails :
    0 < (encoderWith 10 9 true).maximumValue ∧
    (encoderWith 10 9 true).currentReading = 9 ∧
    (encoderWith 10 9 true).currentReading ≤ (encoderWith 10 9 true).maximumValue ∧
    (encoderWith 10 9 true).rollover = true ∧
    ((encoderWith 10 9 true).increment 3).1.currentReading = 1 ∧
    (((encoderWith 10 9 true).increment 3).1.increment (-3)).1.currentReading = 8 ∧
    (((encoderWith 10 9 true).increment 3).1.increment (-3)).1.currentReading ≠
      (encoderWith 10 9 true).currentReading := by
  decide

/-! ## `SwitchInput::onRelease` -/

/-- The branch of `onRelease` is chosen by the pin number, not by the entry found: for a pin
other than 0 with no entry registered, the call goes through the null pointer that
`getByKey` returned. -/
theorem onRelease_of_missing_entry (s : SwitchInput) (pin : Int) (callbackOnRelease : Nat)
    (hdev : s.ioDevice ≠ 0) (hpin : pin ≠ 0) (hkey : BtreeList.getByKey s.keys pin = none) :
    s.onRelease pin callbackOnRelease = none := by
  simp only [SwitchInput.onRelease, if_neg hdev, hkey]
  rw [if_pos hpin]

/-- For a pin other than 0 with an entry registered, `onRelease` sets the release callback
of that entry and adds no entry. -/
theorem onRelease_of_registered_pin (s : SwitchInput) (pin : Int) (callbackOnRelease i : Nat)
    (hdev : s.ioDevice ≠ 0) (hpin : pin ≠ 0) (hkey : BtreeList.getByKey s.keys pin = some i) :
    s.onRelease pin callbackOnRelease =
      some { s with
        keys := (s.keys.modify (fun key => key.onRelease callbackOnRelease) i) } := by
  simp only [SwitchInput.onRelease, if_neg hdev, hkey]
  rw [if_pos hpin]

/-- For pin 0, `onRelease` adds a new entry whether or not one is registered, and changes no
registered entry. -/
theorem onRelease_of_pin_zero (s : SwitchInput) (callbackOnRelease : Nat)
    (hdev : s.ioDevice ≠ 0) :
    s.onRelease 0 callbackOnRelease =
      some { s with
        keys := (s.keys ++
          [(KeyboardItem.withCallback 0 0 NO_REPEAT false).onRelease callbackOnRelease]) } := by
  simp [SwitchInput.onRelease, if_neg hdev, SwitchInput.internalAddSwitch, BtreeList.add]

/-- C21, the code at two failing inputs. With no key registered, `onRelease(5, cb)` finds no
entry for pin 5 and calls `onRelease` through the null pointer: no entry is added. With a key
registered on pin 0 by `addSwitch(0, callback)`, `onRelease(0, cb)` leaves the release
callback of that entry unset and adds a second entry for pin 0. -/
theorem onRelease_tests_pin_instead_of_entry :
    BtreeList.getByKey (switchesWith 1 [] none).keys 5 = none ∧
    (switchesWith 1 [] none).onRelease 5 2 = none ∧
    (((switchesWith 1 [] none).addSwitch 0 1 NO_REPEAT false).1.keys =
      [KeyboardItem.withCallback 0 1 NO_REPEAT false]) ∧
    BtreeList.getByKey ((switchesWith 1 [] none).addSwitch 0 1 NO_REPEAT false).1.keys 0 =
      some 0 ∧
    ((((switchesWith 1 [] none).addSwitch 0 1 NO_REPEAT false).1.onRelease 0 2).map
        fun s => s.keys) =
      some [KeyboardItem.withCallback 0 1 NO_REPEAT false,
        (KeyboardItem.withCallback 0 0 NO_REPEAT false).onRelease 2] ∧
    (KeyboardItem.withCallback 0 1 NO_REPEAT false).callbackOnRelease = 0 := by
  decide

end SwitchInput
